import Mathlib

/-!
# BL4 ImGui plugin manager: call-interception registry and presentation hook

A shallow embedding of

* `plugin_manager_base/Plugin_Manager_Base_SDK/HookSystem.cpp`
  (the identity-keyed callback registry and `HookedProcessEvent`),
* `plugin_manager_base/Plugin_Manager_Base_SDK/SimpleHookManager.cpp`
  (`MinHookWrapper`, `RegisterHook`, `UnregisterHook`),
* `gui-plugin-manager/d3d12hook.cpp` (the presentation hooks),
* the `DLL_PROCESS_DETACH` branch of `gui-plugin-manager/dllmain.cpp`,
* `ParseVirtualKey` and `VirtualKeyToString` of `gui-plugin-manager/Settings.cpp`,

followed by theorems about them.

Conventions of the embedding.

* A `std::function` value is identified by a number (`CallbackId`); the empty
  `std::function` (`nullptr`) is `none`.  What a callback does when it is invoked is
  supplied separately (`Behaviour`): the registry calls it makes through the public
  API while it runs, and how it leaves (returns, throws something derived from
  `std::exception`, throws anything else, raises a structured fault).
* `std::map<std::string, V>` is an association list; only `find`, `erase`,
  `operator[]` and `empty` are used by the source, and none of them observes the
  order of the keys.
* Everything a function does to the outside world is recorded in a trace of events.
* Execution is sequential: one call runs to completion before the next one starts.
-/

set_option linter.unusedVariables false

namespace PluginAPI

/-! ## Data model -/

/-- Identity of a callable stored in a `std::function` object. -/
abbrev CallbackId := Nat

/-- The C++ `PreHookCallback`: a `std::function<void(void*, void*, void*)>`, `none` when empty. -/
abbrev PreHookCallback := Option CallbackId

/-- The C++ `PostHookCallback`: a `std::function<void(void*, void*, void*)>`, `none` when empty. -/
abbrev PostHookCallback := Option CallbackId

/-- The metadata object `SDK::UClass`, as far as the hook system reads it (`GetName()`). -/
structure UClass where
  Name : String
  deriving DecidableEq, Repr

/-- The callee `SDK::UObject`: its address and its `Class` pointer (`none` when null). -/
structure UObject where
  Address : Nat
  Class : Option UClass
  deriving DecidableEq, Repr

/-- The function descriptor `SDK::UFunction`: its address and what `GetName()` returns. -/
structure UFunction where
  Address : Nat
  Name : String
  deriving DecidableEq, Repr

/-- The three arguments of a `ProcessEvent` call; a null pointer is `none`. -/
structure Args where
  Object : Option UObject
  Function : Option UFunction
  Params : Nat
  deriving DecidableEq, Repr

/-- The external metadata lookup used by `RegisterHook`. -/
structure SDKLookup where
  FindClassByName : String → Option UClass
  GetFunction : UClass → String → String → Option UFunction

/-- How an invoked callback leaves. -/
inductive Outcome where
  | returns
  | throwsStd (what : String)
  | throwsOther
  | faults
  deriving DecidableEq, Repr

/-- A call of the public registry API. -/
inductive RegistryOp where
  | RegisterHook (ClassName FunctionName : String) (PreCallback : PreHookCallback)
      (PostCallback : PostHookCallback)
  | UnregisterHook (ClassName FunctionName : String)
  | RegisterGlobalPreCallback (Callback : PreHookCallback)
  | RegisterGlobalPostCallback (Callback : PostHookCallback)
  deriving DecidableEq, Repr

/-- What one invocation of a callback does: registry calls, then the way it leaves. -/
structure Effect where
  ops : List RegistryOp
  outcome : Outcome
  deriving DecidableEq, Repr

/-- The behaviour of every callable, by identity and arguments. -/
abbrev Behaviour := CallbackId → Args → Effect

/-! ## `std::map<std::string, V>` -/

/-- The C++ `map::find`: the value stored under `key`, if any. -/
def mapFind {K V : Type} [DecidableEq K] : List (K × V) → K → Option V
  | [], _ => none
  | (k, v) :: rest, key => if k = key then some v else mapFind rest key

/-- The C++ `map::erase` of the element with key `key`. -/
def mapErase {K V : Type} [DecidableEq K] (m : List (K × V)) (key : K) : List (K × V) :=
  m.filter (fun e => decide (e.1 ≠ key))

/-- Write `v` through an iterator that points at `key`. -/
def mapAssign {K V : Type} [DecidableEq K] : List (K × V) → K → V → List (K × V)
  | [], _, _ => []
  | (k, v) :: rest, key, w =>
    if k = key then (k, w) :: rest else (k, v) :: mapAssign rest key w

/-- The C++ `m[key]` followed by a mutation `f` of the referenced value; an absent key is
first inserted with the value-initialised `dflt`. -/
def mapSubscript {K V : Type} [DecidableEq K] :
    List (K × V) → K → V → (V → V) → List (K × V)
  | [], key, dflt, f => [(key, f dflt)]
  | (k, v) :: rest, key, dflt, f =>
    if k = key then (k, f v) :: rest else (k, v) :: mapSubscript rest key dflt f

/-- The nested dictionary `std::map<std::string, std::map<std::string, std::vector<cb>>>`. -/
abbrev CallbackDict := List (String × List (String × List (Option CallbackId)))

/-- The statement `dict[ClassName][FunctionName].push_back(Callback)`. -/
def dictPushBack (dict : CallbackDict) (ClassName FunctionName : String)
    (Callback : Option CallbackId) : CallbackDict :=
  mapSubscript dict ClassName []
    (fun inner => mapSubscript inner FunctionName [] (fun v => v ++ [Callback]))

/-- The two nested `find`s of `GetPreCallbacksByClass` / `GetPostCallbacksByClass`. -/
def dictLookup (dict : CallbackDict) (ClassName FunctionName : String) :
    List (Option CallbackId) :=
  match mapFind dict ClassName with
  | some inner =>
    match mapFind inner FunctionName with
    | some callbacks => callbacks
    | none => []
  | none => []

/-- One of the two removal blocks of `UnregisterHook`: erase the function bucket, then the
class entry when it became empty; the flag tells whether a bucket was found. -/
def dictRemove (dict : CallbackDict) (ClassName FunctionName : String) : CallbackDict × Bool :=
  match mapFind dict ClassName with
  | none => (dict, false)
  | some inner =>
    let found := (mapFind inner FunctionName).isSome
    let inner1 := if found then mapErase inner FunctionName else inner
    if inner1.isEmpty then (mapErase dict ClassName, found)
    else (mapAssign dict ClassName inner1, found)

/-! ## `HookSystem` -/

/-- The data members of the `HookSystem` singleton (the mutexes carry no data). -/
structure HookSystem where
  m_PreCallbacksByClass : CallbackDict
  m_PostCallbacksByClass : CallbackDict
  m_GlobalPreCallbacks : List PreHookCallback
  m_GlobalPostCallbacks : List PostHookCallback
  deriving DecidableEq, Repr

/-- The registry at start-up. -/
def HookSystem.initial : HookSystem := ⟨[], [], [], []⟩

/-- The C++ `HookSystem::GetPreCallbacksByClass`. -/
def HookSystem.GetPreCallbacksByClass (s : HookSystem) (ClassName FunctionName : String) :
    List PreHookCallback :=
  dictLookup s.m_PreCallbacksByClass ClassName FunctionName

/-- The C++ `HookSystem::GetPostCallbacksByClass`. -/
def HookSystem.GetPostCallbacksByClass (s : HookSystem) (ClassName FunctionName : String) :
    List PostHookCallback :=
  dictLookup s.m_PostCallbacksByClass ClassName FunctionName

/-- The C++ `HookSystem::GetGlobalPreCallbacks`. -/
def HookSystem.GetGlobalPreCallbacks (s : HookSystem) : List PreHookCallback :=
  s.m_GlobalPreCallbacks

/-- The C++ `HookSystem::GetGlobalPostCallbacks`. -/
def HookSystem.GetGlobalPostCallbacks (s : HookSystem) : List PostHookCallback :=
  s.m_GlobalPostCallbacks

/-- The C++ `HookSystem::RegisterHook(ClassName, FunctionName, PreCallback, PostCallback)`;
the result is the registry afterwards and the returned `bool`.  (`bSilent` only switches
logging.) -/
def HookSystem.RegisterHook (sdk : SDKLookup) (s : HookSystem)
    (ClassName FunctionName : String) (PreCallback : PreHookCallback)
    (PostCallback : PostHookCallback) : HookSystem × Bool :=
  if ClassName = "" ∨ FunctionName = "" then (s, false)
  else
    match sdk.FindClassByName ClassName with
    | none => (s, false)
    | some TargetClass =>
      match sdk.GetFunction TargetClass ClassName FunctionName with
      | none => (s, false)
      | some _ =>
        let s1 : HookSystem :=
          if PreCallback.isSome then
            { s with m_PreCallbacksByClass :=
                dictPushBack s.m_PreCallbacksByClass ClassName FunctionName PreCallback }
          else s
        let s2 : HookSystem :=
          if PostCallback.isSome then
            { s1 with m_PostCallbacksByClass :=
                dictPushBack s1.m_PostCallbacksByClass ClassName FunctionName PostCallback }
          else s1
        (s2, true)

/-- The C++ `HookSystem::UnregisterHook(ClassName, FunctionName)`. -/
def HookSystem.UnregisterHook (s : HookSystem) (ClassName FunctionName : String) :
    HookSystem × Bool :=
  if ClassName = "" ∨ FunctionName = "" then (s, false)
  else
    let pre := dictRemove s.m_PreCallbacksByClass ClassName FunctionName
    let post := dictRemove s.m_PostCallbacksByClass ClassName FunctionName
    let bFound := pre.2 || post.2
    ({ s with m_PreCallbacksByClass := pre.1, m_PostCallbacksByClass := post.1 }, bFound)

/-- The C++ `HookSystem::RegisterGlobalPreCallback`. -/
def HookSystem.RegisterGlobalPreCallback (s : HookSystem) (Callback : PreHookCallback) :
    HookSystem :=
  { s with m_GlobalPreCallbacks := s.m_GlobalPreCallbacks ++ [Callback] }

/-- The C++ `HookSystem::RegisterGlobalPostCallback`. -/
def HookSystem.RegisterGlobalPostCallback (s : HookSystem) (Callback : PostHookCallback) :
    HookSystem :=
  { s with m_GlobalPostCallbacks := s.m_GlobalPostCallbacks ++ [Callback] }

/-- Run one public API call on the registry. -/
def applyOp (sdk : SDKLookup) (s : HookSystem) : RegistryOp → HookSystem
  | .RegisterHook c f pre post => (s.RegisterHook sdk c f pre post).1
  | .UnregisterHook c f => (s.UnregisterHook c f).1
  | .RegisterGlobalPreCallback cb => s.RegisterGlobalPreCallback cb
  | .RegisterGlobalPostCallback cb => s.RegisterGlobalPostCallback cb

/-- Run a sequence of public API calls, first to last. -/
def applyOps (sdk : SDKLookup) (s : HookSystem) (ops : List RegistryOp) : HookSystem :=
  ops.foldl (applyOp sdk) s

/-! ## `HookedProcessEvent` -/

/-- The four places of `HookedProcessEvent` at which callbacks are invoked. -/
inductive Site where
  | globalPre
  | pre
  | post
  | globalPost
  deriving DecidableEq, Repr

/-- The two mutexes of `HookSystem`. -/
inductive Mutex where
  | m_HooksMutex
  | m_GlobalCallbacksMutex
  deriving DecidableEq, Repr

/-- What `HookedProcessEvent` does to the outside world, in order. -/
inductive Event where
  | invoke (site : Site) (cb : CallbackId) (args : Args)
  | original (fn : Nat) (args : Args)
  | logError (msg : String)
  | debugString (msg : String)
  | lock (m : Mutex)
  | unlock (m : Mutex)
  deriving DecidableEq, Repr

/-- How a call of `HookedProcessEvent` ends: it returns to the host caller, or an exception
or fault leaves it and unwinds into the host caller. -/
inductive Completion where
  | returned
  | escaped
  deriving DecidableEq, Repr

/-- The `lock_guard` of each public API call a callback makes. -/
def opLocks : RegistryOp → List Event
  | .RegisterHook _ _ _ _ => [.lock .m_HooksMutex, .unlock .m_HooksMutex]
  | .UnregisterHook _ _ => [.lock .m_HooksMutex, .unlock .m_HooksMutex]
  | .RegisterGlobalPreCallback _ =>
    [.lock .m_GlobalCallbacksMutex, .unlock .m_GlobalCallbacksMutex]
  | .RegisterGlobalPostCallback _ =>
    [.lock .m_GlobalCallbacksMutex, .unlock .m_GlobalCallbacksMutex]

/-- The text passed to `LogError` by the `catch (const std::exception&)` of each loop. -/
def exceptionMessage (site : Site) (what : String) : String :=
  match site with
  | .globalPre => "Exception in global pre-callback: " ++ what
  | .pre => "Exception in pre-callback: " ++ what
  | .post => "Exception in post-callback: " ++ what
  | .globalPost => "Exception in global post-callback: " ++ what

/-- Debug output written before the call inside the `try` block of a loop. -/
def debugBefore (site : Site) (bIsMenuFunction : Bool) (ClassName FunctionName : String) :
    List Event :=
  if site = .pre ∧ bIsMenuFunction = true then
    [.debugString ("[HookedProcessEvent] Invoking pre-callback for " ++ ClassName ++ "::"
      ++ FunctionName ++ "\n")]
  else []

/-- Debug output written after the call inside the `try` block of a loop. -/
def debugAfter (site : Site) (bIsMenuFunction : Bool) : List Event :=
  if site = .pre ∧ bIsMenuFunction = true then
    [.debugString "[HookedProcessEvent] Pre-callback completed\n"]
  else []

/-- One of the four `for (const auto& Callback : ...)` loops of `HookedProcessEvent`, over a
snapshot `callbacks`: an empty `std::function` is skipped; a callback is invoked inside
`try`; `catch (const std::exception&)` logs and goes on; anything else leaves the loop and
the function. -/
def fireCallbacks (sdk : SDKLookup) (beh : Behaviour) (site : Site) (bIsMenuFunction : Bool)
    (ClassName FunctionName : String) (args : Args) :
    List (Option CallbackId) → HookSystem → HookSystem × List Event × Completion
  | [], s => (s, [], .returned)
  | none :: rest, s =>
    fireCallbacks sdk beh site bIsMenuFunction ClassName FunctionName args rest s
  | some cb :: rest, s =>
    let eff := beh cb args
    let s1 := applyOps sdk s eff.ops
    let called : List Event :=
      debugBefore site bIsMenuFunction ClassName FunctionName
        ++ [.invoke site cb args] ++ eff.ops.flatMap opLocks
    match eff.outcome with
    | .returns =>
      let r := fireCallbacks sdk beh site bIsMenuFunction ClassName FunctionName args rest s1
      (r.1, called ++ debugAfter site bIsMenuFunction ++ r.2.1, r.2.2)
    | .throwsStd what =>
      let r := fireCallbacks sdk beh site bIsMenuFunction ClassName FunctionName args rest s1
      (r.1, called ++ [.logError ("[HookSystem ERROR] " ++ exceptionMessage site what ++ "\n")]
        ++ r.2.1, r.2.2)
    | .throwsOther => (s1, called, .escaped)
    | .faults => (s1, called, .escaped)

/-- Character `i` of `s.c_str()`. -/
def cstrAt (s : String) (i : Nat) : Char :=
  s.data.getD i (Char.ofNat 0)

/-- The "fast path" test of `HookedProcessEvent`: the name is `MenuOpen` or `MenuClose`. -/
def isMenuFunctionName (n : String) : Bool :=
  (cstrAt n 0 == 'M' && cstrAt n 1 == 'e' && cstrAt n 2 == 'n' && cstrAt n 3 == 'u') &&
    ((cstrAt n 4 == 'O' && cstrAt n 5 == 'p' && cstrAt n 6 == 'e' && cstrAt n 7 == 'n'
        && cstrAt n 8 == Char.ofNat 0) ||
     (cstrAt n 4 == 'C' && cstrAt n 5 == 'l' && cstrAt n 6 == 'o' && cstrAt n 7 == 's'
        && cstrAt n 8 == 'e' && cstrAt n 9 == Char.ofNat 0))

/-- The class name used as map key: `Object->Class->GetName()`, or `"Unknown"` when the
callee has no class metadata. -/
def classNameOf (Object : UObject) : String :=
  match Object.Class with
  | some c => c.Name
  | none => "Unknown"

/-- The call `g_OriginalProcessEvent(Object, Function, Params)` behind its null test. -/
def callOriginal (g_OriginalProcessEvent : Option Nat) (args : Args) : List Event :=
  match g_OriginalProcessEvent with
  | some fn => [.original fn args]
  | none => []

/-- The C++ `HookedProcessEvent(Object, Function, Params)`: the registry afterwards, the
trace, and how the call ended.  `g_OriginalProcessEvent` is the saved trampoline (`none`
while it is null). -/
def HookedProcessEvent (sdk : SDKLookup) (beh : Behaviour) (g_OriginalProcessEvent : Option Nat)
    (s : HookSystem) (args : Args) : HookSystem × List Event × Completion :=
  match args.Object, args.Function with
  | some Object, some Function =>
    let GlobalPreCallbacks := s.GetGlobalPreCallbacks
    let t0 : List Event := [.lock .m_GlobalCallbacksMutex, .unlock .m_GlobalCallbacksMutex]
    let FunctionName := Function.Name
    let ClassName := classNameOf Object
    let bIsMenuFunction := isMenuFunctionName FunctionName
    let r1 := fireCallbacks sdk beh .globalPre bIsMenuFunction ClassName FunctionName args
      GlobalPreCallbacks s
    match r1.2.2 with
    | .escaped => (r1.1, t0 ++ r1.2.1, .escaped)
    | .returned =>
      let PreCallbacks := r1.1.GetPreCallbacksByClass ClassName FunctionName
      let PostCallbacks := r1.1.GetPostCallbacksByClass ClassName FunctionName
      let t1 : List Event :=
        [.lock .m_HooksMutex, .unlock .m_HooksMutex, .lock .m_HooksMutex, .unlock .m_HooksMutex]
          ++ (if bIsMenuFunction then
                [.debugString ("[HookedProcessEvent] " ++ ClassName ++ "::" ++ FunctionName
                  ++ " - Found " ++ toString PreCallbacks.length ++ " pre-callbacks, "
                  ++ toString PostCallbacks.length ++ " post-callbacks\n")]
              else [])
      let r2 := fireCallbacks sdk beh .pre bIsMenuFunction ClassName FunctionName args
        PreCallbacks r1.1
      match r2.2.2 with
      | .escaped => (r2.1, t0 ++ r1.2.1 ++ t1 ++ r2.2.1, .escaped)
      | .returned =>
        let t2 := callOriginal g_OriginalProcessEvent args
        let r3 := fireCallbacks sdk beh .post bIsMenuFunction ClassName FunctionName args
          PostCallbacks r2.1
        match r3.2.2 with
        | .escaped => (r3.1, t0 ++ r1.2.1 ++ t1 ++ r2.2.1 ++ t2 ++ r3.2.1, .escaped)
        | .returned =>
          let GlobalPostCallbacks := r3.1.GetGlobalPostCallbacks
          let t3 : List Event :=
            [.lock .m_GlobalCallbacksMutex, .unlock .m_GlobalCallbacksMutex]
          let r4 := fireCallbacks sdk beh .globalPost bIsMenuFunction ClassName FunctionName
            args GlobalPostCallbacks r3.1
          (r4.1, t0 ++ r1.2.1 ++ t1 ++ r2.2.1 ++ t2 ++ r3.2.1 ++ t3 ++ r4.2.1, r4.2.2)
  | _, _ => (s, callOriginal g_OriginalProcessEvent args, .returned)

/-- The calls made by `HookedProcessEvent`, in order: the trace without logging and locking. -/
def invocations (t : List Event) : List Event :=
  t.filter (fun e =>
    match e with
    | .invoke _ _ _ => true
    | .original _ _ => true
    | _ => false)

/-- The invocations of the non-empty callbacks of a snapshot at one site, in order. -/
def callsOf (site : Site) (args : Args) (callbacks : List (Option CallbackId)) : List Event :=
  (callbacks.filterMap id).map (fun cb => Event.invoke site cb args)

/-- The registry after `n` successive calls of `HookedProcessEvent` with the same arguments,
with the concatenated trace. -/
def dispatchTimes (sdk : SDKLookup) (beh : Behaviour) (g_OriginalProcessEvent : Option Nat)
    (args : Args) : Nat → HookSystem → HookSystem × List Event
  | 0, s => (s, [])
  | n + 1, s =>
    let r := HookedProcessEvent sdk beh g_OriginalProcessEvent s args
    let rest := dispatchTimes sdk beh g_OriginalProcessEvent args n r.1
    (rest.1, r.2.1 ++ rest.2)

end PluginAPI

/-! # `SimpleHookManager` -/

namespace PluginAPI

/-- Modelled from the spec: the status codes of the trampoline primitive (`MinHook.h` is
not among the sources): `OK`, `AlreadyHooked`, `NotExecutable`, `NotEnoughMemory`,
`UnsupportedShape`, `AllocFailed`, and the "already initialised" answer of the library
initialisation that `RegisterHook` accepts. -/
inductive MH_STATUS where
  | MH_OK
  | MH_ERROR_ALREADY_INITIALIZED
  | MH_ERROR_ALREADY_CREATED
  | MH_ERROR_NOT_EXECUTABLE
  | MH_ERROR_NOT_ENOUGH_MEMORY
  | MH_ERROR_UNSUPPORTED_FUNCTION
  | MH_ERROR_MEMORY_ALLOC
  deriving DecidableEq, Repr

/-- The C++ `struct HookEntry`; `HookCallback` is a plain function pointer `void (*)()`. -/
structure HookEntry where
  ClassName : String
  FunctionName : String
  Callback : Option CallbackId
  OriginalFunction : Option Nat
  TargetAddress : Nat
  deriving DecidableEq, Repr

/-- The file-scope variables of `SimpleHookManager.cpp`. -/
structure SimpleHookState where
  g_HookCallbacks : List (Nat × Option CallbackId)
  g_Hooks : List HookEntry
  g_HookMap : List (String × Nat)
  g_MinHookInitialized : Bool
  deriving DecidableEq, Repr

/-- The variables at start-up. -/
def SimpleHookState.initial : SimpleHookState := ⟨[], [], [], false⟩

/-- The outside world of `SimpleHookManager::RegisterHook`: the metadata lookup, the native
entry address `ExecFunction` of a function descriptor, and the answers of the trampoline
primitive (`MH_CreateHook` answers with the status and the value stored in `*ppOriginal`;
`MH_EnableHookAgain` is the answer to the second `MH_EnableHook` of the recovery). -/
structure NativeEnv where
  sdk : SDKLookup
  ExecFunction : UFunction → Option Nat
  MH_Initialize : MH_STATUS
  MH_CreateHook : Nat → MH_STATUS × Option Nat
  MH_EnableHook : Nat → MH_STATUS
  MH_EnableHookAgain : Nat → MH_STATUS

/-- What a call of a patched native function does, in order. -/
inductive NativeEvent where
  | lock
  | unlock
  | callback (cb : CallbackId)
  | original (fn : Nat) (Obj Stack Result : Nat)
  deriving DecidableEq, Repr

/-- The C++ `MinHookWrapper(Obj, Stack, Result)`, the replacement every hook installed by
`SimpleHookManager::RegisterHook` jumps to. -/
def MinHookWrapper (st : SimpleHookState) (Obj Stack Result : Nat) : List NativeEvent :=
  match mapFind st.g_HookCallbacks Obj with
  | some (some cb) => [.lock, .callback cb, .unlock]
  | _ => [.lock, .unlock]

/-- The registry key `std::string(ClassName) + "::" + FunctionName`. -/
def hookKey (ClassName FunctionName : String) : String :=
  ClassName ++ "::" ++ FunctionName

/-- The C++ `SimpleHookManager::RegisterHook(ClassName, FunctionName, Callback)`; a null
`const char*` or function pointer is `none`. -/
def SimpleHookManager.RegisterHook (env : NativeEnv) (st : SimpleHookState)
    (ClassName FunctionName : Option String) (Callback : Option CallbackId) :
    SimpleHookState × Bool :=
  match ClassName, FunctionName, Callback with
  | some ClassName, some FunctionName, some cb =>
    let key := hookKey ClassName FunctionName
    if (mapFind st.g_HookMap key).isSome then (st, false)
    else
      match env.sdk.FindClassByName ClassName with
      | none => (st, false)
      | some TargetClass =>
        match env.sdk.GetFunction TargetClass ClassName FunctionName with
        | none => (st, false)
        | some TargetFunction =>
          match env.ExecFunction TargetFunction with
          | none => (st, false)
          | some pTarget =>
            if !st.g_MinHookInitialized ∧ env.MH_Initialize ≠ .MH_OK
                ∧ env.MH_Initialize ≠ .MH_ERROR_ALREADY_INITIALIZED then (st, false)
            else
              let st1 : SimpleHookState := { st with g_MinHookInitialized := true }
              let created := env.MH_CreateHook pTarget
              if created.1 ≠ .MH_OK then (st1, false)
              else if env.MH_EnableHook pTarget ≠ .MH_OK
                  ∧ env.MH_EnableHookAgain pTarget ≠ .MH_OK then (st1, false)
              else
                let entry : HookEntry :=
                  { ClassName := ClassName, FunctionName := FunctionName, Callback := some cb,
                    OriginalFunction := created.2, TargetAddress := pTarget }
                let index := st1.g_Hooks.length
                ({ st1 with
                    g_Hooks := st1.g_Hooks ++ [entry],
                    g_HookMap := mapSubscript st1.g_HookMap key 0 (fun _ => index),
                    g_HookCallbacks :=
                      mapSubscript st1.g_HookCallbacks pTarget none (fun _ => some cb) }, true)
  | _, _, _ => (st, false)

/-- The C++ `SimpleHookManager::UnregisterHook(ClassName, FunctionName)`. -/
def SimpleHookManager.UnregisterHook (st : SimpleHookState)
    (ClassName FunctionName : Option String) : SimpleHookState × Bool :=
  match ClassName, FunctionName with
  | some ClassName, some FunctionName =>
    let key := hookKey ClassName FunctionName
    match mapFind st.g_HookMap key with
    | none => (st, false)
    | some index =>
      match st.g_Hooks.get? index with
      | none => (st, false)
      | some entry =>
        ({ st with
            g_HookCallbacks := mapErase st.g_HookCallbacks entry.TargetAddress,
            g_Hooks := st.g_Hooks.eraseIdx index,
            g_HookMap :=
              (mapErase st.g_HookMap key).map
                (fun pair => if pair.2 > index then (pair.1, pair.2 - 1) else pair) }, true)
  | _, _ => (st, false)

end PluginAPI

/-! # The presentation hooks (`d3d12hook.cpp`) -/

namespace d3d12hook

/-- A COM interface pointer or an OS handle; the null pointer is `none` where one is stored. -/
abbrev Handle := Nat

/-- The return value of `WaitForSingleObject`. -/
inductive WaitResult where
  | WAIT_OBJECT_0
  | WAIT_TIMEOUT
  | other
  deriving DecidableEq, Repr

/-- The C++ `struct FrameContext`. -/
structure FrameContext where
  allocator : Option Handle
  renderTarget : Option Handle
  rtvHandle : Nat
  deriving DecidableEq, Repr

/-- The file-scope variables of `d3d12hook.cpp` (and `menu::isOpen`, and the function-local
static `wasMenuKeyPressed`).  `gFrameContexts` is `none` while the pointer is null.  The
time points of the F1 lock are not stored: comparisons against the clock are answered by
the environment. -/
structure State where
  gDevice : Option Handle
  gCommandQueue : Option Handle
  gHeapRTV : Option Handle
  gHeapSRV : Option Handle
  gCommandList : Option Handle
  gOverlayFence : Option Handle
  gFenceEvent : Option Handle
  gOverlayFenceValue : Nat
  gBufferCount : Nat
  gFrameContexts : Option (List FrameContext)
  gInitialized : Bool
  gShutdown : Bool
  gAfterFirstPresent : Bool
  f1LockActive : Bool
  notificationActive : Bool
  wasMenuKeyPressed : Bool
  isOpen : Bool
  deriving DecidableEq, Repr

/-- The variables as initialised at load time. -/
def State.initial : State :=
  { gDevice := none, gCommandQueue := none, gHeapRTV := none, gHeapSRV := none,
    gCommandList := none, gOverlayFence := none, gFenceEvent := none,
    gOverlayFenceValue := 0, gBufferCount := 0, gFrameContexts := none,
    gInitialized := false, gShutdown := false, gAfterFirstPresent := false,
    f1LockActive := true, notificationActive := false, wasMenuKeyPressed := false,
    isOpen := false }

/-- The answers of the outside world (clock, keyboard, swap chain, device, fence, queue, UI
toolkit, original functions) during one hook call.  A creation call answers `none` when it
fails, and the null pointer is then what its out-parameter holds; a `Bool` answer is
`SUCCEEDED(hr)` unless said otherwise.  `rtvHeapStart` (a `SIZE_T`) and `rtvSize` (a
`UINT`) are reduced to their width where the code computes with them. -/
structure Env where
  lockExpired : Bool
  notificationPastLock : Bool
  notificationPastDisplay : Bool
  IsHotkeyPressed : Bool
  GetAsyncKeyStateBit : Bool
  swapChainGetDevice : Option Handle
  BufferCount : Nat
  OutputWindow : Handle
  Format : Nat
  GetBuffer : Nat → Option Handle
  GetCurrentBackBufferIndex : Nat
  CreateDescriptorHeapRTV : Option Handle
  CreateDescriptorHeapSRV : Option Handle
  CreateCommandAllocator : Nat → Option Handle
  rtvHeapStart : Nat
  rtvSize : Nat
  CreateFence : Option Handle
  CreateEvent : Option Handle
  CreateCommandList : Option Handle
  deviceRemoved : Bool
  GetCompletedValue : Nat
  SetEventOnCompletion : Bool
  WaitForSingleObject : WaitResult
  allocatorReset : Bool
  commandListReset : Bool
  Signal : Bool
  GetCurrentContext : Bool
  mainWindow : Option Handle
  queueGetDevice : Option (Option Handle)
  queueIsDirect : Bool
  oPresentD3D12 : Handle → Nat → Nat → Int
  oPresent1D3D12 : Handle → Nat → Nat → Nat → Int
  oResizeBuffersD3D12 : Handle → Nat → Nat → Nat → Nat → Nat → Int

/-- Calls of the original (un-hooked) functions behind the four hooks. -/
inductive OriginalCall where
  | Present (pSwapChain : Handle) (SyncInterval Flags : Nat)
  | Present1 (pSwapChain : Handle) (SyncInterval Flags pParams : Nat)
  | ExecuteCommandLists (queue : Handle) (NumCommandLists : Nat) (ppCommandLists : Option Handle)
  | ResizeBuffers (pSwapChain : Handle) (BufferCount Width Height NewFormat SwapChainFlags : Nat)
  deriving DecidableEq, Repr

/-- Calls into the UI toolkit, its two backends, the input hook and the menu. -/
inductive ToolkitCall where
  | ImGui_CreateContext
  | ImGui_StyleColorsDark
  | ImGui_ImplWin32_Init (hwnd : Handle)
  | ImGui_ImplDX12_Init (device : Option Handle) (bufferCount format : Nat)
      (heapSRV : Option Handle)
  | ImGui_ImplDX12_NewFrame
  | ImGui_ImplWin32_NewFrame
  | ImGui_NewFrame
  | ImGui_EndFrame
  | ImGui_Render
  | ImGui_ImplDX12_RenderDrawData (commandList : Option Handle)
  | ImGui_ImplDX12_Shutdown
  | ImGui_ImplWin32_Shutdown
  | ImGui_DestroyContext
  | ImGui_notificationWindow
  | inputhook_Init (hwnd : Handle)
  | inputhook_Remove (hwnd : Option Handle)
  | menu_Init
  deriving DecidableEq, Repr

/-- Queries and creation calls on the swap chain, the device and a command queue. -/
inductive DeviceCall where
  | GetDevice
  | GetDesc
  | CreateDescriptorHeap (shaderVisible : Bool) (NumDescriptors : Nat)
  | CreateCommandAllocator (i : Nat)
  | GetBuffer (i : Nat)
  | CreateRenderTargetView (resource : Option Handle) (rtv : Nat)
  | CreateFence
  | CreateEvent
  | CreateCommandList (allocator : Option Handle)
  | GetDeviceRemovedReason
  | queueGetDevice
  | queueGetDesc
  | GetCurrentBackBufferIndex
  deriving DecidableEq, Repr

/-- Calls on the fence, a command allocator, the command list and the queue while a frame
is rendered. -/
inductive RenderCall where
  | GetCompletedValue
  | SetEventOnCompletion (value : Nat) (event : Handle)
  | WaitForSingleObject (event : Handle) (timeoutMs : Nat)
  | allocatorReset (allocator : Option Handle)
  | commandListClose
  | commandListReset (allocator : Option Handle)
  | ResourceBarrier (resource : Option Handle) (toRenderTarget : Bool)
  | OMSetRenderTargets (rtv : Option Nat)
  | SetDescriptorHeaps (heap : Option Handle)
  | Signal (fence : Handle) (value : Nat)
  deriving DecidableEq, Repr

/-- The calls the hooks make, in order.  A call through a pointer is recorded with the
pointer's value, `none` when it is null: a null dereference is not given a behaviour of its
own. -/
inductive Event where
  | DebugLog (msg : String)
  | original (call : OriginalCall)
  | toolkit (call : ToolkitCall)
  | device (call : DeviceCall)
  | render (call : RenderCall)
  | Release (object : Handle)
  | AddRef (object : Handle)
  | CloseHandle (h : Handle)
  | deleteFrameContexts
  | newFrameContexts (count : Nat)
  | hooks_Remove
  deriving DecidableEq, Repr

/-- What a hook call leaves behind: the variables, the trace, and the value returned. -/
structure Result where
  state : State
  trace : List Event
  ret : Int

/-- Release a COM pointer that may be null: `if (p) { p->Release(); p = nullptr; }`. -/
def releaseIfSet (p : Option Handle) : List Event :=
  match p with
  | some h => [.Release h]
  | none => []

/-- The per-slot part of the tear-down loops: release the allocator, then the render
target, of one slot (the order used by `CleanupPartialInit`). -/
def releaseSlotAllocatorFirst (ctx : FrameContext) : List Event :=
  releaseIfSet ctx.allocator ++ releaseIfSet ctx.renderTarget

/-- The per-slot part of the tear-down loops of `hookResizeBuffersD3D12` and `release`:
the render target first, then the allocator. -/
def releaseSlotTargetFirst (ctx : FrameContext) : List Event :=
  releaseIfSet ctx.renderTarget ++ releaseIfSet ctx.allocator

/-- The slots `gFrameContexts[0 .. gBufferCount-1]` visited by a tear-down loop. -/
def visitedSlots (s : State) : List FrameContext :=
  match s.gFrameContexts with
  | some ctxs => ctxs.take s.gBufferCount
  | none => []

/-- The C++ `CleanupPartialInit()`. -/
def CleanupPartialInit (s : State) : State × List Event :=
  let t : List Event :=
    [.DebugLog "[d3d12hook] Cleaning up partial initialization.\n"]
    ++ releaseIfSet s.gCommandList
    ++ releaseIfSet s.gHeapRTV
    ++ releaseIfSet s.gHeapSRV
    ++ releaseIfSet s.gOverlayFence
    ++ (match s.gFenceEvent with
        | some h => [.CloseHandle h]
        | none => [])
    ++ (match s.gFrameContexts with
        | some _ => (visitedSlots s).flatMap releaseSlotAllocatorFirst ++ [.deleteFrameContexts]
        | none => [])
  ({ s with gCommandList := none, gHeapRTV := none, gHeapSRV := none, gOverlayFence := none,
            gFenceEvent := none, gFrameContexts := none, gBufferCount := 0,
            gOverlayFenceValue := 0 }, t)

/-- The C++ `d3d12hook::release()`. -/
def release (env : Env) (s : State) : State × List Event :=
  let shutdownUi : Bool := s.gInitialized && env.GetCurrentContext
  let t : List Event :=
    [.DebugLog "[d3d12hook] Releasing resources and hooks.\n"]
    ++ (match env.mainWindow with
        | some w => [.toolkit (.inputhook_Remove (some w))]
        | none => [])
    ++ (if shutdownUi then
          [.toolkit .ImGui_ImplDX12_Shutdown, .toolkit .ImGui_ImplWin32_Shutdown,
           .toolkit .ImGui_DestroyContext]
        else [])
    ++ releaseIfSet s.gCommandList
    ++ releaseIfSet s.gHeapRTV
    ++ releaseIfSet s.gHeapSRV
    ++ (match s.gFrameContexts with
        | some _ => (visitedSlots s).flatMap releaseSlotTargetFirst ++ [.deleteFrameContexts]
        | none => [])
    ++ releaseIfSet s.gOverlayFence
    ++ (match s.gFenceEvent with
        | some h => [.CloseHandle h]
        | none => [])
    ++ releaseIfSet s.gCommandQueue
    ++ releaseIfSet s.gDevice
    ++ [.hooks_Remove]
  ({ s with gShutdown := true,
            gInitialized := if shutdownUi then false else s.gInitialized,
            gCommandList := none, gHeapRTV := none, gHeapSRV := none,
            gFrameContexts := none, gOverlayFence := none, gFenceEvent := none,
            gCommandQueue := none, gDevice := none, gBufferCount := 0,
            gOverlayFenceValue := 0 }, t)

/-- The two hooked presentation entry points, with the caller's arguments. -/
inductive PresentCall where
  | Present (pSwapChain : Handle) (SyncInterval Flags : Nat)
  | Present1 (pSwapChain : Handle) (SyncInterval Flags pParams : Nat)
  deriving DecidableEq, Repr

/-- The statement `return oPresentD3D12(pSwapChain, SyncInterval, Flags);` of
`hookPresentD3D12`, respectively `return oPresent1D3D12(pSwapChain, SyncInterval, Flags,
pParams);` of `hookPresent1D3D12`. -/
def returnOriginal (env : Env) (call : PresentCall) (s : State) (t : List Event) : Result :=
  match call with
  | .Present sc si fl => ⟨s, t ++ [.original (.Present sc si fl)], env.oPresentD3D12 sc si fl⟩
  | .Present1 sc si fl pp =>
    ⟨s, t ++ [.original (.Present1 sc si fl pp)], env.oPresent1D3D12 sc si fl pp⟩

/-- Where control is after a block of a hook: the hook has returned, or it goes on. -/
inductive Flow where
  | returned (r : Result)
  | continues (s : State) (t : List Event)

/-- Apply `f` to slot `i` of the slot array. -/
def updateSlot (f : FrameContext → FrameContext) : Nat → List FrameContext → List FrameContext
  | _, [] => []
  | 0, c :: rest => f c :: rest
  | i + 1, c :: rest => c :: updateSlot f i rest

/-- The loop that creates one command allocator per slot, over the indices still to do; the
flag is false when a creation failed (the loop is left at once). -/
def createAllocators (env : Env) :
    List Nat → List FrameContext → List FrameContext × List Event × Bool
  | [], ctxs => (ctxs, [], true)
  | i :: rest, ctxs =>
    match env.CreateCommandAllocator i with
    | none =>
      (ctxs, [.device (.CreateCommandAllocator i),
              .DebugLog "[d3d12hook] CreateCommandAllocator: hr\n"],
        false)
    | some a =>
      let r := createAllocators env rest
        (updateSlot (fun c => { c with allocator := some a }) i ctxs)
      (r.1, Event.device (.CreateCommandAllocator i) :: r.2.1, r.2.2)

/-- The loop that fetches each back buffer and creates its render-target view, over the
indices still to do.  `rtvHandle` is the loop variable `rtvHandle.ptr`, a 64-bit `SIZE_T`:
the slot stores it and `rtvHandle.ptr += rtvSize` then adds the `UINT` `rtvSize`, wrapping
at `2 ^ 64`. -/
def createRenderTargetViews (env : Env) :
    Nat → List Nat → List FrameContext → List FrameContext × List Event
  | _, [], ctxs => (ctxs, [])
  | rtvHandle, i :: rest, ctxs =>
    let back := env.GetBuffer i
    let r := createRenderTargetViews env ((rtvHandle + env.rtvSize % 2 ^ 32) % 2 ^ 64) rest
      (updateSlot (fun c => { c with renderTarget := back, rtvHandle := rtvHandle }) i ctxs)
    (r.1, [Event.device (.GetBuffer i),
           Event.device (.CreateRenderTargetView back rtvHandle)] ++ r.2)

/-- A failure exit of first-frame initialisation: `CleanupPartialInit();` followed by the
`return` of the original call. -/
def cleanupAndReturn (env : Env) (call : PresentCall) (s : State) (t : List Event) : Flow :=
  let c := CleanupPartialInit s
  .returned (returnOriginal env call c.1 (t ++ c.2))

/-- The last two steps of first-frame initialisation: the fence event, then
`gInitialized = true`. -/
def initFenceEvent (env : Env) (call : PresentCall) (s : State) (t : List Event) : Flow :=
  match s.gFenceEvent with
  | some _ => .continues { s with gInitialized := true } t
  | none =>
    match env.CreateEvent with
    | none =>
      cleanupAndReturn env call s
        (t ++ [.device .CreateEvent, .DebugLog "[d3d12hook] Failed to create fence event\n"])
    | some ev =>
      .continues { s with gFenceEvent := some ev, gInitialized := true }
        (t ++ [.device .CreateEvent])

/-- The fence step of first-frame initialisation, followed by the fence-event step. -/
def initFence (env : Env) (call : PresentCall) (s : State) (t : List Event) : Flow :=
  match s.gOverlayFence with
  | some _ => initFenceEvent env call s t
  | none =>
    match env.CreateFence with
    | none =>
      cleanupAndReturn env call s
        (t ++ [.device .CreateFence, .DebugLog "[d3d12hook] CreateFence: hr\n"])
    | some fence =>
      initFenceEvent env call { s with gOverlayFence := some fence } (t ++ [.device .CreateFence])

/-- The block `if (!gInitialized) { ... }` of `hookPresentD3D12` / `hookPresent1D3D12`. -/
def firstFrameInit (env : Env) (call : PresentCall) (s : State) (t : List Event) : Flow :=
  let s0 : State :=
    match call with
    | .Present _ _ _ => { s with f1LockActive := true, notificationActive := true }
    | .Present1 _ _ _ _ => s
  let t0 : List Event :=
    t ++ (match call with
          | .Present _ _ _ =>
            [.DebugLog "[d3d12hook] Initializing ImGui on first Present.\n",
             .DebugLog "[d3d12hook] ImGui initialized.\n"]
          | .Present1 _ _ _ _ =>
            [.DebugLog "[d3d12hook] Initializing ImGui on first Present1.\n"])
  let s1 : State := { s0 with gDevice := env.swapChainGetDevice }
  match env.swapChainGetDevice with
  | none =>
    .returned (returnOriginal env call s1
      (t0 ++ [.device .GetDevice, .DebugLog "[d3d12hook] GetDevice: hr\n"]))
  | some _ =>
    let s2 : State := { s1 with gBufferCount := env.BufferCount }
    let t2 : List Event := t0 ++ [.device .GetDevice, .device .GetDesc,
                                  .DebugLog "[d3d12hook] BufferCount\n"]
    match env.CreateDescriptorHeapRTV with
    | none =>
      cleanupAndReturn env call { s2 with gHeapRTV := none }
        (t2 ++ [.device (.CreateDescriptorHeap false s2.gBufferCount),
                .DebugLog "[d3d12hook] CreateDescriptorHeap RTV: hr\n"])
    | some rtv =>
      let s3 : State := { s2 with gHeapRTV := some rtv }
      let t3 : List Event := t2 ++ [.device (.CreateDescriptorHeap false s2.gBufferCount)]
      match env.CreateDescriptorHeapSRV with
      | none =>
        cleanupAndReturn env call { s3 with gHeapSRV := none }
          (t3 ++ [.device (.CreateDescriptorHeap true s3.gBufferCount),
                  .DebugLog "[d3d12hook] CreateDescriptorHeap SRV: hr\n"])
      | some srv =>
        let s4 : State := { s3 with gHeapSRV := some srv }
        let t4 : List Event :=
          t3 ++ [.device (.CreateDescriptorHeap true s3.gBufferCount),
                 .newFrameContexts s4.gBufferCount]
        let a := createAllocators env (List.range s4.gBufferCount)
          (List.replicate s4.gBufferCount ⟨none, none, 0⟩)
        match a.2.2 with
        | false =>
          cleanupAndReturn env call { s4 with gFrameContexts := some a.1 } (t4 ++ a.2.1)
        | true =>
          let v := createRenderTargetViews env (env.rtvHeapStart % 2 ^ 64)
            (List.range s4.gBufferCount) a.1
          let s5 : State := { s4 with gFrameContexts := some v.1 }
          let t5 : List Event :=
            t4 ++ a.2.1 ++ v.2 ++
              [.toolkit .ImGui_CreateContext, .toolkit .ImGui_StyleColorsDark,
               .toolkit (.ImGui_ImplWin32_Init env.OutputWindow),
               .toolkit (.ImGui_ImplDX12_Init s5.gDevice s5.gBufferCount env.Format s5.gHeapSRV),
               .DebugLog "[d3d12hook] ImGui initialized.\n",
               .toolkit (.inputhook_Init env.OutputWindow)]
          initFence env call s5 t5

/-- The wait policy of the render path: whether the frame may be rendered (`canRender`). -/
def fenceWait (env : Env) (s : State) : Bool × List Event :=
  match s.gOverlayFence, s.gFenceEvent with
  | some _, some ev =>
    if env.GetCompletedValue < s.gOverlayFenceValue then
      if env.SetEventOnCompletion then
        match env.WaitForSingleObject with
        | .WAIT_TIMEOUT =>
          (false, [.render .GetCompletedValue,
                   .render (.SetEventOnCompletion s.gOverlayFenceValue ev),
                   .render (.WaitForSingleObject ev 2000),
                   .DebugLog "[d3d12hook] WaitForSingleObject timeout\n"])
        | .WAIT_OBJECT_0 =>
          (true, [.render .GetCompletedValue,
                  .render (.SetEventOnCompletion s.gOverlayFenceValue ev),
                  .render (.WaitForSingleObject ev 2000)])
        | .other =>
          (false, [.render .GetCompletedValue,
                   .render (.SetEventOnCompletion s.gOverlayFenceValue ev),
                   .render (.WaitForSingleObject ev 2000),
                   .DebugLog "[d3d12hook] WaitForSingleObject failed\n"])
      else
        (false, [.render .GetCompletedValue,
                 .render (.SetEventOnCompletion s.gOverlayFenceValue ev),
                 .DebugLog "[d3d12hook] SetEventOnCompletion: hr\n"])
    else (true, [.render .GetCompletedValue])
  | _, _ => (true, [])

/-- The block `// Execute` at the end of the render path: submission, fence signal with
the incremented `gOverlayFenceValue` (a `UINT64`), and the release on device loss. -/
def submitAndSignal (env : Env) (s : State) (t : List Event) : State × List Event :=
  match s.gCommandQueue with
  | none =>
    (s, t ++ [.DebugLog "[d3d12hook] CommandQueue not set, skipping ExecuteCommandLists.\n"])
  | some queue =>
    let t1 := t ++ [.original (.ExecuteCommandLists queue 1 s.gCommandList)]
    match s.gOverlayFence with
    | none => (s, t1)
    | some fence =>
      let value := (s.gOverlayFenceValue + 1) % 2 ^ 64
      let s1 : State := { s with gOverlayFenceValue := value }
      let t2 := t1 ++ [.render (.Signal fence value)]
      if env.Signal then (s1, t2)
      else
        let t3 := t2 ++ [.DebugLog "[d3d12hook] Signal: hr\n"]
        match s1.gDevice with
        | none => (s1, t3)
        | some _ =>
          let t4 := t3 ++ [.device .GetDeviceRemovedReason,
                           .DebugLog "[d3d12hook] DeviceRemovedReason\n"]
          if env.deviceRemoved then
            let r := release env s1
            (r.1, t4 ++ [.DebugLog "[d3d12hook] Device lost. Releasing resources.\n"] ++ r.2)
          else (s1, t4)

/-- The recording of the overlay commands between the command-list reset and the
submission. -/
def recordCommands (s : State) (ctx : Option FrameContext) : List Event :=
  [.render (.ResourceBarrier (ctx.bind (fun c => c.renderTarget)) true),
   .render (.OMSetRenderTargets (ctx.map (fun c => c.rtvHandle))),
   .render (.SetDescriptorHeaps s.gHeapSRV),
   .toolkit .ImGui_Render,
   .toolkit (.ImGui_ImplDX12_RenderDrawData s.gCommandList),
   .render (.ResourceBarrier (ctx.bind (fun c => c.renderTarget)) false),
   .render .commandListClose]

/-- The block `if (!gShutdown) { ... }` of `hookPresentD3D12` / `hookPresent1D3D12`, in a
call in which `menu::Init()` returns; `renderFrameExit` adds the call in which an exception
of plugin code passes through `menu::Init()`. -/
def renderFrame (env : Env) (call : PresentCall) (s : State) (t : List Event) : Flow :=
  let t0 : List Event :=
    t ++ [.toolkit .ImGui_ImplDX12_NewFrame, .toolkit .ImGui_ImplWin32_NewFrame,
          .toolkit .ImGui_NewFrame, .toolkit .menu_Init,
          .device .GetCurrentBackBufferIndex]
  let frameIdx := env.GetCurrentBackBufferIndex
  let ctx : Option FrameContext := s.gFrameContexts.bind (fun ctxs => ctxs.get? frameIdx)
  let w := fenceWait env s
  match w.1 with
  | false =>
    .returned (returnOriginal env call s
      (t0 ++ w.2 ++ [.DebugLog "[d3d12hook] Skipping ImGui render for this frame\n",
                     .toolkit .ImGui_EndFrame]))
  | true =>
    let t1 : List Event :=
      t0 ++ w.2 ++ (if s.notificationActive then [.toolkit .ImGui_notificationWindow] else [])
        ++ [.render (.allocatorReset (ctx.bind (fun c => c.allocator)))]
    if !env.allocatorReset then
      .returned (returnOriginal env call s
        (t1 ++ [.DebugLog "[d3d12hook] CommandAllocator->Reset: hr\n"]))
    else
      match s.gCommandList with
      | none =>
        match env.CreateCommandList with
        | none =>
          .returned (returnOriginal env call s
            (t1 ++ [.device (.CreateCommandList (ctx.bind (fun c => c.allocator))),
                    .DebugLog "[d3d12hook] CreateCommandList: hr\n"]))
        | some list =>
          let s1 : State := { s with gCommandList := some list }
          let t2 : List Event :=
            t1 ++ [.device (.CreateCommandList (ctx.bind (fun c => c.allocator))),
                   .render .commandListClose,
                   .render (.commandListReset (ctx.bind (fun c => c.allocator)))]
          if !env.commandListReset then
            .returned (returnOriginal env call s1
              (t2 ++ [.DebugLog "[d3d12hook] CommandList->Reset: hr\n"]))
          else
            let r := submitAndSignal env s1 (t2 ++ recordCommands s1 ctx)
            .continues r.1 r.2
      | some _ =>
        let t2 : List Event := t1 ++ [.render (.commandListReset (ctx.bind (fun c => c.allocator)))]
        if !env.commandListReset then
          .returned (returnOriginal env call s
            (t2 ++ [.DebugLog "[d3d12hook] CommandList->Reset: hr\n"]))
        else
          let r := submitAndSignal env s (t2 ++ recordCommands s ctx)
          .continues r.1 r.2

/-- The part of `hookPresentD3D12` / `hookPresent1D3D12` from `gAfterFirstPresent = true;`
to the end, which the two functions share word for word apart from the original they
call and the first lines of the initialisation block. -/
def presentBody (env : Env) (call : PresentCall) (s : State) (t : List Event) : Result :=
  let s0 : State := { s with gAfterFirstPresent := true }
  match s0.gCommandQueue with
  | none =>
    let t1 := t ++ [.DebugLog "[d3d12hook] CommandQueue not yet captured, skipping frame\n"]
    match s0.gDevice with
    | none =>
      returnOriginal env call { s0 with gDevice := env.swapChainGetDevice }
        (t1 ++ [.device .GetDevice])
    | some _ => returnOriginal env call s0 t1
  | some _ =>
    let afterInit : Flow :=
      if !s0.gInitialized then firstFrameInit env call s0 t else .continues s0 t
    match afterInit with
    | .returned r => r
    | .continues s1 t1 =>
      if !s1.gShutdown then
        match renderFrame env call s1 t1 with
        | .returned r => r
        | .continues s2 t2 => returnOriginal env call s2 t2
      else returnOriginal env call s1 t1

/-- The C++ `hookPresentD3D12(pSwapChain, SyncInterval, Flags)`. -/
def hookPresentD3D12 (env : Env) (s : State) (pSwapChain : Handle) (SyncInterval Flags : Nat) :
    Result :=
  let unlock : Bool := s.f1LockActive && env.lockExpired
  let s1 : State := if unlock then { s with f1LockActive := false } else s
  let t1 : List Event := if unlock then [.DebugLog "[d3d12hook] F1 hotkey unlocked.\n"] else []
  let s2 : State :=
    if s1.notificationActive && env.notificationPastLock then
      { s1 with notificationActive := true }
    else s1
  let expire : Bool := s2.notificationActive && env.notificationPastDisplay
  let s3 : State := if expire then { s2 with notificationActive := false } else s2
  let t3 : List Event :=
    if expire then t1 ++ [.DebugLog "[d3d12hook] Plugin Loader Ready notification expired.\n"]
    else t1
  let isMenuKeyPressed : Bool := !s3.f1LockActive && env.IsHotkeyPressed
  let toggle : Bool := isMenuKeyPressed && !s3.wasMenuKeyPressed
  let s4 : State := if toggle then { s3 with isOpen := !s3.isOpen } else s3
  let t4 : List Event := if toggle then t3 ++ [.DebugLog "[d3d12hook] Toggle menu\n"] else t3
  let s5 : State := { s4 with wasMenuKeyPressed := isMenuKeyPressed }
  presentBody env (.Present pSwapChain SyncInterval Flags) s5 t4

/-- The C++ `hookPresent1D3D12(pSwapChain, SyncInterval, Flags, pParams)`. -/
def hookPresent1D3D12 (env : Env) (s : State) (pSwapChain : Handle)
    (SyncInterval Flags pParams : Nat) : Result :=
  let s1 : State := if env.GetAsyncKeyStateBit then { s with isOpen := !s.isOpen } else s
  let t1 : List Event :=
    if env.GetAsyncKeyStateBit then [.DebugLog "[d3d12hook] Toggle menu\n"] else []
  presentBody env (.Present1 pSwapChain SyncInterval Flags pParams) s1 t1

/-- The C++ `hookExecuteCommandListsD3D12(_this, NumCommandLists, ppCommandLists)`. -/
def hookExecuteCommandListsD3D12 (env : Env) (s : State) (_this : Handle)
    (NumCommandLists : Nat) (ppCommandLists : Option Handle) : State × List Event :=
  let captured : State × List Event :=
    if s.gCommandQueue.isNone && s.gAfterFirstPresent then
      match env.queueGetDevice with
      | none => (s, [.device .queueGetDevice])
      | some queueDevice0 =>
        let take : Bool := s.gDevice.isNone && queueDevice0.isSome
        let s1 : State := if take then { s with gDevice := queueDevice0 } else s
        let queueDevice : Option Handle := if take then none else queueDevice0
        let r : State × List Event :=
          if queueDevice = s1.gDevice then
            if env.queueIsDirect then
              ({ s1 with gCommandQueue := some _this },
               [.device .queueGetDevice, .device .queueGetDesc,
                .DebugLog "[d3d12hook] CommandQueue type\n",
                .AddRef _this, .DebugLog "[d3d12hook] Captured CommandQueue\n"])
            else
              (s1, [.device .queueGetDevice, .device .queueGetDesc,
                    .DebugLog "[d3d12hook] CommandQueue type\n",
                    .DebugLog "[d3d12hook] Skipping capture: non-direct queue\n"])
          else if s1.gDevice.isSome then
            (s1, [.device .queueGetDevice,
                  .DebugLog "[d3d12hook] Skipping capture: CommandQueue uses different device\n"])
          else (s1, [.device .queueGetDevice])
        (r.1, r.2 ++ releaseIfSet queueDevice)
    else (s, [])
  ({ captured.1 with gAfterFirstPresent := false },
   captured.2 ++ [.original (.ExecuteCommandLists _this NumCommandLists ppCommandLists)])

/-- The C++ `hookResizeBuffersD3D12(pSwapChain, BufferCount, Width, Height, NewFormat,
SwapChainFlags)`. -/
def hookResizeBuffersD3D12 (env : Env) (s : State) (pSwapChain : Handle)
    (BufferCount Width Height NewFormat SwapChainFlags : Nat) : Result :=
  let t0 : List Event := [.DebugLog "[d3d12hook] ResizeBuffers called\n"]
  let forward (s1 : State) (t1 : List Event) : Result :=
    ⟨s1,
     t1 ++ [.original
       (.ResizeBuffers pSwapChain BufferCount Width Height NewFormat SwapChainFlags)],
     env.oResizeBuffersD3D12 pSwapChain BufferCount Width Height NewFormat SwapChainFlags⟩
  if s.gInitialized then
    let t1 : List Event :=
      t0 ++ [.DebugLog "[d3d12hook] Releasing resources for resize\n",
             .toolkit .ImGui_ImplDX12_Shutdown, .toolkit .ImGui_ImplWin32_Shutdown,
                 .toolkit .ImGui_DestroyContext,
             .toolkit (.inputhook_Remove env.mainWindow)]
        ++ releaseIfSet s.gCommandList
        ++ releaseIfSet s.gHeapRTV
        ++ releaseIfSet s.gHeapSRV
        ++ (visitedSlots s).flatMap releaseSlotTargetFirst
        ++ [.deleteFrameContexts]
    forward { s with gCommandList := none, gHeapRTV := none, gHeapSRV := none,
                     gFrameContexts := none, gBufferCount := 0, gInitialized := false } t1
  else forward s t0

end d3d12hook

namespace d3d12hook

/-! ## `DllMain`: process detachment -/

/-- What `DllMain` does on `DLL_PROCESS_DETACH`, in order; an event of
`d3d12hook::release()` is wrapped in `release`. -/
inductive DetachEvent where
  | DebugLog (msg : String)
  | release (e : Event)
  | mousehooks_Remove
  | MH_DisableHook_MH_ALL_HOOKS
  | MH_RemoveHook_MH_ALL_HOOKS
  | MH_Uninitialize
  | GUILogger_Shutdown
  deriving DecidableEq, Repr

/-- The `case DLL_PROCESS_DETACH:` branch of `DllMain`; `activeBackendIsDX12` is
`globals::activeBackend == globals::Backend::DX12`. -/
def DllMain_DLL_PROCESS_DETACH (env : Env) (activeBackendIsDX12 : Bool) (s : State) :
    State × List DetachEvent :=
  let r : State × List Event := if activeBackendIsDX12 then release env s else (s, [])
  (r.1,
   [.DebugLog "[DllMain] DLL_PROCESS_DETACH. Releasing hooks and uninitializing MinHook.\n"]
     ++ r.2.map .release
     ++ [.mousehooks_Remove, .MH_DisableHook_MH_ALL_HOOKS, .MH_RemoveHook_MH_ALL_HOOKS,
         DetachEvent.MH_Uninitialize, .GUILogger_Shutdown])

end d3d12hook

namespace d3d12hook

/-! ## Exceptions that pass through the presentation hooks

`menu::Init()` (called in the render block, `d3d12hook.cpp` line 246) calls
`PluginManager::UpdatePlugins()` and `PluginManager::RenderIndependentOverlays()`
(`menu.cpp`), which call `OnFrame()` and `RenderIndependent()` of every enabled plugin
outside any `try` block (`PluginManager.cpp` lines 365-379); `d3d12hook.cpp` has no `try`
block either.  `renderFrame`, `presentBody` and the two hooks above follow a call in which
`menu::Init()` returns.  The definitions of this section follow a call with either way of
leaving `menu::Init()`: when it throws, the exception leaves the hook at that point. -/

/-- How `menu::Init()` leaves in one presentation call: it returns, or an exception thrown
by plugin code passes through it. -/
inductive MenuInit where
  | returns
  | throws
  deriving DecidableEq, Repr

/-- How a presentation hook leaves: through one of its `return` statements, or by an
exception that passes through it, with the variables and the trace at that point. -/
inductive HookExit where
  | returned (r : Result)
  | unwound (s : State) (t : List Event)

/-- The block `if (!gShutdown) { ... }` followed by the final `return` of the original
call, with the way `menu::Init()` leaves. -/
def renderFrameExit (env : Env) (menu : MenuInit) (call : PresentCall) (s : State)
    (t : List Event) : HookExit :=
  match menu with
  | .throws =>
    .unwound s
      (t ++ [.toolkit .ImGui_ImplDX12_NewFrame, .toolkit .ImGui_ImplWin32_NewFrame,
             .toolkit .ImGui_NewFrame, .toolkit .menu_Init])
  | .returns =>
    match renderFrame env call s t with
    | .returned r => .returned r
    | .continues s2 t2 => .returned (returnOriginal env call s2 t2)

/-- The part of `hookPresentD3D12` / `hookPresent1D3D12` from `gAfterFirstPresent = true;`
to the end, with the way `menu::Init()` leaves. -/
def presentBodyExit (env : Env) (menu : MenuInit) (call : PresentCall) (s : State)
    (t : List Event) : HookExit :=
  let s0 : State := { s with gAfterFirstPresent := true }
  match s0.gCommandQueue with
  | none =>
    let t1 := t ++ [.DebugLog "[d3d12hook] CommandQueue not yet captured, skipping frame\n"]
    match s0.gDevice with
    | none =>
      .returned (returnOriginal env call { s0 with gDevice := env.swapChainGetDevice }
        (t1 ++ [.device .GetDevice]))
    | some _ => .returned (returnOriginal env call s0 t1)
  | some _ =>
    let afterInit : Flow :=
      if !s0.gInitialized then firstFrameInit env call s0 t else .continues s0 t
    match afterInit with
    | .returned r => .returned r
    | .continues s1 t1 =>
      if !s1.gShutdown then renderFrameExit env menu call s1 t1
      else .returned (returnOriginal env call s1 t1)

/-- The C++ `hookPresentD3D12(pSwapChain, SyncInterval, Flags)`, with the way
`menu::Init()` leaves. -/
def hookPresentD3D12Exit (env : Env) (menu : MenuInit) (s : State) (pSwapChain : Handle)
    (SyncInterval Flags : Nat) : HookExit :=
  let unlock : Bool := s.f1LockActive && env.lockExpired
  let s1 : State := if unlock then { s with f1LockActive := false } else s
  let t1 : List Event := if unlock then [.DebugLog "[d3d12hook] F1 hotkey unlocked.\n"] else []
  let s2 : State :=
    if s1.notificationActive && env.notificationPastLock then
      { s1 with notificationActive := true }
    else s1
  let expire : Bool := s2.notificationActive && env.notificationPastDisplay
  let s3 : State := if expire then { s2 with notificationActive := false } else s2
  let t3 : List Event :=
    if expire then t1 ++ [.DebugLog "[d3d12hook] Plugin Loader Ready notification expired.\n"]
    else t1
  let isMenuKeyPressed : Bool := !s3.f1LockActive && env.IsHotkeyPressed
  let toggle : Bool := isMenuKeyPressed && !s3.wasMenuKeyPressed
  let s4 : State := if toggle then { s3 with isOpen := !s3.isOpen } else s3
  let t4 : List Event := if toggle then t3 ++ [.DebugLog "[d3d12hook] Toggle menu\n"] else t3
  let s5 : State := { s4 with wasMenuKeyPressed := isMenuKeyPressed }
  presentBodyExit env menu (.Present pSwapChain SyncInterval Flags) s5 t4

/-- The C++ `hookPresent1D3D12(pSwapChain, SyncInterval, Flags, pParams)`, with the way
`menu::Init()` leaves. -/
def hookPresent1D3D12Exit (env : Env) (menu : MenuInit) (s : State) (pSwapChain : Handle)
    (SyncInterval Flags pParams : Nat) : HookExit :=
  let s1 : State := if env.GetAsyncKeyStateBit then { s with isOpen := !s.isOpen } else s
  let t1 : List Event :=
    if env.GetAsyncKeyStateBit then [.DebugLog "[d3d12hook] Toggle menu\n"] else []
  presentBodyExit env menu (.Present1 pSwapChain SyncInterval Flags pParams) s1 t1

end d3d12hook

/-! # Vocabulary of the statements and example inputs -/

namespace PluginAPI

/-- An outcome that the `catch (const std::exception&)` of the loops absorbs. -/
def Outcome.absorbed : Outcome → Bool
  | .returns => true
  | .throwsStd _ => true
  | .throwsOther => false
  | .faults => false

/-- The callbacks a call with identity `(c, f)` can reach in registry `s`. -/
def reachableCallbacks (s : HookSystem) (c f : String) : List (Option CallbackId) :=
  s.GetGlobalPreCallbacks ++ s.GetPreCallbacksByClass c f ++ s.GetPostCallbacksByClass c f
    ++ s.GetGlobalPostCallbacks

/-- A metadata lookup in which every class and every function exists. -/
def sdkAll : SDKLookup := ⟨fun n => some ⟨n⟩, fun _ _ f => some ⟨4096, f⟩⟩

/-- A call of `Foo::Bar` on a live object. -/
def fooBar : Args := ⟨some ⟨1000, some ⟨"Foo"⟩⟩, some ⟨2000, "Bar"⟩, 3000⟩

/-- Callback 7 throws an `int`; every other callback returns. -/
def throwsInt : Behaviour := fun cb _ =>
  if cb = 7 then ⟨[], .throwsOther⟩ else ⟨[], .returns⟩

/-- Every callback returns and makes no registry call. -/
def allReturn : Behaviour := fun _ _ => ⟨[], .returns⟩

/-- A registry with before-callback 7 and after-callback 8 for `Foo::Bar`, a global-before
observer 5 and a global-after observer 9. -/
def fooBarRegistry : HookSystem :=
  (((HookSystem.initial.RegisterHook sdkAll "Foo" "Bar" (some 7) (some 8)).1
    ).RegisterGlobalPreCallback (some 5)).RegisterGlobalPostCallback (some 9)

/-- Whether the dictionary holds a bucket (a chain) for the identity. -/
def hasBucket (dict : CallbackDict) (ClassName FunctionName : String) : Bool :=
  match mapFind dict ClassName with
  | some inner => (mapFind inner FunctionName).isSome
  | none => false

/-- The inner map of a class after the erase of one function bucket. -/
def innerAfterErase (inner : List (String × List (Option CallbackId))) (f : String) :
    List (String × List (Option CallbackId)) :=
  if (mapFind inner f).isSome then mapErase inner f else inner

/-- A native world in which `Foo::Bar` has its entry at address 20480 and every call of the
trampoline primitive succeeds, the trampoline to the original being at address 24576. -/
def nativeOk : NativeEnv :=
  { sdk := sdkAll
    ExecFunction := fun _ => some 20480
    MH_Initialize := .MH_OK
    MH_CreateHook := fun _ => (.MH_OK, some 24576)
    MH_EnableHook := fun _ => .MH_OK
    MH_EnableHookAgain := fun _ => .MH_OK }

/-- The state after `RegisterHook("Foo", "Bar", cb7)` has succeeded at start-up. -/
def fooBarHooked : SimpleHookState :=
  (SimpleHookManager.RegisterHook nativeOk SimpleHookState.initial (some "Foo") (some "Bar")
    (some 7)).1

/-- A call whose callee is the null pointer. -/
def nullCallee : Args := ⟨none, some ⟨2000, "Bar"⟩, 3000⟩

/-- A call of `Bar` on an object without class metadata. -/
def classlessBar : Args := ⟨some ⟨1000, none⟩, some ⟨2000, "Bar"⟩, 3000⟩

/-- A registry with before-callback 7 and after-callback 8 registered under the class name
`Unknown` for function `Bar`. -/
def unknownBarRegistry : HookSystem :=
  (HookSystem.initial.RegisterHook sdkAll "Unknown" "Bar" (some 7) (some 8)).1

/-- The callbacks a registration appends to a chain: the callback when one is supplied. -/
def supplied (cb : Option CallbackId) : List (Option CallbackId) :=
  match cb with
  | some x => [some x]
  | none => []

/-- The registry after a registration that passed validation and lookup. -/
def registered (s : HookSystem) (c f : String) (pre post : Option CallbackId) : HookSystem :=
  { s with
    m_PreCallbacksByClass :=
      if pre.isSome then dictPushBack s.m_PreCallbacksByClass c f pre
      else s.m_PreCallbacksByClass
    m_PostCallbacksByClass :=
      if post.isSome then dictPushBack s.m_PostCallbacksByClass c f post
      else s.m_PostCallbacksByClass }

/-- Whether validation and lookup of a registration succeed. -/
def resolves (sdk : SDKLookup) (c f : String) : Bool :=
  decide (¬ (c = "" ∨ f = "")) &&
    match sdk.FindClassByName c with
    | none => false
    | some cls => (sdk.GetFunction cls c f).isSome

/-- A metadata lookup that knows the class `Foo` with the single function `Bar`. -/
def sdkFooBar : SDKLookup :=
  ⟨fun n => if n = "Foo" then some ⟨"Foo"⟩ else none,
   fun _ _ f => if f = "Bar" then some ⟨4096, "Bar"⟩ else none⟩

/-- The registry after the two removal blocks of `UnregisterHook`. -/
def unregistered (s : HookSystem) (c f : String) : HookSystem :=
  { s with
    m_PreCallbacksByClass := (dictRemove s.m_PreCallbacksByClass c f).1
    m_PostCallbacksByClass := (dictRemove s.m_PostCallbacksByClass c f).1 }

/-- A registry in which three registrants have hooked `Foo::Bar`. -/
def crowdedRegistry : HookSystem :=
  (((HookSystem.initial.RegisterHook sdkAll "Foo" "Bar" (some 1) (some 2)).1.RegisterHook
    sdkAll "Foo" "Bar" (some 3) none).1.RegisterHook sdkAll "Foo" "Bar" none (some 4)).1

/-- Whether the registry holds a chain (a before-bucket or an after-bucket) for the
identity. -/
def chainExists (s : HookSystem) (c f : String) : Bool :=
  hasBucket s.m_PreCallbacksByClass c f || hasBucket s.m_PostCallbacksByClass c f

/-- The registration status of `(c, f)` after one more API call made on registry `s`: it
becomes `true` by a `RegisterHook(c, f, ...)` that returns `true` and supplies at least one
callback, `false` by an `UnregisterHook(c, f)` that returns `true`, and is otherwise kept. -/
def statusAfter (sdk : SDKLookup) (c f : String) (s : HookSystem) (status : Bool) :
    RegistryOp → Bool
  | .RegisterHook c2 f2 pre post =>
    if c2 = c ∧ f2 = f ∧ (s.RegisterHook sdk c2 f2 pre post).2 = true
        ∧ (pre.isSome ∨ post.isSome) then true
    else status
  | .UnregisterHook c2 f2 =>
    if c2 = c ∧ f2 = f ∧ (s.UnregisterHook c2 f2).2 = true then false else status
  | .RegisterGlobalPreCallback _ => status
  | .RegisterGlobalPostCallback _ => status

/-- The registration status of `(c, f)` at the end of a history of API calls: whether some
`RegisterHook(c, f, ...)` that supplied at least one callback has returned `true` since the
last `UnregisterHook(c, f)` that returned `true` (or since the start of the history, where
the status is `status`). -/
def registeredSince (sdk : SDKLookup) (c f : String) :
    HookSystem → Bool → List RegistryOp → Bool
  | _, status, [] => status
  | s, status, op :: rest =>
    registeredSince sdk c f (applyOp sdk s op) (statusAfter sdk c f s status op) rest

/-- The link between the registry and the registration status of `(c, f)`. -/
def StatusInv (c f : String) (s : HookSystem) (status : Bool) : Prop :=
  if c = "" ∨ f = "" then status = false else chainExists s c f = status

end PluginAPI

namespace d3d12hook

/-- A call of one of the two original presentation functions. -/
def isPresentCall : Event → Bool
  | .original (.Present _ _ _) => true
  | .original (.Present1 _ _ _ _) => true
  | _ => false

/-- The event of the original presentation call that belongs to a hooked call. -/
def PresentCall.event : PresentCall → Event
  | .Present sc si fl => .original (.Present sc si fl)
  | .Present1 sc si fl pp => .original (.Present1 sc si fl pp)

/-- The value the original presentation function returns for a hooked call. -/
def PresentCall.result (env : Env) : PresentCall → Int
  | .Present sc si fl => env.oPresentD3D12 sc si fl
  | .Present1 sc si fl pp => env.oPresent1D3D12 sc si fl pp

/-- A trace without a call of an original presentation function. -/
def noPresent (t : List Event) : Prop :=
  t.filter isPresentCall = []

/-- A hook call that ended in the `return` of the original presentation call, with no
other call of an original presentation function before it. -/
def Forwarded (env : Env) (call : PresentCall) (r : Result) : Prop :=
  ∃ s t, r = returnOriginal env call s t ∧ noPresent t

/-- A block of a hook that either left through the `return` of the original presentation
call or goes on without having called an original presentation function. -/
def Flow.forwards (env : Env) (call : PresentCall) : Flow → Prop
  | .returned r => Forwarded env call r
  | .continues _ t => noPresent t

end d3d12hook

namespace PluginAPI

/-- No class entry of the dictionary holds an empty inner map. -/
def NoEmptyClass (dict : CallbackDict) : Prop :=
  ∀ e ∈ dict, e.2 ≠ []

/-- The registry holds no class entry with an empty inner map, in either dictionary. -/
def HookSystem.Tidy (s : HookSystem) : Prop :=
  NoEmptyClass s.m_PreCallbacksByClass ∧ NoEmptyClass s.m_PostCallbacksByClass

/-- A registry with chains for `Foo::Bar` and, differing only in case, for `foo::Bar`. -/
def caseRegistry : HookSystem :=
  applyOps sdkAll HookSystem.initial
    [.RegisterHook "Foo" "Bar" (some 1) (some 2), .RegisterHook "foo" "Bar" (some 3) (some 4),
     .RegisterGlobalPreCallback (some 5), .RegisterGlobalPostCallback (some 6)]

end PluginAPI

namespace PluginAPI

/-- The callbacks invoked at one site, in order. -/
def invokedAt (site : Site) (t : List Event) : List Event :=
  t.filter (fun e =>
    match e with
    | .invoke s _ _ => decide (s = site)
    | _ => false)

/-- The registry at the moment `HookedProcessEvent` copies the two identity chains: the one
the global-before loop has left. -/
def registryAtChainCopy (sdk : SDKLookup) (beh : Behaviour) (s : HookSystem) (Object : UObject)
    (Function : UFunction) (Params : Nat) : HookSystem :=
  (fireCallbacks sdk beh .globalPre (isMenuFunctionName Function.Name) (classNameOf Object)
    Function.Name ⟨some Object, some Function, Params⟩ s.GetGlobalPreCallbacks s).1

/-- The registry at the moment `HookedProcessEvent` copies the global-after list: the one
the before-loop and the after-loop over the copied chains have left. -/
def registryAtGlobalPostCopy (sdk : SDKLookup) (beh : Behaviour) (s : HookSystem)
    (Object : UObject) (Function : UFunction) (Params : Nat) : HookSystem :=
  (fireCallbacks sdk beh .post (isMenuFunctionName Function.Name) (classNameOf Object)
    Function.Name ⟨some Object, some Function, Params⟩
    ((registryAtChainCopy sdk beh s Object Function Params).GetPostCallbacksByClass
      (classNameOf Object) Function.Name)
    (fireCallbacks sdk beh .pre (isMenuFunctionName Function.Name) (classNameOf Object)
      Function.Name ⟨some Object, some Function, Params⟩
      ((registryAtChainCopy sdk beh s Object Function Params).GetPreCallbacksByClass
        (classNameOf Object) Function.Name)
      (registryAtChainCopy sdk beh s Object Function Params)).1).1

/-- Before-callback 7 unregisters `Foo::Bar`, registers before-callback 70 for it and
registers the global-after observer 90; every callback returns. -/
def reentrant : Behaviour := fun cb _ =>
  if cb = 7 then
    ⟨[.UnregisterHook "Foo" "Bar", .RegisterHook "Foo" "Bar" (some 70) none,
      .RegisterGlobalPostCallback (some 90)], .returns⟩
  else ⟨[], .returns⟩

/-- A registry with the before-chain `[7, 17]` and the after-chain `[8]` for `Foo::Bar`. -/
def twoBeforeRegistry : HookSystem :=
  applyOps sdkAll HookSystem.initial
    [.RegisterHook "Foo" "Bar" (some 7) (some 8), .RegisterHook "Foo" "Bar" (some 17) none]

end PluginAPI

namespace PluginAPI

/-! ## Vocabulary of the locking claim -/

/-- Replay a trace against the list of mutexes held: `lock m` needs `m` free (a
`std::mutex` is not recursive, a second lock would block for ever) and takes it, `unlock m`
needs `m` held and frees it, a callback or the original implementation may start only
while no mutex is held.  The result is the list held at the end, `none` when the trace
breaks one of these rules. -/
def heldAfter : List Mutex → List Event → Option (List Mutex)
  | held, [] => some held
  | held, .lock m :: t => if m ∈ held then none else heldAfter (m :: held) t
  | held, .unlock m :: t => if m ∈ held then heldAfter (held.erase m) t else none
  | held, .invoke _ _ _ :: t => if held = [] then heldAfter held t else none
  | held, .original _ _ :: t => if held = [] then heldAfter held t else none
  | held, .logError _ :: t => heldAfter held t
  | held, .debugString _ :: t => heldAfter held t

end PluginAPI

namespace PluginAPI

/-! ## Vocabulary of the registry-key claim -/

/-- A name that contains no colon. -/
def ColonFree (s : String) : Prop := ∀ ch ∈ s.data, ch ≠ ':'

/-- The state after `RegisterHook("A::B", "C", cb1)` has succeeded at start-up. -/
def scopedHooked : SimpleHookState :=
  (SimpleHookManager.RegisterHook nativeOk SimpleHookState.initial (some "A::B") (some "C")
    (some 1)).1

end PluginAPI

namespace d3d12hook

/-! ## Example worlds and sessions -/

/-- An outside world in which every call succeeds: the swap chain has two back buffers and
window 900, its device is 100, the queue asked about is a direct queue of that device, and
the fence has completed nothing yet. -/
def envOk : Env :=
  { lockExpired := false, notificationPastLock := false, notificationPastDisplay := false,
    IsHotkeyPressed := false, GetAsyncKeyStateBit := false,
    swapChainGetDevice := some 100, BufferCount := 2, OutputWindow := 900, Format := 28,
    GetBuffer := fun i => some (300 + i), GetCurrentBackBufferIndex := 0,
    CreateDescriptorHeapRTV := some 201, CreateDescriptorHeapSRV := some 202,
    CreateCommandAllocator := fun i => some (400 + i), rtvHeapStart := 4096, rtvSize := 32,
    CreateFence := some 600, CreateEvent := some 700, CreateCommandList := some 800,
    deviceRemoved := false, GetCompletedValue := 0, SetEventOnCompletion := true,
    WaitForSingleObject := .WAIT_OBJECT_0, allocatorReset := true, commandListReset := true,
    Signal := true, GetCurrentContext := true, mainWindow := some 900,
    queueGetDevice := some (some 100), queueIsDirect := true,
    oPresentD3D12 := fun _ _ _ => 0, oPresent1D3D12 := fun _ _ _ _ => 0,
    oResizeBuffersD3D12 := fun _ _ _ _ _ _ => 0 }

/-- The session after the first presentation call since load (which captures the device)
and the first queue submission after it (which captures queue 500): the state in which the
next presentation call runs first-frame initialisation. -/
def queueCaptured : State :=
  (hookExecuteCommandListsD3D12 envOk (hookPresentD3D12 envOk State.initial 1 0 0).state
    500 1 none).1

/-- The session after one more presentation call in `envOk`: initialised, with one frame
rendered and the fence signaled with 1. -/
def steady : State := (hookPresentD3D12 envOk queueCaptured 1 0 0).state

/-- The calls into the UI toolkit and the input hook in a trace, in order. -/
def toolkitCalls (t : List Event) : List ToolkitCall :=
  t.filterMap (fun e =>
    match e with
    | .toolkit c => some c
    | _ => none)

/-- The calls on the fence, the allocators, the command list and the queue in a trace. -/
def renderCalls (t : List Event) : List RenderCall :=
  t.filterMap (fun e =>
    match e with
    | .render c => some c
    | _ => none)

/-- The queue submissions in a trace. -/
def submissions (t : List Event) : List Event :=
  t.filter (fun e =>
    match e with
    | .original (.ExecuteCommandLists _ _ _) => true
    | _ => false)

end d3d12hook

namespace d3d12hook

/-! ## Vocabulary of the statements on the render path -/

/-- Either presentation hook, chosen by the call it intercepts. -/
def hookPresent (env : Env) (s : State) : PresentCall → Result
  | .Present sc si fl => hookPresentD3D12 env s sc si fl
  | .Present1 sc si fl pp => hookPresent1D3D12 env s sc si fl pp

/-- The session: the device objects, the frame slots, the fence with its last signaled
value, and the two session flags (all variables but the menu and hot-key flags and
`gAfterFirstPresent`). -/
def session (s : State) :
    Option Handle × Option Handle × Option Handle × Option Handle × Option Handle ×
      Option Handle × Option Handle × Nat × Nat × Option (List FrameContext) × Bool × Bool :=
  (s.gDevice, s.gCommandQueue, s.gHeapRTV, s.gHeapSRV, s.gCommandList, s.gOverlayFence,
    s.gFenceEvent, s.gOverlayFenceValue, s.gBufferCount, s.gFrameContexts, s.gInitialized,
    s.gShutdown)

/-- Steady state: the queue is captured, the session is initialised and not shut down, and
the fence and its event exist. -/
def Steady (s : State) : Prop :=
  s.gCommandQueue.isSome = true ∧ s.gInitialized = true ∧ s.gShutdown = false ∧
    s.gOverlayFence.isSome = true ∧ s.gFenceEvent.isSome = true

/-- A trace of log lines only. -/
def onlyLogs (t : List Event) : Prop := ∀ e ∈ t, ∃ m, e = Event.DebugLog m

/-- The three calls of the wait policy. -/
def isWaitCall : RenderCall → Bool
  | .GetCompletedValue => true
  | .SetEventOnCompletion _ _ => true
  | .WaitForSingleObject _ _ => true
  | _ => false

/-- The calls on the device and the swap chain in a trace, in order. -/
def deviceCalls (t : List Event) : List DeviceCall :=
  t.filterMap (fun e =>
    match e with
    | .device c => some c
    | _ => none)

end d3d12hook

namespace d3d12hook

/-- The result of a hook whose last block ended in `flow`: what the block returned, or the
final `return` of the original call. -/
def Flow.result (env : Env) (call : PresentCall) : Flow → Result
  | .returned r => r
  | .continues s t => returnOriginal env call s t

/-- A call of one of the hooks that run while a session lives: a presentation call or a
queue submission of the host. -/
inductive HookCall where
  | present (call : PresentCall)
  | execute (queue : Handle) (NumCommandLists : Nat) (ppCommandLists : Option Handle)
  deriving DecidableEq, Repr

/-- The variables and the trace after one hooked call. -/
def hookCall (env : Env) (s : State) : HookCall → State × List Event
  | .present call => ((hookPresent env s call).state, (hookPresent env s call).trace)
  | .execute queue n lists => hookExecuteCommandListsD3D12 env s queue n lists

/-- The variables after a sequence of hooked calls, each with the answers the outside
world gave during it. -/
def runCalls (s : State) : List (Env × HookCall) → State
  | [] => s
  | (env, c) :: rest => runCalls (hookCall env s c).1 rest

end d3d12hook

namespace d3d12hook

end d3d12hook

namespace d3d12hook

end d3d12hook

namespace d3d12hook

end d3d12hook

namespace d3d12hook

/-- The command allocator of the slot of the current back buffer,
`gFrameContexts[frameIdx].allocator`. -/
def slotAllocator (env : Env) (s : State) : Option Handle :=
  (s.gFrameContexts.bind (fun ctxs => ctxs.get? env.GetCurrentBackBufferIndex)).bind
    (fun c => c.allocator)

end d3d12hook

namespace d3d12hook

/-- The COM objects released in a trace, in order. -/
def releases (t : List Event) : List Handle :=
  t.filterMap (fun e =>
    match e with
    | .Release h => some h
    | _ => none)

/-- The calls of original (un-hooked) functions in a trace, in order. -/
def originalCalls (t : List Event) : List OriginalCall :=
  t.filterMap (fun e =>
    match e with
    | .original c => some c
    | _ => none)

/-- The handles closed with `CloseHandle` in a trace, in order. -/
def closedHandles (t : List Event) : List Handle :=
  t.filterMap (fun e =>
    match e with
    | .CloseHandle h => some h
    | _ => none)

end d3d12hook

namespace Settings

/-! ## Data model -/

/-- The virtual-key codes of `winuser.h` that `Settings.cpp` names. -/
def VK_F1 : Int := 0x70

def VK_F2 : Int := 0x71

def VK_F3 : Int := 0x72

def VK_F4 : Int := 0x73

def VK_F5 : Int := 0x74

def VK_F6 : Int := 0x75

def VK_F7 : Int := 0x76

def VK_F8 : Int := 0x77

def VK_F9 : Int := 0x78

def VK_F10 : Int := 0x79

def VK_F11 : Int := 0x7A

def VK_F12 : Int := 0x7B

def VK_INSERT : Int := 0x2D

def VK_DELETE : Int := 0x2E

def VK_HOME : Int := 0x24

def VK_END : Int := 0x23

/-! ## The standard library calls of `ParseVirtualKey` and `VirtualKeyToString` -/

/-- The digit `d < 16` as `std::hex` writes it (lower case). -/
def hexChar (d : Nat) : Char :=
  if d < 10 then Char.ofNat ('0'.toNat + d) else Char.ofNat ('a'.toNat + (d - 10))

/-- What `ss << std::hex << n` writes for an unsigned value: its hexadecimal digits, most
significant first, no leading zero, `0` for zero. -/
def hexDigits (n : Nat) : List Char :=
  if n < 16 then [hexChar n] else hexDigits (n / 16) ++ [hexChar (n % 16)]
termination_by n
decreasing_by omega

/-- The C `isspace` in the "C" locale: space, `\t`, `\n`, `\v`, `\f`, `\r`. -/
def isspace (c : Char) : Bool :=
  c = ' ' ∨ c.toNat = 9 ∨ c.toNat = 10 ∨ c.toNat = 11 ∨ c.toNat = 12 ∨ c.toNat = 13

/-- The value of a character as a digit of `strtol`: `0`-`9`, then letters of either case
from 10 on. -/
def digitValue (c : Char) : Option Nat :=
  if '0' ≤ c ∧ c ≤ '9' then some (c.toNat - 48)
  else if 'a' ≤ c ∧ c ≤ 'z' then some (c.toNat - 87)
  else if 'A' ≤ c ∧ c ≤ 'Z' then some (c.toNat - 55)
  else none

/-- The value of a character that is a digit in base `base`. -/
def digitIn (base : Nat) (c : Char) : Option Nat :=
  (digitValue c).filter (fun d => d < base)

/-- The C++ `std::stoi(str, nullptr, base)` for base 10 or 16, `none` when it throws:
leading white space is skipped, one sign is accepted, in base 16 a `0x` / `0X` that is
followed by a digit is skipped, then the longest run of digits is converted;
`std::invalid_argument` when there is no digit, `std::out_of_range` when the value does not
fit an `int`. -/
def stoi (str : List Char) (base : Nat) : Option Int :=
  let s1 := str.dropWhile isspace
  let neg : Bool := s1.head? = some '-'
  let s2 := if s1.head? = some '-' ∨ s1.head? = some '+' then s1.tail else s1
  let s3 :=
    if base = 16 ∧ s2.head? = some '0'
        ∧ (s2.tail.head? = some 'x' ∨ s2.tail.head? = some 'X')
        ∧ (s2.tail.tail.head?.bind (digitIn 16)).isSome then s2.tail.tail
    else s2
  let digits := s3.takeWhile (fun c => (digitIn base c).isSome)
  if digits = [] then none
  else
    let v : Nat := digits.foldl (fun acc c => acc * base + (digitIn base c).getD 0) 0
    let r : Int := if neg then -(v : Int) else (v : Int)
    if -2 ^ 31 ≤ r ∧ r < 2 ^ 31 then some r else none

/-! ## `Settings::ParseVirtualKey` and `Settings::VirtualKeyToString` -/

/-- The C++ `Settings::ParseVirtualKey(value)`.  `value.find(p) == 0` holds exactly when
`value` starts with `p`; `value.find("x") + 1` is 0 when there is no `x` (`npos + 1`
wraps). -/
def ParseVirtualKey (value : String) : Int :=
  let v := value.data
  if "VK_".data.isPrefixOf v ∨ "0x".data.isPrefixOf v then
    let i := v.indexOf 'x'
    let sub := if i < v.length then v.drop (i + 1) else v
    match stoi sub 16 with
    | some r => r
    | none => VK_F1
  else if value = "F1" then VK_F1
  else if value = "F2" then VK_F2
  else if value = "F3" then VK_F3
  else if value = "F4" then VK_F4
  else if value = "F5" then VK_F5
  else if value = "F6" then VK_F6
  else if value = "F7" then VK_F7
  else if value = "F8" then VK_F8
  else if value = "F9" then VK_F9
  else if value = "F10" then VK_F10
  else if value = "F11" then VK_F11
  else if value = "F12" then VK_F12
  else if value = "INSERT" then VK_INSERT
  else if value = "DELETE" then VK_DELETE
  else if value = "HOME" then VK_HOME
  else if value = "END" then VK_END
  else
    match stoi v 10 with
    | some r => r
    | none => VK_F1

/-- The C++ `Settings::VirtualKeyToString(vkey)` for an `int` `vkey`; `std::hex` writes an
`int` as the unsigned value of its 32 bits. -/
def VirtualKeyToString (vkey : Int) : String :=
  if vkey = VK_F1 then "F1"
  else if vkey = VK_F2 then "F2"
  else if vkey = VK_F3 then "F3"
  else if vkey = VK_F4 then "F4"
  else if vkey = VK_F5 then "F5"
  else if vkey = VK_F6 then "F6"
  else if vkey = VK_F7 then "F7"
  else if vkey = VK_F8 then "F8"
  else if vkey = VK_F9 then "F9"
  else if vkey = VK_F10 then "F10"
  else if vkey = VK_F11 then "F11"
  else if vkey = VK_F12 then "F12"
  else if vkey = VK_INSERT then "INSERT"
  else if vkey = VK_DELETE then "DELETE"
  else if vkey = VK_HOME then "HOME"
  else if vkey = VK_END then "END"
  else String.mk ("VK_0x".data ++ hexDigits (vkey % 2 ^ 32).toNat)

end Settings

namespace PluginAPI

/-! ## Vocabulary of the statements on `SimpleHookManager` -/

/-- A call of the public API of `SimpleHookManager`. -/
inductive ManagerCall where
  | RegisterHook (ClassName FunctionName : Option String) (Callback : Option CallbackId)
  | UnregisterHook (ClassName FunctionName : Option String)
  deriving DecidableEq, Repr

/-- The variables and the value returned after one call of the public API. -/
def managerCall (env : NativeEnv) (st : SimpleHookState) :
    ManagerCall → SimpleHookState × Bool
  | .RegisterHook c f cb => SimpleHookManager.RegisterHook env st c f cb
  | .UnregisterHook c f => SimpleHookManager.UnregisterHook st c f

/-- The variables after a sequence of calls of the public API, each with the answers the
native world gave during it. -/
def runManager (st : SimpleHookState) : List (NativeEnv × ManagerCall) → SimpleHookState
  | [] => st
  | (env, c) :: rest => runManager (managerCall env st c).1 rest

/-- The index map and the entry vector agree: the keys of `g_HookMap` are pairwise
distinct (it is a `std::map`), so are its values, it has as many entries as `g_Hooks`, and
an entry `key -> i` points at the element of `g_Hooks` whose names give `key`. -/
def Consistent (st : SimpleHookState) : Prop :=
  (st.g_HookMap.map Prod.fst).Nodup ∧ (st.g_HookMap.map Prod.snd).Nodup ∧
  st.g_HookMap.length = st.g_Hooks.length ∧
  ∀ p ∈ st.g_HookMap,
    ∃ e, st.g_Hooks.get? p.2 = some e ∧ hookKey e.ClassName e.FunctionName = p.1

end PluginAPI

namespace d3d12hook

/-- The session after the first presentation call since load: the device (100) is
captured, no queue yet, and `gAfterFirstPresent` is set. -/
def deviceCaptured : State := (hookPresentD3D12 envOk State.initial 1 0 0).state

end d3d12hook

namespace d3d12hook

/-- The session after `release()` has run on the steady session in `envOk`. -/
def released : State := (release envOk steady).1

end d3d12hook

namespace d3d12hook

end d3d12hook

namespace d3d12hook

/-- The variables and the trace with which a block hands control on, when it does. -/
def Flow.continued : Flow → Option (State × List Event)
  | .continues s t => some (s, t)
  | .returned _ => none

/-- The slot that first-frame initialisation fills for back buffer `i`: the allocator
created for `i`, the back buffer `i` of the swap chain, and the `i`-th descriptor of the
render-target heap: the heap start (a 64-bit `SIZE_T`) plus `i` times the increment (a
`UINT`), in 64-bit arithmetic. -/
def freshSlot (env : Env) (i : Nat) : FrameContext :=
  ⟨env.CreateCommandAllocator i, env.GetBuffer i,
   (env.rtvHeapStart % 2 ^ 64 + i * (env.rtvSize % 2 ^ 32)) % 2 ^ 64⟩

/-- The session of the steady example after `hookResizeBuffersD3D12` to three buffers. -/
def resized : State := (hookResizeBuffersD3D12 envOk steady 1 3 0 0 0 0).state

end d3d12hook

namespace d3d12hook

end d3d12hook

namespace d3d12hook

end d3d12hook

/-! # Theorems -/

namespace PluginAPI

/-! ## Lemmas on the trace -/

theorem invocations_append (a b : List Event) :
    invocations (a ++ b) = invocations a ++ invocations b := by
  simp [invocations]

theorem invocations_debugBefore (site : Site) (m : Bool) (c f : String) :
    invocations (debugBefore site m c f) = [] := by
  unfold debugBefore
  split <;> simp [invocations]

theorem invocations_debugAfter (site : Site) (m : Bool) :
    invocations (debugAfter site m) = [] := by
  unfold debugAfter
  split <;> simp [invocations]

theorem invocations_opLocks (ops : List RegistryOp) :
    invocations (ops.flatMap opLocks) = [] := by
  induction ops with
  | nil => simp [invocations]
  | cons op rest ih =>
    rw [List.flatMap_cons, invocations_append, ih]
    cases op <;> simp [opLocks, invocations]

theorem callsOf_none (site : Site) (args : Args) (rest : List (Option CallbackId)) :
    callsOf site args (none :: rest) = callsOf site args rest := by
  simp [callsOf]

theorem callsOf_some (site : Site) (args : Args) (cb : CallbackId)
    (rest : List (Option CallbackId)) :
    callsOf site args (some cb :: rest) = Event.invoke site cb args :: callsOf site args rest := by
  simp [callsOf]

/-- A loop over callbacks that all leave in a way the loop absorbs, and that leave the
registry as it is, runs to its end: the registry is unchanged and the calls made are those
of the non-empty callbacks of the snapshot, in order. -/
theorem fireCallbacks_absorbed (sdk : SDKLookup) (beh : Behaviour) (site : Site) (m : Bool)
    (c f : String) (args : Args) (s : HookSystem) (cbs : List (Option CallbackId))
    (h : ∀ cb, some cb ∈ cbs →
      (beh cb args).outcome.absorbed = true ∧ applyOps sdk s (beh cb args).ops = s) :
    (fireCallbacks sdk beh site m c f args cbs s).1 = s ∧
    (fireCallbacks sdk beh site m c f args cbs s).2.2 = .returned ∧
    invocations (fireCallbacks sdk beh site m c f args cbs s).2.1 = callsOf site args cbs := by
  induction cbs with
  | nil => simp [fireCallbacks, callsOf, invocations]
  | cons x rest ih =>
    have ih1 := ih (fun cb hcb => h cb (List.mem_cons_of_mem _ hcb))
    cases x with
    | none =>
      rw [callsOf_none]
      simpa [fireCallbacks] using ih1
    | some cb =>
      have hcb := h cb (List.mem_cons_self _ _)
      rw [callsOf_some]
      cases ho : (beh cb args).outcome with
      | returns =>
        simp only [fireCallbacks, ho, hcb.2, invocations_append, invocations_debugBefore,
          invocations_debugAfter, invocations_opLocks, ih1]
        simp [invocations]
      | throwsStd w =>
        simp only [fireCallbacks, ho, hcb.2, invocations_append, invocations_debugBefore,
          invocations_debugAfter, invocations_opLocks, ih1]
        simp [invocations]
      | throwsOther => simp [ho, Outcome.absorbed] at hcb
      | faults => simp [ho, Outcome.absorbed] at hcb

theorem invocations_callOriginal (g : Option Nat) (args : Args) :
    invocations (callOriginal g args) = callOriginal g args := by
  cases g <;> simp [callOriginal, invocations]

/-- A dispatch with non-null callee and function descriptor whose callbacks all leave in a
way the loops absorb and leave the registry as it is: the call returns, the registry is
unchanged, and the calls made are the five phases in order. -/
theorem HookedProcessEvent_absorbed (sdk : SDKLookup) (beh : Behaviour) (g : Option Nat)
    (s : HookSystem) (Object : UObject) (Function : UFunction) (Params : Nat)
    (h : ∀ cb, some cb ∈ reachableCallbacks s (classNameOf Object) Function.Name →
      (beh cb ⟨some Object, some Function, Params⟩).outcome.absorbed = true ∧
      applyOps sdk s (beh cb ⟨some Object, some Function, Params⟩).ops = s) :
    (HookedProcessEvent sdk beh g s ⟨some Object, some Function, Params⟩).1 = s ∧
    (HookedProcessEvent sdk beh g s ⟨some Object, some Function, Params⟩).2.2 = .returned ∧
    invocations (HookedProcessEvent sdk beh g s ⟨some Object, some Function, Params⟩).2.1 =
      callsOf .globalPre ⟨some Object, some Function, Params⟩ s.GetGlobalPreCallbacks
      ++ callsOf .pre ⟨some Object, some Function, Params⟩
          (s.GetPreCallbacksByClass (classNameOf Object) Function.Name)
      ++ callOriginal g ⟨some Object, some Function, Params⟩
      ++ callsOf .post ⟨some Object, some Function, Params⟩
          (s.GetPostCallbacksByClass (classNameOf Object) Function.Name)
      ++ callsOf .globalPost ⟨some Object, some Function, Params⟩ s.GetGlobalPostCallbacks := by
  have h1 := fireCallbacks_absorbed sdk beh .globalPre (isMenuFunctionName Function.Name)
    (classNameOf Object) Function.Name ⟨some Object, some Function, Params⟩ s
    s.GetGlobalPreCallbacks (fun cb hcb => h cb (by simp [reachableCallbacks, hcb]))
  have h2 := fireCallbacks_absorbed sdk beh .pre (isMenuFunctionName Function.Name)
    (classNameOf Object) Function.Name ⟨some Object, some Function, Params⟩ s
    (s.GetPreCallbacksByClass (classNameOf Object) Function.Name)
    (fun cb hcb => h cb (by simp [reachableCallbacks, hcb]))
  have h3 := fireCallbacks_absorbed sdk beh .post (isMenuFunctionName Function.Name)
    (classNameOf Object) Function.Name ⟨some Object, some Function, Params⟩ s
    (s.GetPostCallbacksByClass (classNameOf Object) Function.Name)
    (fun cb hcb => h cb (by simp [reachableCallbacks, hcb]))
  have h4 := fireCallbacks_absorbed sdk beh .globalPost (isMenuFunctionName Function.Name)
    (classNameOf Object) Function.Name ⟨some Object, some Function, Params⟩ s
    s.GetGlobalPostCallbacks (fun cb hcb => h cb (by simp [reachableCallbacks, hcb]))
  obtain ⟨h1s, h1c, h1t⟩ := h1
  obtain ⟨h2s, h2c, h2t⟩ := h2
  obtain ⟨h3s, h3c, h3t⟩ := h3
  obtain ⟨h4s, h4c, h4t⟩ := h4
  simp only [HookedProcessEvent, h1s, h1c, h2s, h2c, h3s, h3c, h4s, h4c, invocations_append,
    h1t, h2t, h3t, h4t, invocations_callOriginal]
  refine ⟨trivial, trivial, ?_⟩
  split <;> simp [invocations]

theorem count_invocations_invoke (site : Site) (cb : CallbackId) (args : Args)
    (t : List Event) :
    (invocations t).count (Event.invoke site cb args) = t.count (Event.invoke site cb args) := by
  unfold invocations
  exact List.count_filter (by simp)

theorem count_callsOf_same (site : Site) (args : Args) (cb : CallbackId)
    (cbs : List (Option CallbackId)) :
    (callsOf site args cbs).count (Event.invoke site cb args) = cbs.count (some cb) := by
  induction cbs with
  | nil => simp [callsOf]
  | cons x rest ih =>
    cases x with
    | none => rw [callsOf_none, ih]; simp
    | some y =>
      rw [callsOf_some, List.count_cons, List.count_cons, ih]
      by_cases hy : y = cb <;> simp [hy]

theorem count_callsOf_other (site site1 : Site) (args : Args) (cb : CallbackId)
    (cbs : List (Option CallbackId)) (hne : site1 ≠ site) :
    (callsOf site1 args cbs).count (Event.invoke site cb args) = 0 := by
  induction cbs with
  | nil => simp [callsOf]
  | cons x rest ih =>
    cases x with
    | none => rw [callsOf_none, ih]
    | some y =>
      rw [callsOf_some, List.count_cons, ih]
      simp [hne]

theorem count_callOriginal (g : Option Nat) (site : Site) (args : Args) (cb : CallbackId) :
    (callOriginal g args).count (Event.invoke site cb args) = 0 := by
  cases g <;> simp [callOriginal]

/-- Repeated dispatch over callbacks that are absorbed and leave the registry as it is keeps
the registry and invokes each before-callback of the identity once per call. -/
theorem dispatchTimes_absorbed (sdk : SDKLookup) (beh : Behaviour) (g : Option Nat)
    (s : HookSystem) (Object : UObject) (Function : UFunction) (Params : Nat)
    (h : ∀ cb, some cb ∈ reachableCallbacks s (classNameOf Object) Function.Name →
      (beh cb ⟨some Object, some Function, Params⟩).outcome.absorbed = true ∧
      applyOps sdk s (beh cb ⟨some Object, some Function, Params⟩).ops = s)
    (n : Nat) (cb : CallbackId) :
    (dispatchTimes sdk beh g ⟨some Object, some Function, Params⟩ n s).1 = s ∧
    (dispatchTimes sdk beh g ⟨some Object, some Function, Params⟩ n s).2.count
        (Event.invoke .pre cb ⟨some Object, some Function, Params⟩) =
      n * (s.GetPreCallbacksByClass (classNameOf Object) Function.Name).count (some cb) := by
  obtain ⟨hs, _, ht⟩ := HookedProcessEvent_absorbed sdk beh g s Object Function Params h
  have hone : (HookedProcessEvent sdk beh g s ⟨some Object, some Function, Params⟩).2.1.count
      (Event.invoke .pre cb ⟨some Object, some Function, Params⟩) =
      (s.GetPreCallbacksByClass (classNameOf Object) Function.Name).count (some cb) := by
    rw [← count_invocations_invoke, ht]
    simp only [List.count_append, count_callsOf_same, count_callOriginal]
    rw [count_callsOf_other _ _ _ _ _ (by decide), count_callsOf_other _ _ _ _ _ (by decide),
      count_callsOf_other _ _ _ _ _ (by decide)]
    simp
  induction n with
  | zero => simp [dispatchTimes]
  | succ k ih =>
    simp only [dispatchTimes, hs, List.count_append, hone, ih]
    refine ⟨trivial, ?_⟩
    ring

/-! ## Dispatch: the original call and the order of callbacks -/

/-- C1: a before-callback that throws something not derived from `std::exception` (here
`throw 42`) is not caught by the loop of `HookedProcessEvent`: the exception leaves
`HookedProcessEvent` into the host caller, and neither the original implementation nor the
after-callback nor the global-after observer is invoked. -/
theorem HookedProcessEvent_foreign_exception_escapes :
    (HookedProcessEvent sdkAll throwsInt (some 99) fooBarRegistry fooBar).2.2 = .escaped ∧
    invocations (HookedProcessEvent sdkAll throwsInt (some 99) fooBarRegistry fooBar).2.1 =
      [.invoke .globalPre 5 fooBar, .invoke .pre 7 fooBar] ∧
    (HookedProcessEvent sdkAll throwsInt (some 99) fooBarRegistry fooBar).2.1.count
      (.original 99 fooBar) = 0 := by
  decide

/-- C2, amended: for a call with non-null callee and function descriptor that resolves to
identity `(c, f)`, with the trampoline installed, whose callbacks return normally and leave
the registry as it is, the calls made are exactly: the global-before observers, the
before-callbacks of `(c, f)`, the original once, the after-callbacks of `(c, f)`, the
global-after observers, each list in registration order and each call with the caller's
arguments; and `n` such calls invoke every before-callback of `(c, f)` `n` times (once per
occurrence in the chain). -/
theorem HookedProcessEvent_call_order (sdk : SDKLookup) (beh : Behaviour) (fn : Nat)
    (s : HookSystem) (Object : UObject) (Function : UFunction) (Params : Nat) (c f : String)
    (hc : classNameOf Object = c) (hf : Function.Name = f)
    (h : ∀ cb, some cb ∈ reachableCallbacks s c f →
      (beh cb ⟨some Object, some Function, Params⟩).outcome = .returns ∧
      applyOps sdk s (beh cb ⟨some Object, some Function, Params⟩).ops = s) :
    (HookedProcessEvent sdk beh (some fn) s ⟨some Object, some Function, Params⟩).2.2
      = .returned ∧
    invocations (HookedProcessEvent sdk beh (some fn) s ⟨some Object, some Function, Params⟩).2.1 =
      callsOf .globalPre ⟨some Object, some Function, Params⟩ s.GetGlobalPreCallbacks
      ++ callsOf .pre ⟨some Object, some Function, Params⟩ (s.GetPreCallbacksByClass c f)
      ++ [Event.original fn ⟨some Object, some Function, Params⟩]
      ++ callsOf .post ⟨some Object, some Function, Params⟩ (s.GetPostCallbacksByClass c f)
      ++ callsOf .globalPost ⟨some Object, some Function, Params⟩ s.GetGlobalPostCallbacks ∧
    ∀ (n : Nat) (cb : CallbackId),
      (dispatchTimes sdk beh (some fn) ⟨some Object, some Function, Params⟩ n s).2.count
          (Event.invoke .pre cb ⟨some Object, some Function, Params⟩) =
        n * (s.GetPreCallbacksByClass c f).count (some cb) := by
  subst hc hf
  have h1 : ∀ cb, some cb ∈ reachableCallbacks s (classNameOf Object) Function.Name →
      (beh cb ⟨some Object, some Function, Params⟩).outcome.absorbed = true ∧
      applyOps sdk s (beh cb ⟨some Object, some Function, Params⟩).ops = s := by
    intro cb hcb
    obtain ⟨ho, hq⟩ := h cb hcb
    exact ⟨by rw [ho]; rfl, hq⟩
  obtain ⟨_, hr, ht⟩ := HookedProcessEvent_absorbed sdk beh (some fn) s Object Function Params h1
  refine ⟨hr, ?_, fun n cb => (dispatchTimes_absorbed sdk beh (some fn) s Object Function Params
    h1 n cb).2⟩
  rw [ht]
  rfl

/-- Witness of `HookedProcessEvent_call_order`: one hundred calls of `Foo::Bar`. -/
theorem HookedProcessEvent_call_order_witness :
    (HookedProcessEvent sdkAll allReturn (some 99) fooBarRegistry fooBar).2.2 = .returned ∧
    invocations (HookedProcessEvent sdkAll allReturn (some 99) fooBarRegistry fooBar).2.1 =
      [.invoke .globalPre 5 fooBar, .invoke .pre 7 fooBar, .original 99 fooBar,
       .invoke .post 8 fooBar, .invoke .globalPost 9 fooBar] ∧
    (dispatchTimes sdkAll allReturn (some 99) fooBar 100 fooBarRegistry).2.count
      (Event.invoke .pre 7 fooBar) = 100 := by
  have h := HookedProcessEvent_call_order sdkAll allReturn 99 fooBarRegistry
    ⟨1000, some ⟨"Foo"⟩⟩ ⟨2000, "Bar"⟩ 3000 "Foo" "Bar" rfl rfl
    (fun cb _ => ⟨rfl, rfl⟩)
  refine ⟨h.1, ?_, ?_⟩
  · rw [show fooBar = ⟨some ⟨1000, some ⟨"Foo"⟩⟩, some ⟨2000, "Bar"⟩, 3000⟩ from rfl, h.2.1]
    decide
  · rw [show fooBar = ⟨some ⟨1000, some ⟨"Foo"⟩⟩, some ⟨2000, "Bar"⟩, 3000⟩ from rfl, h.2.2]
    decide

/-! ## Lemmas on the registry -/

theorem mapFind_mapSubscript_self {K V : Type} [DecidableEq K] (m : List (K × V)) (k : K)
    (d : V) (f : V → V) :
    mapFind (mapSubscript m k d f) k = some (f ((mapFind m k).getD d)) := by
  induction m with
  | nil => simp [mapSubscript, mapFind]
  | cons e rest ih =>
    obtain ⟨k1, v1⟩ := e
    by_cases h : k1 = k
    · simp [mapSubscript, mapFind, h]
    · simp [mapSubscript, mapFind, h, ih]

theorem mapFind_mapSubscript_ne {K V : Type} [DecidableEq K] (m : List (K × V)) (k k2 : K)
    (d : V) (f : V → V) (hne : k ≠ k2) :
    mapFind (mapSubscript m k d f) k2 = mapFind m k2 := by
  induction m with
  | nil => simp [mapSubscript, mapFind, hne]
  | cons e rest ih =>
    obtain ⟨k1, v1⟩ := e
    by_cases h : k1 = k
    · subst h
      simp [mapSubscript, mapFind, hne]
    · by_cases h2 : k1 = k2
      · subst h2
        simp [mapSubscript, mapFind, h]
      · simp [mapSubscript, mapFind, h, h2, ih]

theorem mapFind_mapErase_self {K V : Type} [DecidableEq K] (m : List (K × V)) (k : K) :
    mapFind (mapErase m k) k = none := by
  induction m with
  | nil => simp [mapErase, mapFind]
  | cons e rest ih =>
    obtain ⟨k1, v1⟩ := e
    by_cases h : k1 = k
    · simpa [mapErase, List.filter_cons, h] using ih
    · simpa [mapErase, List.filter_cons, h, mapFind] using ih

theorem mapFind_mapErase_ne {K V : Type} [DecidableEq K] (m : List (K × V)) (k k2 : K)
    (hne : k ≠ k2) :
    mapFind (mapErase m k) k2 = mapFind m k2 := by
  induction m with
  | nil => simp [mapErase, mapFind]
  | cons e rest ih =>
    obtain ⟨k1, v1⟩ := e
    by_cases h : k1 = k
    · subst h
      simpa [mapErase, List.filter_cons, mapFind, hne] using ih
    · by_cases h2 : k1 = k2
      · subst h2
        simp [mapErase, List.filter_cons, h, mapFind]
      · simpa [mapErase, List.filter_cons, h, mapFind, h2] using ih

theorem mapFind_mapAssign_self {K V : Type} [DecidableEq K] (m : List (K × V)) (k : K)
    (w : V) :
    mapFind (mapAssign m k w) k = (mapFind m k).map (fun _ => w) := by
  induction m with
  | nil => simp [mapAssign, mapFind]
  | cons e rest ih =>
    obtain ⟨k1, v1⟩ := e
    by_cases h : k1 = k
    · simp [mapAssign, mapFind, h]
    · simp [mapAssign, mapFind, h, ih]

theorem mapFind_mapAssign_ne {K V : Type} [DecidableEq K] (m : List (K × V)) (k k2 : K)
    (w : V) (hne : k ≠ k2) :
    mapFind (mapAssign m k w) k2 = mapFind m k2 := by
  induction m with
  | nil => simp [mapAssign, mapFind]
  | cons e rest ih =>
    obtain ⟨k1, v1⟩ := e
    by_cases h : k1 = k
    · subst h
      simp [mapAssign, mapFind, hne]
    · by_cases h2 : k1 = k2
      · subst h2
        simp [mapAssign, mapFind, h]
      · simp [mapAssign, mapFind, h, h2, ih]

theorem dictLookup_dictPushBack_self (dict : CallbackDict) (c f : String)
    (cb : Option CallbackId) :
    dictLookup (dictPushBack dict c f cb) c f = dictLookup dict c f ++ [cb] := by
  unfold dictLookup dictPushBack
  rw [mapFind_mapSubscript_self]
  simp only [mapFind_mapSubscript_self]
  cases h1 : mapFind dict c with
  | none => simp [mapFind]
  | some inner =>
    cases h2 : mapFind inner f <;> simp [h2]

theorem dictLookup_dictPushBack_ne (dict : CallbackDict) (c f c2 f2 : String)
    (cb : Option CallbackId) (hne : ¬ (c = c2 ∧ f = f2)) :
    dictLookup (dictPushBack dict c f cb) c2 f2 = dictLookup dict c2 f2 := by
  unfold dictLookup dictPushBack
  by_cases hc : c = c2
  · subst hc
    have hf : f ≠ f2 := fun h => hne ⟨rfl, h⟩
    rw [mapFind_mapSubscript_self]
    simp only [mapFind_mapSubscript_ne _ _ _ _ _ hf]
    cases h1 : mapFind dict c <;> simp [mapFind]
  · rw [mapFind_mapSubscript_ne _ _ _ _ _ hc]

theorem hasBucket_dictPushBack (dict : CallbackDict) (c f c2 f2 : String)
    (cb : Option CallbackId) :
    hasBucket (dictPushBack dict c f cb) c2 f2 =
      (decide (c = c2 ∧ f = f2) || hasBucket dict c2 f2) := by
  unfold hasBucket dictPushBack
  by_cases hc : c = c2
  · subst hc
    rw [mapFind_mapSubscript_self]
    by_cases hf : f = f2
    · subst hf
      simp [mapFind_mapSubscript_self]
    · simp only [mapFind_mapSubscript_ne _ _ _ _ _ hf]
      cases h1 : mapFind dict c <;> simp [mapFind, hf]
  · rw [mapFind_mapSubscript_ne _ _ _ _ _ hc]
    simp [hc]

theorem dictRemove_snd (dict : CallbackDict) (c f : String) :
    (dictRemove dict c f).2 = hasBucket dict c f := by
  unfold dictRemove hasBucket
  cases h1 : mapFind dict c with
  | none => rfl
  | some inner =>
    simp only
    split_ifs <;> rfl

theorem mapFind_eq_none_of_isEmpty {K V : Type} [DecidableEq K] (m : List (K × V)) (k : K)
    (h : m.isEmpty = true) : mapFind m k = none := by
  cases m with
  | nil => rfl
  | cons e rest => simp at h

theorem mapFind_innerAfterErase_self (inner : List (String × List (Option CallbackId)))
    (f : String) : mapFind (innerAfterErase inner f) f = none := by
  unfold innerAfterErase
  split
  · exact mapFind_mapErase_self _ _
  · rename_i h
    cases h2 : mapFind inner f with
    | none => rfl
    | some v => simp [h2] at h

theorem mapFind_innerAfterErase_ne (inner : List (String × List (Option CallbackId)))
    (f f2 : String) (hne : f ≠ f2) :
    mapFind (innerAfterErase inner f) f2 = mapFind inner f2 := by
  unfold innerAfterErase
  split
  · exact mapFind_mapErase_ne _ _ _ hne
  · rfl

theorem dictRemove_fst_none (dict : CallbackDict) (c f : String)
    (h1 : mapFind dict c = none) : (dictRemove dict c f).1 = dict := by
  simp [dictRemove, h1]

theorem dictRemove_fst_some (dict : CallbackDict) (c f : String)
    (inner : List (String × List (Option CallbackId))) (h1 : mapFind dict c = some inner) :
    (dictRemove dict c f).1 =
      if (innerAfterErase inner f).isEmpty then mapErase dict c
      else mapAssign dict c (innerAfterErase inner f) := by
  simp only [dictRemove, h1, innerAfterErase]
  split_ifs <;> rfl

theorem dictLookup_dictRemove_self (dict : CallbackDict) (c f : String) :
    dictLookup (dictRemove dict c f).1 c f = [] := by
  cases h1 : mapFind dict c with
  | none => simp [dictRemove_fst_none _ _ _ h1, dictLookup, h1]
  | some inner =>
    rw [dictRemove_fst_some _ _ _ _ h1]
    unfold dictLookup
    split_ifs
    · rw [mapFind_mapErase_self]
    · rw [mapFind_mapAssign_self, h1]
      simp [mapFind_innerAfterErase_self]

theorem hasBucket_dictRemove_self (dict : CallbackDict) (c f : String) :
    hasBucket (dictRemove dict c f).1 c f = false := by
  cases h1 : mapFind dict c with
  | none => simp [dictRemove_fst_none _ _ _ h1, hasBucket, h1]
  | some inner =>
    rw [dictRemove_fst_some _ _ _ _ h1]
    unfold hasBucket
    split_ifs
    · rw [mapFind_mapErase_self]
    · rw [mapFind_mapAssign_self, h1]
      simp [mapFind_innerAfterErase_self]

/-- Removing the bucket of one identity leaves the `find` of every other identity as it
was. -/
theorem mapFind_dictRemove_ne (dict : CallbackDict) (c f c2 f2 : String)
    (hne : ¬ (c = c2 ∧ f = f2)) :
    (mapFind (dictRemove dict c f).1 c2).bind (fun inner => mapFind inner f2) =
      (mapFind dict c2).bind (fun inner => mapFind inner f2) := by
  cases h1 : mapFind dict c with
  | none => rw [dictRemove_fst_none _ _ _ h1]
  | some inner =>
    rw [dictRemove_fst_some _ _ _ _ h1]
    by_cases hc : c = c2
    · subst hc
      have hf : f ≠ f2 := fun h => hne ⟨rfl, h⟩
      rw [h1]
      split_ifs with hempty
      · rw [mapFind_mapErase_self]
        show none = mapFind inner f2
        rw [← mapFind_innerAfterErase_ne inner f f2 hf,
          mapFind_eq_none_of_isEmpty _ _ hempty]
      · rw [mapFind_mapAssign_self, h1]
        simp [mapFind_innerAfterErase_ne inner f f2 hf]
    · split_ifs
      · rw [mapFind_mapErase_ne _ _ _ hc]
      · rw [mapFind_mapAssign_ne _ _ _ _ hc]

theorem dictLookup_eq_bind (dict : CallbackDict) (c f : String) :
    dictLookup dict c f = ((mapFind dict c).bind (fun inner => mapFind inner f)).getD [] := by
  unfold dictLookup
  cases h1 : mapFind dict c with
  | none => rfl
  | some inner => cases h2 : mapFind inner f <;> simp [h2]

theorem hasBucket_eq_bind (dict : CallbackDict) (c f : String) :
    hasBucket dict c f = ((mapFind dict c).bind (fun inner => mapFind inner f)).isSome := by
  unfold hasBucket
  cases h1 : mapFind dict c with
  | none => rfl
  | some inner => rfl

theorem dictLookup_dictRemove_ne (dict : CallbackDict) (c f c2 f2 : String)
    (hne : ¬ (c = c2 ∧ f = f2)) :
    dictLookup (dictRemove dict c f).1 c2 f2 = dictLookup dict c2 f2 := by
  rw [dictLookup_eq_bind, dictLookup_eq_bind, mapFind_dictRemove_ne _ _ _ _ _ hne]

theorem hasBucket_dictRemove_ne (dict : CallbackDict) (c f c2 f2 : String)
    (hne : ¬ (c = c2 ∧ f = f2)) :
    hasBucket (dictRemove dict c f).1 c2 f2 = hasBucket dict c2 f2 := by
  rw [hasBucket_eq_bind, hasBucket_eq_bind, mapFind_dictRemove_ne _ _ _ _ _ hne]

/-! ## `SimpleHookManager`: the wrapper and the original -/

/-- `MinHookWrapper` makes no call other than the registered callback. -/
theorem MinHookWrapper_no_original (st : SimpleHookState) (Obj Stack Result : Nat)
    (fn a b c : Nat) :
    NativeEvent.original fn a b c ∉ MinHookWrapper st Obj Stack Result := by
  unfold MinHookWrapper
  split <;> simp

/-- C4: after a successful `SimpleHookManager::RegisterHook("Foo", "Bar", cb)`, which saved
the trampoline to the original in `HookEntry.OriginalFunction`, a call of the patched
function runs `MinHookWrapper`, and `MinHookWrapper` returns without calling the saved
original: the trace of the call holds the lock, at most the callback, and the unlock. -/
theorem MinHookWrapper_skips_saved_original :
    (SimpleHookManager.RegisterHook nativeOk SimpleHookState.initial (some "Foo") (some "Bar")
      (some 7)).2 = true ∧
    fooBarHooked.g_Hooks.map (fun e => (e.TargetAddress, e.OriginalFunction))
      = [(20480, some 24576)] ∧
    MinHookWrapper fooBarHooked 1000 2000 3000 = [.lock, .unlock] ∧
    MinHookWrapper fooBarHooked 20480 2000 3000 = [.lock, .callback 7, .unlock] ∧
    (MinHookWrapper fooBarHooked 1000 2000 3000).count (.original 24576 1000 2000 3000) = 0 := by
  decide

/-! ## Global observers and unresolved identities -/

/-- C5, counterexample: with a global-before observer 5 and a global-after observer 9
registered, a call whose callee is null reaches `HookedProcessEvent` and is forwarded to
the original without any observer being invoked. -/
theorem HookedProcessEvent_null_callee_skips_observers :
    fooBarRegistry.GetGlobalPreCallbacks = [some 5] ∧
    fooBarRegistry.GetGlobalPostCallbacks = [some 9] ∧
    (HookedProcessEvent sdkAll allReturn (some 99) fooBarRegistry nullCallee).2.1
      = [.original 99 nullCallee] := by
  decide

/-- C5, amended: a call with non-null callee and function descriptor whose callbacks return
normally or throw a `std::exception` (and leave the registry as it is) invokes every
global-before observer and every global-after observer once per registration, whatever
the identity of the call; a call whose callee or function descriptor is null invokes no
observer and only reaches the original. -/
theorem HookedProcessEvent_global_observers (sdk : SDKLookup) (beh : Behaviour)
    (g : Option Nat) (s : HookSystem) (args : Args) :
    (∀ Object Function, args.Object = some Object → args.Function = some Function →
      (∀ cb, some cb ∈ reachableCallbacks s (classNameOf Object) Function.Name →
        (beh cb args).outcome.absorbed = true ∧ applyOps sdk s (beh cb args).ops = s) →
      ∀ cb,
        (HookedProcessEvent sdk beh g s args).2.1.count (Event.invoke .globalPre cb args)
          = s.GetGlobalPreCallbacks.count (some cb) ∧
        (HookedProcessEvent sdk beh g s args).2.1.count (Event.invoke .globalPost cb args)
          = s.GetGlobalPostCallbacks.count (some cb)) ∧
    ((args.Object = none ∨ args.Function = none) →
      (HookedProcessEvent sdk beh g s args).2.1 = callOriginal g args) := by
  constructor
  · intro Object Function hO hF h cb
    obtain ⟨o, fn, p⟩ := args
    simp only at hO hF
    subst hO hF
    obtain ⟨_, _, ht⟩ := HookedProcessEvent_absorbed sdk beh g s Object Function p h
    constructor
    · rw [← count_invocations_invoke, ht]
      simp only [List.count_append, count_callsOf_same, count_callOriginal]
      rw [count_callsOf_other _ _ _ _ _ (by decide), count_callsOf_other _ _ _ _ _ (by decide),
        count_callsOf_other _ _ _ _ _ (by decide)]
      simp
    · rw [← count_invocations_invoke, ht]
      simp only [List.count_append, count_callsOf_same, count_callOriginal]
      rw [count_callsOf_other _ _ _ _ _ (by decide), count_callsOf_other _ _ _ _ _ (by decide),
        count_callsOf_other _ _ _ _ _ (by decide)]
      simp
  · intro h
    obtain ⟨o, fn, p⟩ := args
    simp only at h
    cases o <;> cases fn <;> simp_all [HookedProcessEvent]

/-- Witness of `HookedProcessEvent_global_observers`: a call of `Foo::Bar` invokes the
global-before observer 5 once and the global-after observer 9 once. -/
theorem HookedProcessEvent_global_observers_witness :
    (HookedProcessEvent sdkAll allReturn (some 99) fooBarRegistry fooBar).2.1.count
        (Event.invoke .globalPre 5 fooBar) = 1 ∧
    (HookedProcessEvent sdkAll allReturn (some 99) fooBarRegistry fooBar).2.1.count
        (Event.invoke .globalPost 9 fooBar) = 1 :=
  ⟨(((HookedProcessEvent_global_observers sdkAll allReturn (some 99) fooBarRegistry fooBar).1
      ⟨1000, some ⟨"Foo"⟩⟩ ⟨2000, "Bar"⟩ rfl rfl (fun _ _ => ⟨rfl, rfl⟩) 5).1).trans
      (by decide),
   (((HookedProcessEvent_global_observers sdkAll allReturn (some 99) fooBarRegistry fooBar).1
      ⟨1000, some ⟨"Foo"⟩⟩ ⟨2000, "Bar"⟩ rfl rfl (fun _ _ => ⟨rfl, rfl⟩) 9).2).trans
      (by decide)⟩

/-- C6, counterexample: a callee without class metadata is dispatched under the class name
`Unknown`, so the callbacks registered for `("Unknown", "Bar")` are invoked around the
original. -/
theorem HookedProcessEvent_classless_callee_runs_Unknown_chain :
    invocations (HookedProcessEvent sdkAll allReturn (some 99) unknownBarRegistry
      classlessBar).2.1
      = [.invoke .pre 7 classlessBar, .original 99 classlessBar,
         .invoke .post 8 classlessBar] := by
  decide

/-- C6, amended: with the trampoline installed, a call whose callee or function descriptor
is null invokes no callback at all and the original exactly once with the caller's
arguments; a call whose callee has no class metadata is dispatched under the class name
`Unknown`: when its callbacks return normally or throw a `std::exception` (and leave the
registry as it is), the calls made are the global-before observers, the before-callbacks
registered for `("Unknown", f)`, the original exactly once with the caller's arguments,
the after-callbacks registered for `("Unknown", f)` and the global-after observers. -/
theorem HookedProcessEvent_unresolved_identity (sdk : SDKLookup) (beh : Behaviour) (fn : Nat)
    (s : HookSystem) (args : Args) :
    ((args.Object = none ∨ args.Function = none) →
      (HookedProcessEvent sdk beh (some fn) s args).2.1 = [.original fn args] ∧
      (HookedProcessEvent sdk beh (some fn) s args).2.2 = .returned) ∧
    (∀ Object Function, args.Object = some Object → args.Function = some Function →
      Object.Class = none →
      (∀ cb, some cb ∈ reachableCallbacks s "Unknown" Function.Name →
        (beh cb args).outcome.absorbed = true ∧ applyOps sdk s (beh cb args).ops = s) →
      (HookedProcessEvent sdk beh (some fn) s args).2.2 = .returned ∧
      invocations (HookedProcessEvent sdk beh (some fn) s args).2.1 =
        callsOf .globalPre args s.GetGlobalPreCallbacks
        ++ callsOf .pre args (s.GetPreCallbacksByClass "Unknown" Function.Name)
        ++ [Event.original fn args]
        ++ callsOf .post args (s.GetPostCallbacksByClass "Unknown" Function.Name)
        ++ callsOf .globalPost args s.GetGlobalPostCallbacks) := by
  constructor
  · intro h
    obtain ⟨o, f, p⟩ := args
    simp only at h
    cases o <;> cases f <;> simp_all [HookedProcessEvent, callOriginal]
  · intro Object Function hO hF hcls h
    obtain ⟨o, f, p⟩ := args
    simp only at hO hF
    subst hO hF
    have hname : classNameOf Object = "Unknown" := by simp [classNameOf, hcls]
    obtain ⟨_, hr, ht⟩ := HookedProcessEvent_absorbed sdk beh (some fn) s Object Function p
      (by rw [hname]; exact h)
    refine ⟨hr, ?_⟩
    rw [ht, hname]
    rfl

/-- Witness of `HookedProcessEvent_unresolved_identity`: a call with a null callee, and a
call on an object without class metadata while no chain is registered under `Unknown`. -/
theorem HookedProcessEvent_unresolved_identity_witness :
    ((HookedProcessEvent sdkAll allReturn (some 99) fooBarRegistry nullCallee).2.1
        = [.original 99 nullCallee] ∧
      (HookedProcessEvent sdkAll allReturn (some 99) fooBarRegistry nullCallee).2.2
        = .returned) ∧
    ((HookedProcessEvent sdkAll allReturn (some 99) fooBarRegistry classlessBar).2.2
        = .returned ∧
      invocations (HookedProcessEvent sdkAll allReturn (some 99) fooBarRegistry
        classlessBar).2.1 =
        [.invoke .globalPre 5 classlessBar, .original 99 classlessBar,
         .invoke .globalPost 9 classlessBar]) :=
  ⟨(HookedProcessEvent_unresolved_identity sdkAll allReturn 99 fooBarRegistry nullCallee).1
      (Or.inl rfl),
   ((HookedProcessEvent_unresolved_identity sdkAll allReturn 99 fooBarRegistry classlessBar).2
      ⟨1000, none⟩ ⟨2000, "Bar"⟩ rfl rfl rfl (fun _ _ => ⟨rfl, rfl⟩)).imp id
      (fun h => h.trans (by decide))⟩

/-! ## Registration and unregistration -/

/-- The C++ `RegisterHook`, in one equation. -/
theorem RegisterHook_eq (sdk : SDKLookup) (s : HookSystem) (c f : String)
    (pre post : Option CallbackId) :
    s.RegisterHook sdk c f pre post =
      if resolves sdk c f then (registered s c f pre post, true) else (s, false) := by
  unfold HookSystem.RegisterHook resolves registered
  by_cases h0 : c = "" ∨ f = ""
  · simp [h0]
  · cases h1 : sdk.FindClassByName c with
    | none => simp [h0]
    | some cls =>
      cases h2 : sdk.GetFunction cls c f with
      | none => simp [h0, h2]
      | some fn => cases pre <;> cases post <;> simp [h0, h2]

/-- What a `RegisterHook` that returns `true` did to the registry. -/
theorem RegisterHook_true_state (sdk : SDKLookup) (s : HookSystem) (c f : String)
    (pre post : Option CallbackId) (h : (s.RegisterHook sdk c f pre post).2 = true) :
    (s.RegisterHook sdk c f pre post).1 = registered s c f pre post := by
  rw [RegisterHook_eq] at h ⊢
  by_cases h0 : resolves sdk c f = true
  · simp [h0]
  · simp [h0] at h

/-- Whether `RegisterHook` returns `true` does not depend on the registry. -/
theorem RegisterHook_snd_state_independent (sdk : SDKLookup) (s s2 : HookSystem) (c f : String)
    (pre post pre2 post2 : Option CallbackId) :
    (s.RegisterHook sdk c f pre post).2 = (s2.RegisterHook sdk c f pre2 post2).2 := by
  rw [RegisterHook_eq, RegisterHook_eq]
  split_ifs <;> rfl

/-- The chains of the identity after a `RegisterHook` that returns `true`. -/
theorem RegisterHook_true_chains (sdk : SDKLookup) (s : HookSystem) (c f : String)
    (pre post : Option CallbackId) (h : (s.RegisterHook sdk c f pre post).2 = true) :
    (s.RegisterHook sdk c f pre post).1.GetPreCallbacksByClass c f
      = s.GetPreCallbacksByClass c f ++ supplied pre ∧
    (s.RegisterHook sdk c f pre post).1.GetPostCallbacksByClass c f
      = s.GetPostCallbacksByClass c f ++ supplied post := by
  rw [RegisterHook_true_state sdk s c f pre post h]
  constructor
  · cases pre <;>
      simp [registered, HookSystem.GetPreCallbacksByClass, supplied,
        dictLookup_dictPushBack_self]
  · cases post <;>
      simp [registered, HookSystem.GetPostCallbacksByClass, supplied,
        dictLookup_dictPushBack_self]

/-- A registration whose names are non-empty and whose class and function are found by the
metadata lookup returns `true`. -/
theorem RegisterHook_snd_of_found (sdk : SDKLookup) (s : HookSystem) (c f : String)
    (pre post : Option CallbackId) (hc : c ≠ "") (hf : f ≠ "") (cls : UClass)
    (hcls : sdk.FindClassByName c = some cls) (fn : UFunction)
    (hfn : sdk.GetFunction cls c f = some fn) :
    (s.RegisterHook sdk c f pre post).2 = true := by
  have hres : resolves sdk c f = true := by
    simp [resolves, hc, hf, hcls, hfn]
  rw [RegisterHook_eq, hres]
  rfl

/-- C7: a `RegisterHook(c, f, pre, post)` that succeeds (non-empty names, class and
function found by the metadata lookup) returns `true` and appends: the before-chain of
`(c, f)` is its previous value followed by `pre` when `pre` is supplied, the after-chain its
previous value followed by `post` when `post` is supplied; and a second registration under
the same identity succeeds as well and leaves both sets of callbacks in the chains, in
registration order. -/
theorem RegisterHook_appends (sdk : SDKLookup) (s : HookSystem) (c f : String)
    (pre post : Option CallbackId) (hc : c ≠ "") (hf : f ≠ "") (cls : UClass)
    (hcls : sdk.FindClassByName c = some cls) (fn : UFunction)
    (hfn : sdk.GetFunction cls c f = some fn) :
    (s.RegisterHook sdk c f pre post).2 = true ∧
    (s.RegisterHook sdk c f pre post).1.GetPreCallbacksByClass c f
      = s.GetPreCallbacksByClass c f ++ supplied pre ∧
    (s.RegisterHook sdk c f pre post).1.GetPostCallbacksByClass c f
      = s.GetPostCallbacksByClass c f ++ supplied post ∧
    ∀ pre2 post2 : Option CallbackId,
      ((s.RegisterHook sdk c f pre post).1.RegisterHook sdk c f pre2 post2).2 = true ∧
      ((s.RegisterHook sdk c f pre post).1.RegisterHook sdk c f pre2 post2).1.GetPreCallbacksByClass
          c f = s.GetPreCallbacksByClass c f ++ supplied pre ++ supplied pre2 ∧
      (((s.RegisterHook sdk c f pre post).1.RegisterHook sdk c f pre2 post2).1
          ).GetPostCallbacksByClass
          c f = s.GetPostCallbacksByClass c f ++ supplied post ++ supplied post2 := by
  have h := RegisterHook_snd_of_found sdk s c f pre post hc hf cls hcls fn hfn
  obtain ⟨h1, h2⟩ := RegisterHook_true_chains sdk s c f pre post h
  refine ⟨h, h1, h2, fun pre2 post2 => ?_⟩
  have h3 := RegisterHook_snd_of_found sdk (s.RegisterHook sdk c f pre post).1 c f pre2 post2
    hc hf cls hcls fn hfn
  obtain ⟨h4, h5⟩ := RegisterHook_true_chains sdk _ c f pre2 post2 h3
  exact ⟨h3, by rw [h4, h1], by rw [h5, h2]⟩

/-- Witness of `RegisterHook_appends`: a second plugin hooks `Foo::Bar`. -/
theorem RegisterHook_appends_witness :
    (fooBarRegistry.RegisterHook sdkAll "Foo" "Bar" (some 17) (some 18)).2 = true ∧
    (fooBarRegistry.RegisterHook sdkAll "Foo" "Bar" (some 17) (some 18)).1.GetPreCallbacksByClass
        "Foo" "Bar" = [some 7, some 17] ∧
    (fooBarRegistry.RegisterHook sdkAll "Foo" "Bar" (some 17) (some 18)).1.GetPostCallbacksByClass
        "Foo" "Bar" = [some 8, some 18] :=
  ⟨(RegisterHook_appends sdkAll fooBarRegistry "Foo" "Bar" (some 17) (some 18)
      (by decide) (by decide) ⟨"Foo"⟩ rfl ⟨4096, "Bar"⟩ rfl).1,
   (RegisterHook_appends sdkAll fooBarRegistry "Foo" "Bar" (some 17) (some 18)
      (by decide) (by decide) ⟨"Foo"⟩ rfl ⟨4096, "Bar"⟩ rfl).2.1.trans (by decide),
   (RegisterHook_appends sdkAll fooBarRegistry "Foo" "Bar" (some 17) (some 18)
      (by decide) (by decide) ⟨"Foo"⟩ rfl ⟨4096, "Bar"⟩ rfl).2.2.1.trans (by decide)⟩

/-- C8: `RegisterHook(c, f, pre, post)` returns `false` and leaves the whole registry as it
was whenever `c` or `f` is the empty string, or the metadata lookup does not find the class
`c`, or does not find the function `f` in it. -/
theorem RegisterHook_rejects (sdk : SDKLookup) (s : HookSystem) (c f : String)
    (pre post : Option CallbackId)
    (h : c = "" ∨ f = "" ∨ sdk.FindClassByName c = none ∨
      ∃ cls, sdk.FindClassByName c = some cls ∧ sdk.GetFunction cls c f = none) :
    s.RegisterHook sdk c f pre post = (s, false) := by
  have hres : resolves sdk c f = false := by
    unfold resolves
    rcases h with h | h | h | ⟨cls, h1, h2⟩
    · simp [h]
    · simp [h]
    · simp [h]
    · simp [h1, h2]
  rw [RegisterHook_eq, hres]
  rfl

/-- Witness of `RegisterHook_rejects`: an empty class name, an unknown class and an unknown
function. -/
theorem RegisterHook_rejects_witness :
    fooBarRegistry.RegisterHook sdkFooBar "" "Bar" (some 1) (some 2) = (fooBarRegistry, false) ∧
    fooBarRegistry.RegisterHook sdkFooBar "Baz" "Bar" (some 1) (some 2)
      = (fooBarRegistry, false) ∧
    fooBarRegistry.RegisterHook sdkFooBar "Foo" "Qux" (some 1) (some 2)
      = (fooBarRegistry, false) :=
  ⟨RegisterHook_rejects sdkFooBar fooBarRegistry "" "Bar" (some 1) (some 2) (Or.inl rfl),
   RegisterHook_rejects sdkFooBar fooBarRegistry "Baz" "Bar" (some 1) (some 2)
     (Or.inr (Or.inr (Or.inl (by decide)))),
   RegisterHook_rejects sdkFooBar fooBarRegistry "Foo" "Qux" (some 1) (some 2)
     (Or.inr (Or.inr (Or.inr ⟨⟨"Foo"⟩, by decide, by decide⟩)))⟩

/-- The C++ `UnregisterHook`, in one equation. -/
theorem UnregisterHook_eq (s : HookSystem) (c f : String) :
    s.UnregisterHook c f =
      if c = "" ∨ f = "" then (s, false)
      else (unregistered s c f,
        hasBucket s.m_PreCallbacksByClass c f || hasBucket s.m_PostCallbacksByClass c f) := by
  unfold HookSystem.UnregisterHook unregistered
  simp only [dictRemove_snd]

/-- The chains of the identity after an `UnregisterHook` that returned `true`. -/
theorem UnregisterHook_chains (s : HookSystem) (c f : String)
    (h : (s.UnregisterHook c f).2 = true) :
    (s.UnregisterHook c f).1.GetPreCallbacksByClass c f = [] ∧
    (s.UnregisterHook c f).1.GetPostCallbacksByClass c f = [] := by
  rw [UnregisterHook_eq] at h ⊢
  by_cases h0 : c = "" ∨ f = ""
  · simp [h0] at h
  · simp only [h0, if_false]
    exact ⟨dictLookup_dictRemove_self _ _ _, dictLookup_dictRemove_self _ _ _⟩

/-- C9: after `UnregisterHook(c, f)` has returned `true`, the before-chain and the
after-chain of `(c, f)` are both empty, however many callbacks they held; and a following
successful `RegisterHook(c, f, p, q)` leaves the chains exactly `[p]` and `[q]`. -/
theorem UnregisterHook_removes_whole_chain (sdk : SDKLookup) (s : HookSystem) (c f : String)
    (h : (s.UnregisterHook c f).2 = true) :
    (s.UnregisterHook c f).1.GetPreCallbacksByClass c f = [] ∧
    (s.UnregisterHook c f).1.GetPostCallbacksByClass c f = [] ∧
    ∀ p q : CallbackId,
      ((s.UnregisterHook c f).1.RegisterHook sdk c f (some p) (some q)).2 = true →
      ((s.UnregisterHook c f).1.RegisterHook sdk c f (some p) (some q)).1.GetPreCallbacksByClass
          c f = [some p] ∧
      ((s.UnregisterHook c f).1.RegisterHook sdk c f (some p) (some q)).1.GetPostCallbacksByClass
          c f = [some q] := by
  obtain ⟨h1, h2⟩ := UnregisterHook_chains s c f h
  refine ⟨h1, h2, fun p q hreg => ?_⟩
  obtain ⟨h3, h4⟩ := RegisterHook_true_chains sdk _ c f (some p) (some q) hreg
  rw [h3, h4, h1, h2]
  exact ⟨rfl, rfl⟩

/-- Witness of `UnregisterHook_removes_whole_chain`: three registrants, one unregistration,
one new registration. -/
theorem UnregisterHook_removes_whole_chain_witness :
    crowdedRegistry.GetPreCallbacksByClass "Foo" "Bar" = [some 1, some 3] ∧
    (crowdedRegistry.UnregisterHook "Foo" "Bar").1.GetPreCallbacksByClass "Foo" "Bar" = [] ∧
    (crowdedRegistry.UnregisterHook "Foo" "Bar").1.GetPostCallbacksByClass "Foo" "Bar" = [] ∧
    (((crowdedRegistry.UnregisterHook "Foo" "Bar").1.RegisterHook sdkAll "Foo" "Bar" (some 5)
        (some 6)).1.GetPreCallbacksByClass "Foo" "Bar" = [some 5] ∧
     ((crowdedRegistry.UnregisterHook "Foo" "Bar").1.RegisterHook sdkAll "Foo" "Bar" (some 5)
        (some 6)).1.GetPostCallbacksByClass "Foo" "Bar" = [some 6]) :=
  ⟨by decide,
   (UnregisterHook_removes_whole_chain sdkAll crowdedRegistry "Foo" "Bar" (by decide)).1,
   (UnregisterHook_removes_whole_chain sdkAll crowdedRegistry "Foo" "Bar" (by decide)).2.1,
   (UnregisterHook_removes_whole_chain sdkAll crowdedRegistry "Foo" "Bar" (by decide)).2.2 5 6
     (by decide)⟩

theorem hasBucket_registered_pre (s : HookSystem) (c2 f2 c f : String)
    (pre post : Option CallbackId) :
    hasBucket (registered s c2 f2 pre post).m_PreCallbacksByClass c f =
      ((pre.isSome && decide (c2 = c ∧ f2 = f)) || hasBucket s.m_PreCallbacksByClass c f) := by
  cases pre <;> simp [registered, hasBucket_dictPushBack]

theorem hasBucket_registered_post (s : HookSystem) (c2 f2 c f : String)
    (pre post : Option CallbackId) :
    hasBucket (registered s c2 f2 pre post).m_PostCallbacksByClass c f =
      ((post.isSome && decide (c2 = c ∧ f2 = f)) || hasBucket s.m_PostCallbacksByClass c f) := by
  cases post <;> simp [registered, hasBucket_dictPushBack]

theorem chainExists_unregistered (s : HookSystem) (c2 f2 c f : String) :
    chainExists (unregistered s c2 f2) c f =
      if c2 = c ∧ f2 = f then false else chainExists s c f := by
  unfold chainExists unregistered
  by_cases h : c2 = c ∧ f2 = f
  · obtain ⟨rfl, rfl⟩ := h
    simp [hasBucket_dictRemove_self]
  · simp only [hasBucket_dictRemove_ne _ _ _ _ _ h, h, if_false]

theorem resolves_nonempty (sdk : SDKLookup) (c f : String) (h : resolves sdk c f = true) :
    ¬ (c = "" ∨ f = "") := by
  unfold resolves at h
  simp only [Bool.and_eq_true, decide_eq_true_eq] at h
  exact h.1

theorem StatusInv_step (sdk : SDKLookup) (c f : String) (s : HookSystem) (status : Bool)
    (op : RegistryOp) (h : StatusInv c f s status) :
    StatusInv c f (applyOp sdk s op) (statusAfter sdk c f s status op) := by
  unfold StatusInv at h ⊢
  cases op with
  | RegisterHook c2 f2 pre post =>
    simp only [applyOp, statusAfter, RegisterHook_eq]
    by_cases hres : resolves sdk c2 f2 = true
    · have hne := resolves_nonempty sdk c2 f2 hres
      simp only [hres, if_true]
      by_cases hid : c2 = c ∧ f2 = f
      · obtain ⟨rfl, rfl⟩ := hid
        simp only [hne, if_false] at h ⊢
        simp only [chainExists, hasBucket_registered_pre, hasBucket_registered_post]
        simp only [chainExists] at h
        cases pre <;> cases post <;> simp [h]
      · have hid2 : ¬ (c2 = c ∧ f2 = f ∧ True ∧ (pre.isSome = true ∨ post.isSome = true)) :=
          fun hh => hid ⟨hh.1, hh.2.1⟩
        simp only [hid2, if_false]
        split_ifs at h ⊢ with h0
        · exact h
        · simp only [chainExists, hasBucket_registered_pre, hasBucket_registered_post]
          simp only [chainExists] at h
          simp [hid, h]
    · simp only [hres]
      simpa using h
  | UnregisterHook c2 f2 =>
    simp only [applyOp, statusAfter, UnregisterHook_eq]
    by_cases h2 : c2 = "" ∨ f2 = ""
    · simp only [h2, if_true]
      simpa using h
    · simp only [h2, if_false]
      by_cases hid : c2 = c ∧ f2 = f
      · obtain ⟨rfl, rfl⟩ := hid
        simp only [h2, if_false] at h ⊢
        rw [chainExists_unregistered]
        simp only [chainExists] at h
        cases status <;> simp_all
      · have hid2 : ¬ (c2 = c ∧ f2 = f ∧
            (hasBucket s.m_PreCallbacksByClass c2 f2 ||
              hasBucket s.m_PostCallbacksByClass c2 f2) = true) :=
          fun hh => hid ⟨hh.1, hh.2.1⟩
        simp only [hid2, if_false]
        split_ifs at h ⊢ with h0
        · exact h
        · rw [chainExists_unregistered]
          simp only [hid, if_false]
          exact h
  | RegisterGlobalPreCallback cb =>
    simpa [applyOp, statusAfter, HookSystem.RegisterGlobalPreCallback, chainExists] using h
  | RegisterGlobalPostCallback cb =>
    simpa [applyOp, statusAfter, HookSystem.RegisterGlobalPostCallback, chainExists] using h

theorem UnregisterHook_snd_of_StatusInv (c f : String) (s : HookSystem) (status : Bool)
    (h : StatusInv c f s status) : (s.UnregisterHook c f).2 = status := by
  unfold StatusInv at h
  rw [UnregisterHook_eq]
  split_ifs at h ⊢ with h0
  · exact h.symm
  · exact h

theorem UnregisterHook_snd_history (sdk : SDKLookup) (c f : String) (ops : List RegistryOp)
    (s : HookSystem) (status : Bool) (h : StatusInv c f s status) :
    ((applyOps sdk s ops).UnregisterHook c f).2 = registeredSince sdk c f s status ops := by
  induction ops generalizing s status with
  | nil => exact UnregisterHook_snd_of_StatusInv c f s status h
  | cons op rest ih =>
    simp only [applyOps, List.foldl_cons, registeredSince]
    exact ih _ _ (StatusInv_step sdk c f s status op h)

theorem registeredSince_never (sdk : SDKLookup) (c f : String) (ops : List RegistryOp)
    (s : HookSystem) (hno : ∀ pre post, RegistryOp.RegisterHook c f pre post ∉ ops) :
    registeredSince sdk c f s false ops = false := by
  induction ops generalizing s with
  | nil => rfl
  | cons op rest ih =>
    have hrest : ∀ pre post, RegistryOp.RegisterHook c f pre post ∉ rest :=
      fun pre post hmem => hno pre post (List.mem_cons_of_mem _ hmem)
    have hstat : statusAfter sdk c f s false op = false := by
      cases op with
      | RegisterHook c2 f2 pre post =>
        have hne : ¬ (c2 = c ∧ f2 = f) := by
          rintro ⟨rfl, rfl⟩
          exact hno pre post (List.mem_cons_self _ _)
        have hid2 : ¬ (c2 = c ∧ f2 = f ∧ (s.RegisterHook sdk c2 f2 pre post).2 = true
            ∧ (pre.isSome = true ∨ post.isSome = true)) := fun hh => hne ⟨hh.1, hh.2.1⟩
        simp only [statusAfter, hid2, if_false]
      | UnregisterHook c2 f2 => simp [statusAfter]
      | RegisterGlobalPreCallback cb => rfl
      | RegisterGlobalPostCallback cb => rfl
    simp only [registeredSince, hstat]
    exact ih _ hrest

/-- C10, counterexample: `RegisterHook("Foo", "Bar")` with neither callback supplied returns
`true` but creates no chain, so the `UnregisterHook("Foo", "Bar")` that follows returns
`false`. -/
theorem UnregisterHook_false_after_empty_registration :
    (HookSystem.initial.RegisterHook sdkAll "Foo" "Bar" none none).2 = true ∧
    ((HookSystem.initial.RegisterHook sdkAll "Foo" "Bar" none none).1.UnregisterHook
      "Foo" "Bar").2 = false := by
  decide

/-- C10, amended: after any history of API calls since start-up, `UnregisterHook(c, f)`
returns `true` if and only if a chain exists for `(c, f)`, that is, if and only if some
`RegisterHook(c, f, ...)` that supplied at least one of the two callbacks has returned
`true` since the last `UnregisterHook(c, f)` that returned `true`; in particular it returns
`false` for an identity that was never registered. -/
theorem UnregisterHook_true_iff_registered (sdk : SDKLookup) (c f : String)
    (ops : List RegistryOp) :
    ((applyOps sdk HookSystem.initial ops).UnregisterHook c f).2
      = registeredSince sdk c f HookSystem.initial false ops ∧
    ((c ≠ "" ∧ f ≠ "") →
      ((applyOps sdk HookSystem.initial ops).UnregisterHook c f).2
        = chainExists (applyOps sdk HookSystem.initial ops) c f) ∧
    ((∀ pre post, RegistryOp.RegisterHook c f pre post ∉ ops) →
      ((applyOps sdk HookSystem.initial ops).UnregisterHook c f).2 = false) := by
  have hinit : StatusInv c f HookSystem.initial false := by
    unfold StatusInv
    split_ifs
    · rfl
    · rfl
  have hmain := UnregisterHook_snd_history sdk c f ops HookSystem.initial false hinit
  refine ⟨hmain, ?_, ?_⟩
  · rintro ⟨hc, hf⟩
    rw [UnregisterHook_eq]
    simp [hc, hf, chainExists]
  · intro hno
    rw [hmain]
    exact registeredSince_never sdk c f ops _ hno

/-- Witness of `UnregisterHook_true_iff_registered`: `Foo::Bar` is registered with
one callback, and `Foo::Qux` is never registered. -/
theorem UnregisterHook_true_iff_registered_witness :
    ((applyOps sdkAll HookSystem.initial
        [.RegisterHook "Foo" "Bar" (some 1) none]).UnregisterHook "Foo" "Bar").2
      = chainExists (applyOps sdkAll HookSystem.initial
          [.RegisterHook "Foo" "Bar" (some 1) none]) "Foo" "Bar" ∧
    ((applyOps sdkAll HookSystem.initial
        [.RegisterHook "Foo" "Bar" (some 1) none]).UnregisterHook "Foo" "Qux").2 = false :=
  ⟨(UnregisterHook_true_iff_registered sdkAll "Foo" "Bar"
      [.RegisterHook "Foo" "Bar" (some 1) none]).2.1 ⟨by decide, by decide⟩,
   (UnregisterHook_true_iff_registered sdkAll "Foo" "Qux"
      [.RegisterHook "Foo" "Bar" (some 1) none]).2.2
      (fun pre post hmem => by simp at hmem)⟩

end PluginAPI

namespace d3d12hook

/-! ## The presentation hooks forward to the original -/

@[simp] theorem noPresent_nil : noPresent [] := rfl

@[simp] theorem noPresent_append {a b : List Event} :
    noPresent (a ++ b) ↔ noPresent a ∧ noPresent b := by
  simp [noPresent]

@[simp] theorem noPresent_cons {e : Event} {t : List Event} :
    noPresent (e :: t) ↔ isPresentCall e = false ∧ noPresent t := by
  unfold noPresent
  cases h : isPresentCall e <;> simp [List.filter_cons, h]

@[simp] theorem noPresent_releaseIfSet (p : Option Handle) : noPresent (releaseIfSet p) := by
  cases p <;> simp [releaseIfSet, isPresentCall]

theorem noPresent_flatMap {α : Type} (f : α → List Event) (l : List α)
    (h : ∀ a, noPresent (f a)) : noPresent (l.flatMap f) := by
  induction l with
  | nil => exact noPresent_nil
  | cons a rest ih =>
    rw [List.flatMap_cons, noPresent_append]
    exact ⟨h a, ih⟩

@[simp] theorem noPresent_releaseSlotAllocatorFirst (ctx : FrameContext) :
    noPresent (releaseSlotAllocatorFirst ctx) := by
  simp [releaseSlotAllocatorFirst]

@[simp] theorem noPresent_releaseSlotTargetFirst (ctx : FrameContext) :
    noPresent (releaseSlotTargetFirst ctx) := by
  simp [releaseSlotTargetFirst]

@[simp] theorem noPresent_CleanupPartialInit (s : State) :
    noPresent (CleanupPartialInit s).2 := by
  have h1 := noPresent_flatMap releaseSlotAllocatorFirst (visitedSlots s)
    noPresent_releaseSlotAllocatorFirst
  cases he : s.gFenceEvent <;> cases hc : s.gFrameContexts <;>
    simp [CleanupPartialInit, he, hc, h1, isPresentCall]

@[simp] theorem noPresent_release (env : Env) (s : State) : noPresent (release env s).2 := by
  have h1 := noPresent_flatMap releaseSlotTargetFirst (visitedSlots s)
    noPresent_releaseSlotTargetFirst
  cases he : s.gFenceEvent <;> cases hc : s.gFrameContexts <;> cases hw : env.mainWindow <;>
    cases hu : (s.gInitialized && env.GetCurrentContext) <;>
    simp [release, he, hc, hw, hu, h1, isPresentCall]

@[simp] theorem noPresent_createAllocators (env : Env) (idx : List Nat)
    (ctxs : List FrameContext) :
    noPresent (createAllocators env idx ctxs).2.1 := by
  induction idx generalizing ctxs with
  | nil => exact noPresent_nil
  | cons i rest ih =>
    unfold createAllocators
    split
    · simp [isPresentCall]
    · rw [noPresent_cons]
      exact ⟨rfl, ih _⟩

@[simp] theorem noPresent_createRenderTargetViews (env : Env) (rtvHandle : Nat)
    (idx : List Nat) (ctxs : List FrameContext) :
    noPresent (createRenderTargetViews env rtvHandle idx ctxs).2 := by
  induction idx generalizing rtvHandle ctxs with
  | nil => exact noPresent_nil
  | cons i rest ih =>
    unfold createRenderTargetViews
    rw [noPresent_append]
    exact ⟨by simp [isPresentCall], ih _ _⟩

@[simp] theorem noPresent_fenceWait (env : Env) (s : State) :
    noPresent (fenceWait env s).2 := by
  unfold fenceWait
  repeat' split
  all_goals simp [isPresentCall]

@[simp] theorem noPresent_recordCommands (s : State) (ctx : Option FrameContext) :
    noPresent (recordCommands s ctx) := by
  simp [recordCommands, isPresentCall]

theorem noPresent_submitAndSignal (env : Env) (s : State) (t : List Event)
    (ht : noPresent t) : noPresent (submitAndSignal env s t).2 := by
  cases hq : s.gCommandQueue <;> cases hf : s.gOverlayFence <;> cases hs : env.Signal <;>
    cases hd : s.gDevice <;> cases hr : env.deviceRemoved <;>
    simp [submitAndSignal, hq, hf, hs, hd, hr, ht, isPresentCall]

theorem forwarded_returnOriginal (env : Env) (call : PresentCall) (s : State)
    (t : List Event) (ht : noPresent t) : Forwarded env call (returnOriginal env call s t) :=
  ⟨s, t, rfl, ht⟩

theorem forwards_cleanupAndReturn (env : Env) (call : PresentCall) (s : State)
    (t : List Event) (ht : noPresent t) : (cleanupAndReturn env call s t).forwards env call := by
  unfold cleanupAndReturn
  exact forwarded_returnOriginal env call _ _ (by simp [ht])

theorem forwards_initFenceEvent (env : Env) (call : PresentCall) (s : State)
    (t : List Event) (ht : noPresent t) : (initFenceEvent env call s t).forwards env call := by
  unfold initFenceEvent
  split
  · exact ht
  · split
    · exact forwards_cleanupAndReturn env call _ _ (by simp [ht, isPresentCall])
    · simp [Flow.forwards, ht, isPresentCall]

theorem forwards_initFence (env : Env) (call : PresentCall) (s : State)
    (t : List Event) (ht : noPresent t) : (initFence env call s t).forwards env call := by
  unfold initFence
  split
  · exact forwards_initFenceEvent env call _ _ ht
  · split
    · exact forwards_cleanupAndReturn env call _ _ (by simp [ht, isPresentCall])
    · exact forwards_initFenceEvent env call _ _ (by simp [ht, isPresentCall])

theorem forwards_firstFrameInit (env : Env) (call : PresentCall) (s : State)
    (t : List Event) (ht : noPresent t) : (firstFrameInit env call s t).forwards env call := by
  have ht0 : noPresent (t ++ (match call with
          | .Present _ _ _ =>
            [Event.DebugLog "[d3d12hook] Initializing ImGui on first Present.\n",
             Event.DebugLog "[d3d12hook] ImGui initialized.\n"]
          | .Present1 _ _ _ _ =>
            [Event.DebugLog "[d3d12hook] Initializing ImGui on first Present1.\n"])) := by
    cases call <;> simp [ht, isPresentCall]
  unfold firstFrameInit
  simp only
  split
  · exact forwarded_returnOriginal env call _ _ (by
      rw [noPresent_append]; exact ⟨ht0, by simp [isPresentCall]⟩)
  · split
    · exact forwards_cleanupAndReturn env call _ _ (by
        rw [noPresent_append, noPresent_append]
        exact ⟨⟨ht0, by simp [isPresentCall]⟩, by simp [isPresentCall]⟩)
    · split
      · exact forwards_cleanupAndReturn env call _ _ (by
          rw [noPresent_append, noPresent_append, noPresent_append]
          exact ⟨⟨⟨ht0, by simp [isPresentCall]⟩, by simp [isPresentCall]⟩,
            by simp [isPresentCall]⟩)
      · split
        · exact forwards_cleanupAndReturn env call _ _ (by
            rw [noPresent_append, noPresent_append, noPresent_append, noPresent_append]
            exact ⟨⟨⟨⟨ht0, by simp [isPresentCall]⟩, by simp [isPresentCall]⟩,
              by simp [isPresentCall]⟩, noPresent_createAllocators _ _ _⟩)
        · exact forwards_initFence env call _ _ (by
            rw [noPresent_append, noPresent_append, noPresent_append, noPresent_append,
              noPresent_append, noPresent_append]
            exact ⟨⟨⟨⟨⟨⟨ht0, by simp [isPresentCall]⟩, by simp [isPresentCall]⟩,
              by simp [isPresentCall]⟩, noPresent_createAllocators _ _ _⟩,
              noPresent_createRenderTargetViews _ _ _ _⟩, by simp [isPresentCall]⟩)

theorem forwards_renderFrame (env : Env) (call : PresentCall) (s : State)
    (t : List Event) (ht : noPresent t) : (renderFrame env call s t).forwards env call := by
  unfold renderFrame
  simp only
  split
  · exact forwarded_returnOriginal env call _ _ (by simp [ht, isPresentCall])
  · split
    · exact forwarded_returnOriginal env call _ _ (by
        cases s.notificationActive <;> simp [ht, isPresentCall])
    · split
      · split
        · exact forwarded_returnOriginal env call _ _ (by
            cases s.notificationActive <;> simp [ht, isPresentCall])
        · split
          · exact forwarded_returnOriginal env call _ _ (by
              cases s.notificationActive <;> simp [ht, isPresentCall])
          · exact noPresent_submitAndSignal env _ _ (by
              cases s.notificationActive <;> simp [ht, isPresentCall])
      · split
        · exact forwarded_returnOriginal env call _ _ (by
            cases s.notificationActive <;> simp [ht, isPresentCall])
        · exact noPresent_submitAndSignal env _ _ (by
            cases s.notificationActive <;> simp [ht, isPresentCall])

theorem forwarded_presentBody (env : Env) (call : PresentCall) (s : State)
    (t : List Event) (ht : noPresent t) : Forwarded env call (presentBody env call s t) := by
  unfold presentBody
  simp only
  split
  · split
    · exact forwarded_returnOriginal env call _ _ (by simp [ht, isPresentCall])
    · exact forwarded_returnOriginal env call _ _ (by simp [ht, isPresentCall])
  · have hinit : (if (!s.gInitialized) = true
        then firstFrameInit env call { s with gAfterFirstPresent := true } t
        else Flow.continues { s with gAfterFirstPresent := true } t).forwards env call := by
      split
      · exact forwards_firstFrameInit env call _ _ ht
      · exact ht
    revert hinit
    generalize (if (!s.gInitialized) = true
        then firstFrameInit env call { s with gAfterFirstPresent := true } t
        else Flow.continues { s with gAfterFirstPresent := true } t) = flow
    intro hinit
    cases flow with
    | returned r => exact hinit
    | continues s1 t1 =>
      simp only
      split
      · have hr := forwards_renderFrame env call s1 t1 hinit
        revert hr
        generalize renderFrame env call s1 t1 = flow2
        intro hr
        cases flow2 with
        | returned r => exact hr
        | continues s2 t2 => exact forwarded_returnOriginal env call _ _ hr
      · exact forwarded_returnOriginal env call _ _ hinit

theorem forwarded_hookPresentD3D12 (env : Env) (s : State) (sc si fl : Nat) :
    Forwarded env (.Present sc si fl) (hookPresentD3D12 env s sc si fl) := by
  unfold hookPresentD3D12
  apply forwarded_presentBody
  repeat' split
  all_goals simp [isPresentCall]

theorem forwarded_hookPresent1D3D12 (env : Env) (s : State) (sc si fl pp : Nat) :
    Forwarded env (.Present1 sc si fl pp) (hookPresent1D3D12 env s sc si fl pp) := by
  unfold hookPresent1D3D12
  apply forwarded_presentBody
  split <;> simp [isPresentCall]

/-- What `Forwarded` says about the trace and the returned value. -/
theorem Forwarded.spec {env : Env} {call : PresentCall} {r : Result}
    (h : Forwarded env call r) :
    r.trace.getLast? = some call.event ∧
    r.trace.filter isPresentCall = [call.event] ∧
    r.ret = call.result env := by
  obtain ⟨s, t, rfl, ht⟩ := h
  cases call <;>
    simp [returnOriginal, PresentCall.event, PresentCall.result, List.filter_append,
      show t.filter isPresentCall = [] from ht, isPresentCall]

/-- In a call in which `menu::Init()` returns, `hookPresentD3D12` and `hookPresent1D3D12`,
from every state and whatever the outside world answers (fast path, initialisation failure,
wait timeout or failure, reset failure, render, device-loss release), call the original
presentation function exactly once, as their last action, with the caller's arguments, and
return the value of that call. -/
theorem hookPresent_forwards_exactly_once (env : Env) (s : State)
    (pSwapChain SyncInterval Flags pParams : Nat) :
    ((hookPresentD3D12 env s pSwapChain SyncInterval Flags).trace.getLast?
        = some (.original (.Present pSwapChain SyncInterval Flags)) ∧
     (hookPresentD3D12 env s pSwapChain SyncInterval Flags).trace.filter isPresentCall
        = [.original (.Present pSwapChain SyncInterval Flags)] ∧
     (hookPresentD3D12 env s pSwapChain SyncInterval Flags).ret
        = env.oPresentD3D12 pSwapChain SyncInterval Flags) ∧
    ((hookPresent1D3D12 env s pSwapChain SyncInterval Flags pParams).trace.getLast?
        = some (.original (.Present1 pSwapChain SyncInterval Flags pParams)) ∧
     (hookPresent1D3D12 env s pSwapChain SyncInterval Flags pParams).trace.filter isPresentCall
        = [.original (.Present1 pSwapChain SyncInterval Flags pParams)] ∧
     (hookPresent1D3D12 env s pSwapChain SyncInterval Flags pParams).ret
        = env.oPresent1D3D12 pSwapChain SyncInterval Flags pParams) :=
  ⟨(forwarded_hookPresentD3D12 env s pSwapChain SyncInterval Flags).spec,
   (forwarded_hookPresent1D3D12 env s pSwapChain SyncInterval Flags pParams).spec⟩

end d3d12hook

namespace PluginAPI

/-! ## Frame of `UnregisterHook` and of the global registrations -/

theorem mapAssign_self {K V : Type} [DecidableEq K] (m : List (K × V)) (k : K) (v : V)
    (h : mapFind m k = some v) : mapAssign m k v = m := by
  induction m with
  | nil => rfl
  | cons e rest ih =>
    obtain ⟨k1, v1⟩ := e
    by_cases hk : k1 = k
    · subst hk
      simp only [mapFind, if_true, Option.some.injEq] at h
      simp [mapAssign, h]
    · simp only [mapFind, hk, if_false] at h
      simp [mapAssign, hk, ih h]

theorem mem_of_mapFind {K V : Type} [DecidableEq K] (m : List (K × V)) (k : K) (v : V)
    (h : mapFind m k = some v) : (k, v) ∈ m := by
  induction m with
  | nil => simp [mapFind] at h
  | cons e rest ih =>
    obtain ⟨k1, v1⟩ := e
    by_cases hk : k1 = k
    · subst hk
      simp only [mapFind, if_true, Option.some.injEq] at h
      simp [h]
    · simp only [mapFind, hk, if_false] at h
      exact List.mem_cons_of_mem _ (ih h)

theorem mapSubscript_ne_nil {K V : Type} [DecidableEq K] (m : List (K × V)) (k : K) (d : V)
    (f : V → V) : mapSubscript m k d f ≠ [] := by
  cases m with
  | nil => simp [mapSubscript]
  | cons e rest =>
    obtain ⟨k1, v1⟩ := e
    by_cases hk : k1 = k <;> simp [mapSubscript, hk]

theorem NoEmptyClass_dictPushBack (dict : CallbackDict) (c f : String)
    (cb : Option CallbackId) (h : NoEmptyClass dict) :
    NoEmptyClass (dictPushBack dict c f cb) := by
  unfold dictPushBack
  induction dict with
  | nil =>
    intro e he
    simp only [mapSubscript, List.mem_singleton] at he
    subst he
    simp
  | cons e0 rest ih =>
    obtain ⟨k1, v1⟩ := e0
    have hrest : NoEmptyClass rest := fun e he => h e (List.mem_cons_of_mem _ he)
    by_cases hk : k1 = c
    · intro e he
      simp only [mapSubscript, hk, if_true, List.mem_cons] at he
      rcases he with he | he
      · subst he
        exact mapSubscript_ne_nil (K := String) _ f [] _
      · exact hrest e he
    · intro e he
      simp only [mapSubscript, hk, if_false, List.mem_cons] at he
      rcases he with he | he
      · subst he
        exact h (k1, v1) (List.mem_cons_self _ _)
      · exact ih hrest e he

theorem NoEmptyClass_mapErase (dict : CallbackDict) (c : String) (h : NoEmptyClass dict) :
    NoEmptyClass (mapErase dict c) := by
  intro e he
  unfold mapErase at he
  exact h e (List.mem_of_mem_filter he)

theorem NoEmptyClass_mapAssign (dict : CallbackDict) (c : String)
    (w : List (String × List (Option CallbackId))) (hw : w ≠ []) (h : NoEmptyClass dict) :
    NoEmptyClass (mapAssign dict c w) := by
  induction dict with
  | nil => intro e he; simp [mapAssign] at he
  | cons e0 rest ih =>
    obtain ⟨k1, v1⟩ := e0
    have hrest : NoEmptyClass rest := fun e he => h e (List.mem_cons_of_mem _ he)
    by_cases hk : k1 = c
    · intro e he
      simp only [mapAssign, hk, if_true, List.mem_cons] at he
      rcases he with he | he
      · subst he
        exact hw
      · exact hrest e he
    · intro e he
      simp only [mapAssign, hk, if_false, List.mem_cons] at he
      rcases he with he | he
      · subst he
        exact h (k1, v1) (List.mem_cons_self _ _)
      · exact ih hrest e he

theorem NoEmptyClass_dictRemove (dict : CallbackDict) (c f : String) (h : NoEmptyClass dict) :
    NoEmptyClass (dictRemove dict c f).1 := by
  cases h1 : mapFind dict c with
  | none => rw [dictRemove_fst_none _ _ _ h1]; exact h
  | some inner =>
    rw [dictRemove_fst_some _ _ _ _ h1]
    split_ifs with hempty
    · exact NoEmptyClass_mapErase _ _ h
    · refine NoEmptyClass_mapAssign _ _ _ ?_ h
      intro hnil
      rw [hnil] at hempty
      exact hempty rfl

/-- In a tidy dictionary, a removal that finds no bucket changes nothing. -/
theorem dictRemove_fst_of_not_found (dict : CallbackDict) (c f : String)
    (h : NoEmptyClass dict) (hno : hasBucket dict c f = false) :
    (dictRemove dict c f).1 = dict := by
  cases h1 : mapFind dict c with
  | none => exact dictRemove_fst_none _ _ _ h1
  | some inner =>
    have hf : (mapFind inner f).isSome = false := by
      simpa [hasBucket, h1] using hno
    have hinner : innerAfterErase inner f = inner := by
      simp [innerAfterErase, hf]
    have hne : inner ≠ [] := h (c, inner) (mem_of_mapFind _ _ _ h1)
    have hemp : inner.isEmpty = false := by
      cases inner with
      | nil => exact absurd rfl hne
      | cons a b => rfl
    rw [dictRemove_fst_some _ _ _ _ h1, hinner, hemp]
    simp only [Bool.false_eq_true, if_false]
    exact mapAssign_self _ _ _ h1

theorem Tidy_initial : HookSystem.initial.Tidy := by
  constructor <;> intro e he <;> simp [HookSystem.initial] at he

theorem Tidy_applyOp (sdk : SDKLookup) (s : HookSystem) (op : RegistryOp) (h : s.Tidy) :
    (applyOp sdk s op).Tidy := by
  obtain ⟨hpre, hpost⟩ := h
  cases op with
  | RegisterHook c f pre post =>
    simp only [applyOp, RegisterHook_eq]
    split_ifs
    · constructor
      · cases pre <;> simp [registered, hpre, NoEmptyClass_dictPushBack]
      · cases post <;> simp [registered, hpost, NoEmptyClass_dictPushBack]
    · exact ⟨hpre, hpost⟩
  | UnregisterHook c f =>
    simp only [applyOp, UnregisterHook_eq]
    split_ifs
    · exact ⟨hpre, hpost⟩
    · exact ⟨NoEmptyClass_dictRemove _ _ _ hpre, NoEmptyClass_dictRemove _ _ _ hpost⟩
  | RegisterGlobalPreCallback cb => exact ⟨hpre, hpost⟩
  | RegisterGlobalPostCallback cb => exact ⟨hpre, hpost⟩

theorem Tidy_applyOps (sdk : SDKLookup) (ops : List RegistryOp) (s : HookSystem)
    (h : s.Tidy) : (applyOps sdk s ops).Tidy := by
  induction ops generalizing s with
  | nil => exact h
  | cons op rest ih =>
    simp only [applyOps, List.foldl_cons]
    exact ih _ (Tidy_applyOp sdk s op h)

/-- An `UnregisterHook` that returns `false` on a tidy registry changes nothing. -/
theorem UnregisterHook_false_of_Tidy (s : HookSystem) (c f : String) (h : s.Tidy)
    (hret : (s.UnregisterHook c f).2 = false) : (s.UnregisterHook c f).1 = s := by
  rw [UnregisterHook_eq] at hret ⊢
  split_ifs at hret ⊢ with h0
  · rfl
  · simp only [Bool.or_eq_false_iff] at hret
    simp only [unregistered, dictRemove_fst_of_not_found _ _ _ h.1 hret.1,
      dictRemove_fst_of_not_found _ _ _ h.2 hret.2]

/-- C11: every `UnregisterHook(c, f)`, whatever it returns, leaves both global observer
lists as they were and leaves the before- and after-chain of every identity `(c2, f2)`
that differs from `(c, f)` in either string as they were; and when it returns `false`, in
a registry built by the API since start-up, the whole registry is unchanged. -/
theorem UnregisterHook_frame (sdk : SDKLookup) (s : HookSystem) (ops : List RegistryOp)
    (c f : String) :
    (s.UnregisterHook c f).1.GetGlobalPreCallbacks = s.GetGlobalPreCallbacks ∧
    (s.UnregisterHook c f).1.GetGlobalPostCallbacks = s.GetGlobalPostCallbacks ∧
    (∀ c2 f2 : String, (c2 ≠ c ∨ f2 ≠ f) →
      (s.UnregisterHook c f).1.GetPreCallbacksByClass c2 f2 = s.GetPreCallbacksByClass c2 f2 ∧
      (s.UnregisterHook c f).1.GetPostCallbacksByClass c2 f2
        = s.GetPostCallbacksByClass c2 f2) ∧
    (((applyOps sdk HookSystem.initial ops).UnregisterHook c f).2 = false →
      ((applyOps sdk HookSystem.initial ops).UnregisterHook c f).1
        = applyOps sdk HookSystem.initial ops) := by
  refine ⟨?_, ?_, ?_, ?_⟩
  · rw [UnregisterHook_eq]
    split_ifs <;> rfl
  · rw [UnregisterHook_eq]
    split_ifs <;> rfl
  · intro c2 f2 hne
    have hne2 : ¬ (c = c2 ∧ f = f2) := by
      rintro ⟨rfl, rfl⟩
      rcases hne with h | h <;> exact h rfl
    rw [UnregisterHook_eq]
    split_ifs
    · exact ⟨rfl, rfl⟩
    · exact ⟨dictLookup_dictRemove_ne _ _ _ _ _ hne2, dictLookup_dictRemove_ne _ _ _ _ _ hne2⟩
  · exact UnregisterHook_false_of_Tidy _ c f (Tidy_applyOps sdk ops _ Tidy_initial)

/-- Witness of `UnregisterHook_frame`: unregistering `Foo::Bar` leaves `foo::Bar` alone, and
unregistering the unknown `Foo::Qux` changes nothing. -/
theorem UnregisterHook_frame_witness :
    ((caseRegistry.UnregisterHook "Foo" "Bar").1.GetPreCallbacksByClass "foo" "Bar" = [some 3] ∧
      (caseRegistry.UnregisterHook "Foo" "Bar").1.GetPostCallbacksByClass "foo" "Bar"
        = [some 4]) ∧
    (caseRegistry.UnregisterHook "Foo" "Qux").1 = caseRegistry :=
  ⟨((UnregisterHook_frame sdkAll caseRegistry [] "Foo" "Bar").2.2.1 "foo" "Bar"
      (Or.inl (by decide))).imp (fun h => h.trans (by decide)) (fun h => h.trans (by decide)),
   (UnregisterHook_frame sdkAll HookSystem.initial
      [.RegisterHook "Foo" "Bar" (some 1) (some 2), .RegisterHook "foo" "Bar" (some 3) (some 4),
       .RegisterGlobalPreCallback (some 5), .RegisterGlobalPostCallback (some 6)]
      "Foo" "Qux").2.2.2 (by decide)⟩

end PluginAPI

namespace PluginAPI

theorem applyOp_global_prefix (sdk : SDKLookup) (s : HookSystem) (op : RegistryOp) :
    s.GetGlobalPreCallbacks <+: (applyOp sdk s op).GetGlobalPreCallbacks ∧
    s.GetGlobalPostCallbacks <+: (applyOp sdk s op).GetGlobalPostCallbacks := by
  cases op with
  | RegisterHook c f pre post =>
    simp only [applyOp, RegisterHook_eq]
    split_ifs <;> exact ⟨List.prefix_refl _, List.prefix_refl _⟩
  | UnregisterHook c f =>
    simp only [applyOp, UnregisterHook_eq]
    split_ifs <;> exact ⟨List.prefix_refl _, List.prefix_refl _⟩
  | RegisterGlobalPreCallback cb =>
    exact ⟨List.prefix_append _ _, List.prefix_refl _⟩
  | RegisterGlobalPostCallback cb =>
    exact ⟨List.prefix_refl _, List.prefix_append _ _⟩

theorem applyOps_global_prefix (sdk : SDKLookup) (ops : List RegistryOp) (s : HookSystem) :
    s.GetGlobalPreCallbacks <+: (applyOps sdk s ops).GetGlobalPreCallbacks ∧
    s.GetGlobalPostCallbacks <+: (applyOps sdk s ops).GetGlobalPostCallbacks := by
  induction ops generalizing s with
  | nil => exact ⟨List.prefix_refl _, List.prefix_refl _⟩
  | cons op rest ih =>
    simp only [applyOps, List.foldl_cons]
    obtain ⟨h1, h2⟩ := applyOp_global_prefix sdk s op
    obtain ⟨h3, h4⟩ := ih (applyOp sdk s op)
    exact ⟨h1.trans h3, h2.trans h4⟩

/-- C12: `RegisterGlobalPreCallback(cb)` makes the global-before list its previous value
followed by `cb` and leaves the global-after list and every identity chain as they were,
and symmetrically for `RegisterGlobalPostCallback(cb)`; and after any sequence of registry
operations (`RegisterHook`, `UnregisterHook`, either global registration) each global list
still starts with its previous value: nothing was removed from it or reordered. -/
theorem RegisterGlobalCallback_appends (sdk : SDKLookup) (s : HookSystem)
    (cb : Option CallbackId) :
    ((s.RegisterGlobalPreCallback cb).GetGlobalPreCallbacks = s.GetGlobalPreCallbacks ++ [cb] ∧
      (s.RegisterGlobalPreCallback cb).GetGlobalPostCallbacks = s.GetGlobalPostCallbacks ∧
      ∀ c f : String,
        (s.RegisterGlobalPreCallback cb).GetPreCallbacksByClass c f
          = s.GetPreCallbacksByClass c f ∧
        (s.RegisterGlobalPreCallback cb).GetPostCallbacksByClass c f
          = s.GetPostCallbacksByClass c f) ∧
    ((s.RegisterGlobalPostCallback cb).GetGlobalPostCallbacks
        = s.GetGlobalPostCallbacks ++ [cb] ∧
      (s.RegisterGlobalPostCallback cb).GetGlobalPreCallbacks = s.GetGlobalPreCallbacks ∧
      ∀ c f : String,
        (s.RegisterGlobalPostCallback cb).GetPreCallbacksByClass c f
          = s.GetPreCallbacksByClass c f ∧
        (s.RegisterGlobalPostCallback cb).GetPostCallbacksByClass c f
          = s.GetPostCallbacksByClass c f) ∧
    ∀ ops : List RegistryOp,
      s.GetGlobalPreCallbacks <+: (applyOps sdk s ops).GetGlobalPreCallbacks ∧
      s.GetGlobalPostCallbacks <+: (applyOps sdk s ops).GetGlobalPostCallbacks :=
  ⟨⟨rfl, rfl, fun _ _ => ⟨rfl, rfl⟩⟩, ⟨rfl, rfl, fun _ _ => ⟨rfl, rfl⟩⟩,
    fun ops => applyOps_global_prefix sdk ops s⟩

end PluginAPI

namespace PluginAPI

/-! ## Snapshots and locks of `HookedProcessEvent` -/

theorem invokedAt_append (site : Site) (a b : List Event) :
    invokedAt site (a ++ b) = invokedAt site a ++ invokedAt site b := by
  simp [invokedAt]

theorem invokedAt_debugBefore (site s2 : Site) (m : Bool) (c f : String) :
    invokedAt site (debugBefore s2 m c f) = [] := by
  unfold debugBefore
  split <;> simp [invokedAt]

theorem invokedAt_debugAfter (site s2 : Site) (m : Bool) :
    invokedAt site (debugAfter s2 m) = [] := by
  unfold debugAfter
  split <;> simp [invokedAt]

theorem invokedAt_opLocks (site : Site) (ops : List RegistryOp) :
    invokedAt site (ops.flatMap opLocks) = [] := by
  induction ops with
  | nil => simp [invokedAt]
  | cons op rest ih =>
    rw [List.flatMap_cons, invokedAt_append, ih]
    cases op <;> simp [opLocks, invokedAt]

theorem invokedAt_callOriginal (site : Site) (g : Option Nat) (args : Args) :
    invokedAt site (callOriginal g args) = [] := by
  cases g <;> simp [callOriginal, invokedAt]

theorem invokedAt_invoke (site s2 : Site) (cb : CallbackId) (args : Args) :
    invokedAt site [Event.invoke s2 cb args]
      = if s2 = site then [Event.invoke s2 cb args] else [] := by
  by_cases h : s2 = site <;> simp [invokedAt, h]

theorem invokedAt_logError (site : Site) (msg : String) :
    invokedAt site [Event.logError msg] = [] := by
  simp [invokedAt]

/-- A loop invokes nothing at another site. -/
theorem invokedAt_fireCallbacks_other (sdk : SDKLookup) (beh : Behaviour) (site s2 : Site)
    (m : Bool) (c f : String) (args : Args) (cbs : List (Option CallbackId)) (s : HookSystem)
    (hne : s2 ≠ site) :
    invokedAt site (fireCallbacks sdk beh s2 m c f args cbs s).2.1 = [] := by
  induction cbs generalizing s with
  | nil => simp [fireCallbacks, invokedAt]
  | cons x rest ih =>
    cases x with
    | none => simpa [fireCallbacks] using ih s
    | some cb =>
      cases ho : (beh cb args).outcome <;>
        simp only [fireCallbacks, ho, invokedAt_append, invokedAt_invoke, invokedAt_debugBefore,
          invokedAt_opLocks, invokedAt_debugAfter, invokedAt_logError, hne, if_false, ih,
          List.append_nil]

/-- Whatever the callbacks do to the registry, a loop invokes an initial segment of its
snapshot, in order. -/
theorem invokedAt_fireCallbacks_prefix (sdk : SDKLookup) (beh : Behaviour) (site : Site)
    (m : Bool) (c f : String) (args : Args) (cbs : List (Option CallbackId)) (s : HookSystem) :
    invokedAt site (fireCallbacks sdk beh site m c f args cbs s).2.1 <+: callsOf site args cbs := by
  induction cbs generalizing s with
  | nil => simp [fireCallbacks, invokedAt, callsOf]
  | cons x rest ih =>
    cases x with
    | none =>
      rw [callsOf_none]
      simpa [fireCallbacks] using ih s
    | some cb =>
      rw [callsOf_some]
      cases ho : (beh cb args).outcome <;>
        simp only [fireCallbacks, ho, invokedAt_append, invokedAt_invoke, invokedAt_debugBefore,
          invokedAt_opLocks, invokedAt_debugAfter, invokedAt_logError, if_true,
          List.append_nil, List.nil_append, List.singleton_append]
      · exact (List.prefix_cons_inj _).2 (ih _)
      · exact (List.prefix_cons_inj _).2 (ih _)
      · exact (List.prefix_cons_inj _).2 (List.nil_prefix)
      · exact (List.prefix_cons_inj _).2 (List.nil_prefix)

/-- Whatever the callbacks do to the registry, a loop that runs to its end has invoked
exactly the non-empty callbacks of its snapshot, in order. -/
theorem invokedAt_fireCallbacks_returned (sdk : SDKLookup) (beh : Behaviour) (site : Site)
    (m : Bool) (c f : String) (args : Args) (cbs : List (Option CallbackId)) (s : HookSystem)
    (h : (fireCallbacks sdk beh site m c f args cbs s).2.2 = .returned) :
    invokedAt site (fireCallbacks sdk beh site m c f args cbs s).2.1 = callsOf site args cbs := by
  induction cbs generalizing s with
  | nil => simp [fireCallbacks, invokedAt, callsOf]
  | cons x rest ih =>
    cases x with
    | none =>
      rw [callsOf_none]
      simp only [fireCallbacks] at h ⊢
      exact ih s h
    | some cb =>
      rw [callsOf_some]
      cases ho : (beh cb args).outcome with
      | returns =>
        simp only [fireCallbacks, ho] at h
        simp only [fireCallbacks, ho, invokedAt_append, invokedAt_invoke, invokedAt_debugBefore,
          invokedAt_opLocks, invokedAt_debugAfter, if_true, List.append_nil, List.nil_append,
          List.singleton_append, ih _ h]
      | throwsStd w =>
        simp only [fireCallbacks, ho] at h
        simp only [fireCallbacks, ho, invokedAt_append, invokedAt_invoke, invokedAt_debugBefore,
          invokedAt_opLocks, invokedAt_logError, if_true, List.append_nil, List.nil_append,
          List.singleton_append, ih _ h]
      | throwsOther => simp [fireCallbacks, ho] at h
      | faults => simp [fireCallbacks, ho] at h

end PluginAPI

namespace PluginAPI

theorem invokedAt_locks (site : Site) (m1 m2 : Mutex) :
    invokedAt site [Event.lock m1, Event.unlock m2] = [] := by
  simp [invokedAt]

theorem invokedAt_hookLocks (site : Site) :
    invokedAt site
      [Event.lock .m_HooksMutex, Event.unlock .m_HooksMutex, Event.lock .m_HooksMutex,
        Event.unlock .m_HooksMutex] = [] := by
  simp [invokedAt]

theorem invokedAt_found (site : Site) (b : Bool) (msg : String) :
    invokedAt site (if b = true then [Event.debugString msg] else []) = [] := by
  cases b <;> simp [invokedAt]

/-- C13: `HookedProcessEvent` iterates over snapshot copies.  Whatever registry calls the
callbacks make while the dispatch runs, the callbacks invoked in each phase are an initial
segment, in order, of the list copied for that phase: the global-before list of the
registry at the call, the before- and the after-chain of the registry as the global-before
loop left it, the global-after list of the registry as the after-loop left it; and when the
dispatch returns, each phase has invoked exactly the non-empty callbacks of its copy. -/
theorem HookedProcessEvent_iterates_snapshots (sdk : SDKLookup) (beh : Behaviour)
    (g : Option Nat) (s : HookSystem) (Object : UObject) (Function : UFunction) (Params : Nat) :
    (invokedAt .globalPre
        (HookedProcessEvent sdk beh g s ⟨some Object, some Function, Params⟩).2.1
        <+: callsOf .globalPre ⟨some Object, some Function, Params⟩ s.GetGlobalPreCallbacks ∧
      invokedAt .pre (HookedProcessEvent sdk beh g s ⟨some Object, some Function, Params⟩).2.1
        <+: callsOf .pre ⟨some Object, some Function, Params⟩
          ((registryAtChainCopy sdk beh s Object Function Params).GetPreCallbacksByClass
            (classNameOf Object) Function.Name) ∧
      invokedAt .post (HookedProcessEvent sdk beh g s ⟨some Object, some Function, Params⟩).2.1
        <+: callsOf .post ⟨some Object, some Function, Params⟩
          ((registryAtChainCopy sdk beh s Object Function Params).GetPostCallbacksByClass
            (classNameOf Object) Function.Name) ∧
      invokedAt .globalPost
        (HookedProcessEvent sdk beh g s ⟨some Object, some Function, Params⟩).2.1
        <+: callsOf .globalPost ⟨some Object, some Function, Params⟩
          (registryAtGlobalPostCopy sdk beh s Object Function Params).GetGlobalPostCallbacks) ∧
    ((HookedProcessEvent sdk beh g s ⟨some Object, some Function, Params⟩).2.2 = .returned →
      invokedAt .globalPre
        (HookedProcessEvent sdk beh g s ⟨some Object, some Function, Params⟩).2.1
        = callsOf .globalPre ⟨some Object, some Function, Params⟩ s.GetGlobalPreCallbacks ∧
      invokedAt .pre (HookedProcessEvent sdk beh g s ⟨some Object, some Function, Params⟩).2.1
        = callsOf .pre ⟨some Object, some Function, Params⟩
          ((registryAtChainCopy sdk beh s Object Function Params).GetPreCallbacksByClass
            (classNameOf Object) Function.Name) ∧
      invokedAt .post (HookedProcessEvent sdk beh g s ⟨some Object, some Function, Params⟩).2.1
        = callsOf .post ⟨some Object, some Function, Params⟩
          ((registryAtChainCopy sdk beh s Object Function Params).GetPostCallbacksByClass
            (classNameOf Object) Function.Name) ∧
      invokedAt .globalPost
        (HookedProcessEvent sdk beh g s ⟨some Object, some Function, Params⟩).2.1
        = callsOf .globalPost ⟨some Object, some Function, Params⟩
          (registryAtGlobalPostCopy sdk beh s Object Function Params).GetGlobalPostCallbacks) := by
  have P := fun (site : Site) (cbs : List (Option CallbackId)) (st : HookSystem) =>
    invokedAt_fireCallbacks_prefix sdk beh site (isMenuFunctionName Function.Name)
      (classNameOf Object) Function.Name ⟨some Object, some Function, Params⟩ cbs st
  have E := fun (site : Site) (cbs : List (Option CallbackId)) (st : HookSystem) =>
    invokedAt_fireCallbacks_returned sdk beh site (isMenuFunctionName Function.Name)
      (classNameOf Object) Function.Name ⟨some Object, some Function, Params⟩ cbs st
  have O := fun (site s2 : Site) (cbs : List (Option CallbackId)) (st : HookSystem) =>
    invokedAt_fireCallbacks_other sdk beh site s2 (isMenuFunctionName Function.Name)
      (classNameOf Object) Function.Name ⟨some Object, some Function, Params⟩ cbs st
  have O_globalPre_pre := fun (cbs : List (Option CallbackId)) (st : HookSystem) =>
    O .globalPre .pre cbs st (by decide)
  have O_globalPre_post := fun (cbs : List (Option CallbackId)) (st : HookSystem) =>
    O .globalPre .post cbs st (by decide)
  have O_globalPre_globalPost := fun (cbs : List (Option CallbackId)) (st : HookSystem) =>
    O .globalPre .globalPost cbs st (by decide)
  have O_pre_globalPre := fun (cbs : List (Option CallbackId)) (st : HookSystem) =>
    O .pre .globalPre cbs st (by decide)
  have O_pre_post := fun (cbs : List (Option CallbackId)) (st : HookSystem) =>
    O .pre .post cbs st (by decide)
  have O_pre_globalPost := fun (cbs : List (Option CallbackId)) (st : HookSystem) =>
    O .pre .globalPost cbs st (by decide)
  have O_post_globalPre := fun (cbs : List (Option CallbackId)) (st : HookSystem) =>
    O .post .globalPre cbs st (by decide)
  have O_post_pre := fun (cbs : List (Option CallbackId)) (st : HookSystem) =>
    O .post .pre cbs st (by decide)
  have O_post_globalPost := fun (cbs : List (Option CallbackId)) (st : HookSystem) =>
    O .post .globalPost cbs st (by decide)
  have O_globalPost_globalPre := fun (cbs : List (Option CallbackId)) (st : HookSystem) =>
    O .globalPost .globalPre cbs st (by decide)
  have O_globalPost_pre := fun (cbs : List (Option CallbackId)) (st : HookSystem) =>
    O .globalPost .pre cbs st (by decide)
  have O_globalPost_post := fun (cbs : List (Option CallbackId)) (st : HookSystem) =>
    O .globalPost .post cbs st (by decide)
  unfold registryAtGlobalPostCopy registryAtChainCopy
  simp only [HookedProcessEvent]
  cases h1 : (fireCallbacks sdk beh .globalPre (isMenuFunctionName Function.Name)
    (classNameOf Object) Function.Name ⟨some Object, some Function, Params⟩
    s.GetGlobalPreCallbacks s).2.2 with
  | escaped =>
    simp only [h1, invokedAt_append, invokedAt_locks, invokedAt_hookLocks, invokedAt_found,
      invokedAt_callOriginal, List.nil_append, List.append_nil, O_globalPre_pre, O_globalPre_post,
      O_globalPre_globalPost, O_pre_globalPre, O_pre_post, O_pre_globalPost, O_post_globalPre,
      O_post_pre, O_post_globalPost, O_globalPost_globalPre, O_globalPost_pre, O_globalPost_post,
      List.nil_prefix, List.prefix_refl, true_and, and_true]
    exact ⟨P _ _ _, fun h => by cases h⟩
  | returned =>
    have e1 := E .globalPre _ _ h1
    generalize (fireCallbacks sdk beh .globalPre (isMenuFunctionName Function.Name)
      (classNameOf Object) Function.Name ⟨some Object, some Function, Params⟩
      s.GetGlobalPreCallbacks s).1 = S1 at *
    cases h2 : (fireCallbacks sdk beh .pre (isMenuFunctionName Function.Name)
      (classNameOf Object) Function.Name ⟨some Object, some Function, Params⟩
      (S1.GetPreCallbacksByClass (classNameOf Object) Function.Name) S1).2.2 with
    | escaped =>
      simp only [h1, h2, e1, invokedAt_append, invokedAt_locks, invokedAt_hookLocks,
        invokedAt_found,
        invokedAt_callOriginal, List.nil_append, List.append_nil, O_globalPre_pre, O_globalPre_post,
        O_globalPre_globalPost, O_pre_globalPre, O_pre_post, O_pre_globalPost, O_post_globalPre,
        O_post_pre, O_post_globalPost, O_globalPost_globalPre, O_globalPost_pre, O_globalPost_post,
        List.nil_prefix, List.prefix_refl, true_and, and_true]
      exact ⟨P _ _ _, fun h => by cases h⟩
    | returned =>
      have e2 := E .pre _ _ h2
      generalize (fireCallbacks sdk beh .pre (isMenuFunctionName Function.Name)
        (classNameOf Object) Function.Name ⟨some Object, some Function, Params⟩
        (S1.GetPreCallbacksByClass (classNameOf Object) Function.Name) S1).1 = S2 at *
      cases h3 : (fireCallbacks sdk beh .post (isMenuFunctionName Function.Name)
        (classNameOf Object) Function.Name ⟨some Object, some Function, Params⟩
        (S1.GetPostCallbacksByClass (classNameOf Object) Function.Name) S2).2.2 with
      | escaped =>
        simp only [h1, h2, h3, e1, e2, invokedAt_append, invokedAt_locks, invokedAt_hookLocks,
          invokedAt_found,
          invokedAt_callOriginal, List.nil_append, List.append_nil, O_globalPre_pre, O_globalPre_post,
          O_globalPre_globalPost, O_pre_globalPre, O_pre_post, O_pre_globalPost, O_post_globalPre,
          O_post_pre, O_post_globalPost, O_globalPost_globalPre, O_globalPost_pre, O_globalPost_post,
          List.nil_prefix, List.prefix_refl, true_and, and_true]
        exact ⟨P _ _ _, fun h => by cases h⟩
      | returned =>
        have e3 := E .post _ _ h3
        generalize (fireCallbacks sdk beh .post (isMenuFunctionName Function.Name)
          (classNameOf Object) Function.Name ⟨some Object, some Function, Params⟩
          (S1.GetPostCallbacksByClass (classNameOf Object) Function.Name) S2).1 = S3 at *
        simp only [h1, h2, h3, e1, e2, e3, invokedAt_append, invokedAt_locks,
          invokedAt_hookLocks, invokedAt_found,
          invokedAt_callOriginal, List.nil_append, List.append_nil, O_globalPre_pre, O_globalPre_post,
          O_globalPre_globalPost, O_pre_globalPre, O_pre_post, O_pre_globalPost, O_post_globalPre,
          O_post_pre, O_post_globalPost, O_globalPost_globalPre, O_globalPost_pre, O_globalPost_post,
          List.nil_prefix, List.prefix_refl, true_and, and_true]
        exact ⟨P _ _ _, fun h => E _ _ _ h⟩

end PluginAPI

namespace PluginAPI

/-- Witness of `HookedProcessEvent_iterates_snapshots`: before-callback 7 unregisters
`Foo::Bar`, registers 70 for it and registers the global-after observer 90 while the chain
`[7, 17]` is being dispatched; the dispatch still invokes 7 then 17 (and never 70), and the
global-after copy, taken later, contains 90. -/
theorem HookedProcessEvent_iterates_snapshots_witness :
    (HookedProcessEvent sdkAll reentrant (some 99) twoBeforeRegistry fooBar).2.2 = .returned ∧
    invokedAt .pre (HookedProcessEvent sdkAll reentrant (some 99) twoBeforeRegistry fooBar).2.1
      = [Event.invoke .pre 7 fooBar, Event.invoke .pre 17 fooBar] ∧
    invokedAt .globalPost
        (HookedProcessEvent sdkAll reentrant (some 99) twoBeforeRegistry fooBar).2.1
      = [Event.invoke .globalPost 90 fooBar] :=
  ⟨by decide,
   ((HookedProcessEvent_iterates_snapshots sdkAll reentrant (some 99) twoBeforeRegistry
      ⟨1000, some ⟨"Foo"⟩⟩ ⟨2000, "Bar"⟩ 3000).2 (by decide)).2.1.trans (by decide),
   ((HookedProcessEvent_iterates_snapshots sdkAll reentrant (some 99) twoBeforeRegistry
      ⟨1000, some ⟨"Foo"⟩⟩ ⟨2000, "Bar"⟩ 3000).2 (by decide)).2.2.2.trans (by decide)⟩

end PluginAPI

namespace PluginAPI

/-! ## Locking -/

theorem heldAfter_append (held : List Mutex) (a b : List Event) :
    heldAfter held (a ++ b) = (heldAfter held a).bind (fun h => heldAfter h b) := by
  induction a generalizing held with
  | nil => simp [heldAfter]
  | cons e rest ih =>
    cases e <;> simp only [List.cons_append, heldAfter] <;> (try split_ifs) <;>
      first | exact ih _ | rfl

theorem heldAfter_free_append (a b : List Event) (h : heldAfter [] a = some []) :
    heldAfter [] (a ++ b) = heldAfter [] b := by
  rw [heldAfter_append, h]
  rfl

theorem heldAfter_opLocks (ops : List RegistryOp) :
    heldAfter [] (ops.flatMap opLocks) = some [] := by
  induction ops with
  | nil => simp [heldAfter]
  | cons op rest ih =>
    rw [List.flatMap_cons, heldAfter_free_append _ _ (by cases op <;> simp [opLocks, heldAfter]), ih]

theorem heldAfter_debugBefore (site : Site) (m : Bool) (c f : String) :
    heldAfter [] (debugBefore site m c f) = some [] := by
  unfold debugBefore
  split <;> simp [heldAfter]

theorem heldAfter_debugAfter (site : Site) (m : Bool) :
    heldAfter [] (debugAfter site m) = some [] := by
  unfold debugAfter
  split <;> simp [heldAfter]

theorem heldAfter_callOriginal (g : Option Nat) (args : Args) :
    heldAfter [] (callOriginal g args) = some [] := by
  cases g <;> simp [callOriginal, heldAfter]

theorem heldAfter_called (site : Site) (m : Bool) (c f : String) (cb : CallbackId)
    (args : Args) (ops : List RegistryOp) :
    heldAfter [] (debugBefore site m c f ++ [Event.invoke site cb args] ++ ops.flatMap opLocks)
      = some [] := by
  rw [List.append_assoc, heldAfter_free_append _ _ (heldAfter_debugBefore site m c f)]
  simpa [heldAfter] using heldAfter_opLocks ops

/-- A loop of `HookedProcessEvent` starts and ends with no mutex held, and no mutex is held
when it invokes a callback. -/
theorem heldAfter_fireCallbacks (sdk : SDKLookup) (beh : Behaviour) (site : Site) (m : Bool)
    (c f : String) (args : Args) (cbs : List (Option CallbackId)) (s : HookSystem) :
    heldAfter [] (fireCallbacks sdk beh site m c f args cbs s).2.1 = some [] := by
  induction cbs generalizing s with
  | nil => simp [fireCallbacks, heldAfter]
  | cons x rest ih =>
    cases x with
    | none => simpa [fireCallbacks] using ih s
    | some cb =>
      have hc := heldAfter_called site m c f cb args (beh cb args).ops
      cases ho : (beh cb args).outcome with
      | returns =>
        simp only [fireCallbacks, ho]
        rw [List.append_assoc, heldAfter_free_append _ _ hc,
          heldAfter_free_append _ _ (heldAfter_debugAfter site m)]
        exact ih _
      | throwsStd what =>
        simp only [fireCallbacks, ho]
        rw [List.append_assoc, heldAfter_free_append _ _ hc]
        simpa [heldAfter] using ih _
      | throwsOther => simpa only [fireCallbacks, ho] using hc
      | faults => simpa only [fireCallbacks, ho] using hc

end PluginAPI

namespace PluginAPI

theorem heldAfter_free (a b : List Event) (ha : heldAfter [] a = some [])
    (hb : heldAfter [] b = some []) : heldAfter [] (a ++ b) = some [] := by
  rw [heldAfter_free_append a b ha, hb]

theorem heldAfter_found (b : Bool) (msg : String) :
    heldAfter [] (if b = true then [Event.debugString msg] else []) = some [] := by
  cases b <;> simp [heldAfter]

/-- C14: during `HookedProcessEvent` no mutex is held while a callback or the original
implementation executes.  Replaying the whole trace of any dispatch, with any callbacks
and any registry calls made by them, from "no mutex held": every callback invocation and
the call of the original happen with no mutex held, every lock (those of the dispatch's own
lookups and those of the registry calls a callback makes) finds its mutex free, and the
dispatch ends with no mutex held. -/
theorem HookedProcessEvent_holds_no_mutex_across_calls (sdk : SDKLookup) (beh : Behaviour)
    (g : Option Nat) (s : HookSystem) (args : Args) :
    heldAfter [] (HookedProcessEvent sdk beh g s args).2.1 = some [] := by
  obtain ⟨Object, Function, Params⟩ := args
  cases Object with
  | none => exact heldAfter_callOriginal g _
  | some Object =>
    cases Function with
    | none => exact heldAfter_callOriginal g _
    | some Function =>
      simp only [HookedProcessEvent]
      split
      · exact heldAfter_free _ _ (by decide) (heldAfter_fireCallbacks _ _ _ _ _ _ _ _ _)
      · split
        · exact heldAfter_free _ _ (heldAfter_free _ _ (heldAfter_free _ _ (by decide)
            (heldAfter_fireCallbacks _ _ _ _ _ _ _ _ _))
            (heldAfter_free _ _ (by decide) (heldAfter_found _ _)))
            (heldAfter_fireCallbacks _ _ _ _ _ _ _ _ _)
        · split
          · exact heldAfter_free _ _ (heldAfter_free _ _ (heldAfter_free _ _ (heldAfter_free _ _
              (heldAfter_free _ _ (by decide) (heldAfter_fireCallbacks _ _ _ _ _ _ _ _ _))
              (heldAfter_free _ _ (by decide) (heldAfter_found _ _)))
              (heldAfter_fireCallbacks _ _ _ _ _ _ _ _ _))
              (heldAfter_callOriginal _ _))
              (heldAfter_fireCallbacks _ _ _ _ _ _ _ _ _)
          · exact heldAfter_free _ _ (heldAfter_free _ _ (heldAfter_free _ _ (heldAfter_free _ _
              (heldAfter_free _ _ (heldAfter_free _ _ (heldAfter_free _ _ (by decide)
                (heldAfter_fireCallbacks _ _ _ _ _ _ _ _ _))
              (heldAfter_free _ _ (by decide) (heldAfter_found _ _)))
              (heldAfter_fireCallbacks _ _ _ _ _ _ _ _ _))
              (heldAfter_callOriginal _ _))
              (heldAfter_fireCallbacks _ _ _ _ _ _ _ _ _))
              (by decide))
              (heldAfter_fireCallbacks _ _ _ _ _ _ _ _ _)

end PluginAPI

namespace PluginAPI

/-! ## The registry key of `SimpleHookManager` -/

theorem split_at_separator {α : Type} (x : α) (l1 l2 r1 r2 : List α) (h1 : x ∉ l1)
    (h2 : x ∉ l2) (h : l1 ++ x :: x :: r1 = l2 ++ x :: x :: r2) : l1 = l2 ∧ r1 = r2 := by
  induction l1 generalizing l2 with
  | nil =>
    cases l2 with
    | nil => simpa using h
    | cons b l2 =>
      simp only [List.nil_append, List.cons_append, List.cons.injEq] at h
      exact absurd (List.mem_cons.2 (Or.inl h.1)) h2
  | cons a l1 ih =>
    cases l2 with
    | nil =>
      simp only [List.nil_append, List.cons_append, List.cons.injEq] at h
      exact absurd (List.mem_cons.2 (Or.inl h.1.symm)) h1
    | cons b l2 =>
      simp only [List.cons_append, List.cons.injEq] at h
      obtain ⟨hl, hr⟩ := ih l2 (fun hm => h1 (List.mem_cons_of_mem _ hm))
        (fun hm => h2 (List.mem_cons_of_mem _ hm)) h.2
      exact ⟨by rw [h.1, hl], hr⟩

theorem split_at_last_separator {α : Type} (x : α) (l1 l2 r1 r2 : List α) (h1 : x ∉ r1)
    (h2 : x ∉ r2) (h : l1 ++ x :: x :: r1 = l2 ++ x :: x :: r2) : l1 = l2 ∧ r1 = r2 := by
  have hr := congrArg List.reverse h
  simp only [List.reverse_append, List.reverse_cons, List.append_assoc, List.singleton_append]
    at hr
  obtain ⟨a, b⟩ := split_at_separator x r1.reverse r2.reverse l1.reverse l2.reverse
    (by simpa using h1) (by simpa using h2) hr
  exact ⟨List.reverse_injective b, List.reverse_injective a⟩

theorem hookKey_data (c f : String) : (hookKey c f).data = c.data ++ ':' :: ':' :: f.data := by
  simp [hookKey, String.data_append]

theorem hookKey_injective (c1 f1 c2 f2 : String)
    (h : (ColonFree c1 ∧ ColonFree c2) ∨ (ColonFree f1 ∧ ColonFree f2))
    (hk : hookKey c1 f1 = hookKey c2 f2) : c1 = c2 ∧ f1 = f2 := by
  have hd := congrArg String.data hk
  rw [hookKey_data, hookKey_data] at hd
  rcases h with ⟨a, b⟩ | ⟨a, b⟩
  · obtain ⟨x, y⟩ := split_at_separator ':' _ _ _ _ (fun hm => a _ hm rfl)
      (fun hm => b _ hm rfl) hd
    exact ⟨String.ext x, String.ext y⟩
  · obtain ⟨x, y⟩ := split_at_last_separator ':' _ _ _ _ (fun hm => a _ hm rfl)
      (fun hm => b _ hm rfl) hd
    exact ⟨String.ext x, String.ext y⟩

theorem mapFind_map_isSome {K V : Type} [DecidableEq K] (m : List (K × V)) (k : K)
    (g : K × V → K × V) (hg : ∀ p, (g p).1 = p.1) :
    (mapFind (m.map g) k).isSome = (mapFind m k).isSome := by
  induction m with
  | nil => rfl
  | cons e rest ih =>
    obtain ⟨k1, v1⟩ := e
    have h1 := hg (k1, v1)
    rw [List.map_cons]
    rcases hp : g (k1, v1) with ⟨k2, v2⟩
    rw [hp] at h1
    simp only at h1
    subst h1
    by_cases h : k2 = k
    · simp [mapFind, h]
    · simpa [mapFind, h] using ih

end PluginAPI

namespace PluginAPI

/-- C15, counterexample: the identities `("A::B", "C")` and `("A", "B::C")` differ but get
the same registry key `"A::B::C"`.  Once `RegisterHook("A::B", "C", cb1)` has succeeded,
`RegisterHook("A", "B::C", cb2)` finds that key, is rejected as already registered and
changes nothing, and `UnregisterHook("A", "B::C")` returns true and removes the entry of
`("A::B", "C")`. -/
theorem hookKey_collides_on_scoped_names :
    hookKey "A::B" "C" = hookKey "A" "B::C" ∧ "A::B" ≠ "A" ∧
    (SimpleHookManager.RegisterHook nativeOk SimpleHookState.initial (some "A::B") (some "C")
      (some 1)).2 = true ∧
    scopedHooked.g_Hooks.map (fun e => (e.ClassName, e.FunctionName)) = [("A::B", "C")] ∧
    (mapFind scopedHooked.g_HookMap (hookKey "A" "B::C")).isSome = true ∧
    SimpleHookManager.RegisterHook nativeOk scopedHooked (some "A") (some "B::C") (some 2)
      = (scopedHooked, false) ∧
    (SimpleHookManager.UnregisterHook scopedHooked (some "A") (some "B::C")).2 = true ∧
    (SimpleHookManager.UnregisterHook scopedHooked (some "A") (some "B::C")).1.g_Hooks = [] ∧
    (SimpleHookManager.UnregisterHook scopedHooked (some "A") (some "B::C")).1.g_HookMap = [] := by
  decide

/-- C15, amended: when the two class names contain no colon, or the two function names
contain no colon, the registry keys of `SimpleHookManager` are equal exactly when the
identities are equal; and then, for two different identities, neither `RegisterHook` nor
`UnregisterHook` of the first changes whether the key of the second is in the registry, so
the first is never rejected as already registered, nor removed, on behalf of the second. -/
theorem SimpleHookManager_key_identity (env : NativeEnv) (st : SimpleHookState)
    (c1 f1 c2 f2 : String) (cb : Option CallbackId)
    (h : (ColonFree c1 ∧ ColonFree c2) ∨ (ColonFree f1 ∧ ColonFree f2)) :
    (hookKey c1 f1 = hookKey c2 f2 ↔ c1 = c2 ∧ f1 = f2) ∧
    ((c1 ≠ c2 ∨ f1 ≠ f2) →
      (mapFind (SimpleHookManager.RegisterHook env st (some c1) (some f1) cb).1.g_HookMap
          (hookKey c2 f2)).isSome = (mapFind st.g_HookMap (hookKey c2 f2)).isSome ∧
      (mapFind (SimpleHookManager.UnregisterHook st (some c1) (some f1)).1.g_HookMap
          (hookKey c2 f2)).isSome = (mapFind st.g_HookMap (hookKey c2 f2)).isSome) := by
  have inj := hookKey_injective c1 f1 c2 f2 h
  refine ⟨⟨inj, fun e => by rw [e.1, e.2]⟩, fun hne => ?_⟩
  have hk : hookKey c1 f1 ≠ hookKey c2 f2 := fun e => by
    obtain ⟨a, b⟩ := inj e
    rcases hne with n | n
    · exact n a
    · exact n b
  constructor
  · cases cb with
    | none => rfl
    | some cb =>
      simp only [SimpleHookManager.RegisterHook]
      split_ifs <;> (try rfl)
      all_goals (repeat' split) <;>
        first | rfl | simp only [mapFind_mapSubscript_ne _ _ _ _ _ hk]
  · simp only [SimpleHookManager.UnregisterHook]
    split
    · rfl
    · split
      · rfl
      · simp only
        rw [mapFind_map_isSome _ _ _ (fun p => by split_ifs <;> rfl),
          mapFind_mapErase_ne _ _ _ hk]

end PluginAPI

namespace PluginAPI

/-- Witness of `SimpleHookManager_key_identity`: with `Foo::Bar` registered, the keys of
`("Foo", "Baz")` and `("Foo", "Bar")` differ, and unregistering `Foo::Baz` leaves the key
of `Foo::Bar` in the registry. -/
theorem SimpleHookManager_key_identity_witness :
    hookKey "Foo" "Baz" ≠ hookKey "Foo" "Bar" ∧
    (mapFind (SimpleHookManager.UnregisterHook fooBarHooked (some "Foo") (some "Baz")).1.g_HookMap
      (hookKey "Foo" "Bar")).isSome = true :=
  ⟨fun e => absurd ((SimpleHookManager_key_identity nativeOk fooBarHooked "Foo" "Baz" "Foo"
      "Bar" (some 2) (Or.inl ⟨by unfold ColonFree; decide, by unfold ColonFree; decide⟩)).1.1
      e).2 (by decide),
   ((SimpleHookManager_key_identity nativeOk fooBarHooked "Foo" "Baz" "Foo" "Bar" (some 2)
      (Or.inl ⟨by unfold ColonFree; decide, by unfold ColonFree; decide⟩)).2
      (Or.inr (by decide))).2.trans (by decide)⟩

end PluginAPI

namespace d3d12hook

/-! ## First-frame initialisation that fails -/

/-- C16: a first-frame initialisation that fails at the fence (or at the fence event) does
not undo the UI toolkit or the input hook.  With the queue captured and every earlier step
succeeding, `CreateFence` fails in `hookPresentD3D12`: the call leaves `gInitialized` false
and has released the heaps and the slots, but its toolkit calls are the five of the set-up
only, with no `ImGui_ImplDX12_Shutdown`, `ImGui_ImplWin32_Shutdown`,
`ImGui_DestroyContext` or `inputhook::Remove`; the same holds for `hookPresent1D3D12` when
`CreateEvent` fails; and the next presentation call creates the context and installs the
input hook a second time.  (`hookResizeBuffersD3D12` does undo them.) -/
theorem firstFrameInit_failure_keeps_toolkit_and_input_hook :
    (hookPresentD3D12 { envOk with CreateFence := none } queueCaptured 1 0 0).state.gInitialized
      = false ∧
    (hookPresentD3D12 { envOk with CreateFence := none } queueCaptured 1 0 0).state.gHeapSRV
      = none ∧
    toolkitCalls (hookPresentD3D12 { envOk with CreateFence := none } queueCaptured 1 0 0).trace
      = [.ImGui_CreateContext, .ImGui_StyleColorsDark, .ImGui_ImplWin32_Init 900,
         .ImGui_ImplDX12_Init (some 100) 2 28 (some 202), .inputhook_Init 900] ∧
    toolkitCalls
        (hookPresent1D3D12 { envOk with CreateEvent := none } queueCaptured 1 0 0 0).trace
      = [.ImGui_CreateContext, .ImGui_StyleColorsDark, .ImGui_ImplWin32_Init 900,
         .ImGui_ImplDX12_Init (some 100) 2 28 (some 202), .inputhook_Init 900] ∧
    (toolkitCalls (hookPresentD3D12 envOk
        (hookPresentD3D12 { envOk with CreateFence := none } queueCaptured 1 0 0).state
        1 0 0).trace).take 5
      = [.ImGui_CreateContext, .ImGui_StyleColorsDark, .ImGui_ImplWin32_Init 900,
         .ImGui_ImplDX12_Init (some 100) 2 28 (some 202), .inputhook_Init 900] ∧
    toolkitCalls (hookResizeBuffersD3D12 envOk steady 1 2 0 0 0 0).trace
      = [.ImGui_ImplDX12_Shutdown, .ImGui_ImplWin32_Shutdown, .ImGui_DestroyContext,
         .inputhook_Remove (some 900)] := by
  decide

end d3d12hook

namespace d3d12hook

/-! ## The render path in steady state -/

@[simp] theorem renderCalls_nil : renderCalls [] = [] := rfl

@[simp] theorem renderCalls_append (a b : List Event) :
    renderCalls (a ++ b) = renderCalls a ++ renderCalls b := by
  simp [renderCalls]

@[simp] theorem toolkitCalls_nil : toolkitCalls [] = [] := rfl

@[simp] theorem toolkitCalls_append (a b : List Event) :
    toolkitCalls (a ++ b) = toolkitCalls a ++ toolkitCalls b := by
  simp [toolkitCalls]

@[simp] theorem deviceCalls_nil : deviceCalls [] = [] := rfl

@[simp] theorem deviceCalls_append (a b : List Event) :
    deviceCalls (a ++ b) = deviceCalls a ++ deviceCalls b := by
  simp [deviceCalls]

@[simp] theorem submissions_nil : submissions [] = [] := rfl

@[simp] theorem submissions_append (a b : List Event) :
    submissions (a ++ b) = submissions a ++ submissions b := by
  simp [submissions]

/-! ### The observers on a trace, event by event -/

@[simp] theorem renderCalls_DebugLog (m : String) (t : List Event) :
    renderCalls (Event.DebugLog m :: t) = renderCalls t := rfl

@[simp] theorem renderCalls_original (c : OriginalCall) (t : List Event) :
    renderCalls (Event.original c :: t) = renderCalls t := rfl

@[simp] theorem renderCalls_toolkit (c : ToolkitCall) (t : List Event) :
    renderCalls (Event.toolkit c :: t) = renderCalls t := rfl

@[simp] theorem renderCalls_device (c : DeviceCall) (t : List Event) :
    renderCalls (Event.device c :: t) = renderCalls t := rfl

@[simp] theorem renderCalls_Release (h : Handle) (t : List Event) :
    renderCalls (Event.Release h :: t) = renderCalls t := rfl

@[simp] theorem renderCalls_AddRef (h : Handle) (t : List Event) :
    renderCalls (Event.AddRef h :: t) = renderCalls t := rfl

@[simp] theorem renderCalls_CloseHandle (h : Handle) (t : List Event) :
    renderCalls (Event.CloseHandle h :: t) = renderCalls t := rfl

@[simp] theorem renderCalls_deleteFrameContexts  (t : List Event) :
    renderCalls (Event.deleteFrameContexts :: t) = renderCalls t := rfl

@[simp] theorem renderCalls_newFrameContexts (n : Nat) (t : List Event) :
    renderCalls (Event.newFrameContexts n :: t) = renderCalls t := rfl

@[simp] theorem renderCalls_hooks_Remove  (t : List Event) :
    renderCalls (Event.hooks_Remove :: t) = renderCalls t := rfl

@[simp] theorem toolkitCalls_DebugLog (m : String) (t : List Event) :
    toolkitCalls (Event.DebugLog m :: t) = toolkitCalls t := rfl

@[simp] theorem toolkitCalls_original (c : OriginalCall) (t : List Event) :
    toolkitCalls (Event.original c :: t) = toolkitCalls t := rfl

@[simp] theorem toolkitCalls_toolkit (c : ToolkitCall) (t : List Event) :
    toolkitCalls (Event.toolkit c :: t) = c :: toolkitCalls t := rfl

@[simp] theorem toolkitCalls_device (c : DeviceCall) (t : List Event) :
    toolkitCalls (Event.device c :: t) = toolkitCalls t := rfl

@[simp] theorem toolkitCalls_render (c : RenderCall) (t : List Event) :
    toolkitCalls (Event.render c :: t) = toolkitCalls t := rfl

@[simp] theorem toolkitCalls_Release (h : Handle) (t : List Event) :
    toolkitCalls (Event.Release h :: t) = toolkitCalls t := rfl

@[simp] theorem toolkitCalls_AddRef (h : Handle) (t : List Event) :
    toolkitCalls (Event.AddRef h :: t) = toolkitCalls t := rfl

@[simp] theorem toolkitCalls_CloseHandle (h : Handle) (t : List Event) :
    toolkitCalls (Event.CloseHandle h :: t) = toolkitCalls t := rfl

@[simp] theorem toolkitCalls_deleteFrameContexts  (t : List Event) :
    toolkitCalls (Event.deleteFrameContexts :: t) = toolkitCalls t := rfl

@[simp] theorem toolkitCalls_newFrameContexts (n : Nat) (t : List Event) :
    toolkitCalls (Event.newFrameContexts n :: t) = toolkitCalls t := rfl

@[simp] theorem toolkitCalls_hooks_Remove  (t : List Event) :
    toolkitCalls (Event.hooks_Remove :: t) = toolkitCalls t := rfl

@[simp] theorem deviceCalls_DebugLog (m : String) (t : List Event) :
    deviceCalls (Event.DebugLog m :: t) = deviceCalls t := rfl

@[simp] theorem deviceCalls_original (c : OriginalCall) (t : List Event) :
    deviceCalls (Event.original c :: t) = deviceCalls t := rfl

@[simp] theorem deviceCalls_toolkit (c : ToolkitCall) (t : List Event) :
    deviceCalls (Event.toolkit c :: t) = deviceCalls t := rfl

@[simp] theorem deviceCalls_device (c : DeviceCall) (t : List Event) :
    deviceCalls (Event.device c :: t) = c :: deviceCalls t := rfl

@[simp] theorem deviceCalls_render (c : RenderCall) (t : List Event) :
    deviceCalls (Event.render c :: t) = deviceCalls t := rfl

@[simp] theorem deviceCalls_Release (h : Handle) (t : List Event) :
    deviceCalls (Event.Release h :: t) = deviceCalls t := rfl

@[simp] theorem deviceCalls_AddRef (h : Handle) (t : List Event) :
    deviceCalls (Event.AddRef h :: t) = deviceCalls t := rfl

@[simp] theorem deviceCalls_CloseHandle (h : Handle) (t : List Event) :
    deviceCalls (Event.CloseHandle h :: t) = deviceCalls t := rfl

@[simp] theorem deviceCalls_deleteFrameContexts  (t : List Event) :
    deviceCalls (Event.deleteFrameContexts :: t) = deviceCalls t := rfl

@[simp] theorem deviceCalls_newFrameContexts (n : Nat) (t : List Event) :
    deviceCalls (Event.newFrameContexts n :: t) = deviceCalls t := rfl

@[simp] theorem deviceCalls_hooks_Remove  (t : List Event) :
    deviceCalls (Event.hooks_Remove :: t) = deviceCalls t := rfl

@[simp] theorem submissions_DebugLog (m : String) (t : List Event) :
    submissions (Event.DebugLog m :: t) = submissions t := rfl

@[simp] theorem submissions_toolkit (c : ToolkitCall) (t : List Event) :
    submissions (Event.toolkit c :: t) = submissions t := rfl

@[simp] theorem submissions_device (c : DeviceCall) (t : List Event) :
    submissions (Event.device c :: t) = submissions t := rfl

@[simp] theorem submissions_render (c : RenderCall) (t : List Event) :
    submissions (Event.render c :: t) = submissions t := rfl

@[simp] theorem submissions_Release (h : Handle) (t : List Event) :
    submissions (Event.Release h :: t) = submissions t := rfl

@[simp] theorem submissions_AddRef (h : Handle) (t : List Event) :
    submissions (Event.AddRef h :: t) = submissions t := rfl

@[simp] theorem submissions_CloseHandle (h : Handle) (t : List Event) :
    submissions (Event.CloseHandle h :: t) = submissions t := rfl

@[simp] theorem submissions_deleteFrameContexts  (t : List Event) :
    submissions (Event.deleteFrameContexts :: t) = submissions t := rfl

@[simp] theorem submissions_newFrameContexts (n : Nat) (t : List Event) :
    submissions (Event.newFrameContexts n :: t) = submissions t := rfl

@[simp] theorem submissions_hooks_Remove  (t : List Event) :
    submissions (Event.hooks_Remove :: t) = submissions t := rfl

theorem onlyLogs_observed (t : List Event) (h : onlyLogs t) :
    renderCalls t = [] ∧ toolkitCalls t = [] ∧ deviceCalls t = [] ∧ submissions t = [] ∧
      noPresent t := by
  induction t with
  | nil => exact ⟨rfl, rfl, rfl, rfl, rfl⟩
  | cons e rest ih =>
    obtain ⟨m, rfl⟩ := h e (List.mem_cons_self _ _)
    obtain ⟨a, b, c, d, n⟩ := ih (fun x hx => h x (List.mem_cons_of_mem _ hx))
    refine ⟨?_, ?_, ?_, ?_, ?_⟩
    · simpa [renderCalls] using a
    · simpa [toolkitCalls] using b
    · simpa [deviceCalls] using c
    · simpa [submissions] using d
    · simpa [isPresentCall] using n

/-- Both hooks are their shared body run after a prologue that only logs and only changes
the menu and hot-key flags. -/
theorem hookPresent_prologue (env : Env) (s : State) (call : PresentCall) :
    ∃ s0 t0, hookPresent env s call = presentBody env call s0 t0 ∧ session s0 = session s ∧
      onlyLogs t0 := by
  cases call with
  | Present sc si fl =>
    refine ⟨_, _, rfl, ?_, ?_⟩
    · simp only [session]
      split_ifs <;> rfl
    · intro e he
      split_ifs at he <;> simp at he <;> aesop
  | Present1 sc si fl pp =>
    refine ⟨_, _, rfl, ?_, ?_⟩
    · simp only [session]
      split_ifs <;> rfl
    · intro e he
      split_ifs at he <;> simp at he
      exact ⟨_, he⟩

end d3d12hook

namespace d3d12hook

theorem Steady_of_session {a b : State} (h : session a = session b) (hb : Steady b) :
    Steady a := by
  simp only [session, Prod.mk.injEq] at h
  obtain ⟨-, hq, -, -, -, hf, he, -, -, -, hi, hsd⟩ := h
  unfold Steady at hb ⊢
  rw [hq, hf, he, hi, hsd]
  exact hb

/-- In steady state the shared body goes straight to the render block. -/
theorem presentBody_steady (env : Env) (call : PresentCall) (s : State) (t : List Event)
    (hs : Steady s) :
    presentBody env call s t =
      (renderFrame env call { s with gAfterFirstPresent := true } t).result env call := by
  obtain ⟨hq, hi, hsd, -, -⟩ := hs
  obtain ⟨q, hq⟩ := Option.isSome_iff_exists.1 hq
  simp only [presentBody, hq, hi, hsd, Bool.not_true, Bool.not_false, if_true, if_false,
    Bool.false_eq_true]
  cases renderFrame env call { s with gAfterFirstPresent := true } t <;> rfl

theorem fenceWait_calls (env : Env) (s : State) :
    ∀ c ∈ renderCalls (fenceWait env s).2, isWaitCall c = true := by
  unfold fenceWait
  split
  · split_ifs
    · split <;> simp [renderCalls, isWaitCall]
    · simp [renderCalls, isWaitCall]
    · simp [renderCalls, isWaitCall]
  · simp

theorem fenceWait_observed (env : Env) (s : State) :
    toolkitCalls (fenceWait env s).2 = [] ∧ deviceCalls (fenceWait env s).2 = [] ∧
      submissions (fenceWait env s).2 = [] ∧ noPresent (fenceWait env s).2 := by
  unfold fenceWait
  split
  · split_ifs
    · split <;> simp [toolkitCalls, deviceCalls, submissions, isPresentCall]
    · simp [toolkitCalls, deviceCalls, submissions, isPresentCall]
    · simp [toolkitCalls, deviceCalls, submissions, isPresentCall]
  · simp

/-- The wait policy answers "do not render" exactly when the fence is behind the last
signaled value and the wait for it was not armed or did not succeed. -/
theorem fenceWait_false_iff (env : Env) (s : State) (hf : s.gOverlayFence.isSome = true)
    (he : s.gFenceEvent.isSome = true) :
    (fenceWait env s).1 = false ↔
      env.GetCompletedValue < s.gOverlayFenceValue ∧
        (env.SetEventOnCompletion = false ∨ env.WaitForSingleObject ≠ .WAIT_OBJECT_0) := by
  obtain ⟨f, hf⟩ := Option.isSome_iff_exists.1 hf
  obtain ⟨ev, he⟩ := Option.isSome_iff_exists.1 he
  unfold fenceWait
  simp only [hf, he]
  by_cases hlt : env.GetCompletedValue < s.gOverlayFenceValue
  · cases hset : env.SetEventOnCompletion
    · simp [hlt]
    · cases hw : env.WaitForSingleObject <;> simp [hlt]
  · simp [hlt]

end d3d12hook

namespace d3d12hook

end d3d12hook

namespace d3d12hook

end d3d12hook

namespace d3d12hook

theorem returnOriginal_observed (env : Env) (call : PresentCall) (s : State) (t : List Event) :
    (returnOriginal env call s t).state = s ∧
    renderCalls (returnOriginal env call s t).trace = renderCalls t ∧
    toolkitCalls (returnOriginal env call s t).trace = toolkitCalls t ∧
    deviceCalls (returnOriginal env call s t).trace = deviceCalls t ∧
    submissions (returnOriginal env call s t).trace = submissions t := by
  cases call <;> simp [returnOriginal, renderCalls, toolkitCalls, deviceCalls, submissions]

end d3d12hook

namespace d3d12hook

theorem fenceWait_congr (env : Env) {a b : State} (h : session a = session b) :
    fenceWait env a = fenceWait env b := by
  simp only [session, Prod.mk.injEq] at h
  obtain ⟨-, -, -, -, -, hf, he, hv, -⟩ := h
  unfold fenceWait
  rw [hf, he, hv]

end d3d12hook

namespace d3d12hook

/-! ## A session that is shut down renders nothing -/

end d3d12hook

namespace d3d12hook

end d3d12hook

namespace d3d12hook

/-! ## Runs of hooked calls -/

end d3d12hook

namespace d3d12hook

end d3d12hook

namespace d3d12hook

end d3d12hook

namespace d3d12hook

/-! ## A frame whose fence wait fails, and the frame after it -/

theorem renderFrame_skip (env : Env) (call : PresentCall) (s : State) (t : List Event)
    (h : (fenceWait env s).1 = false) :
    renderFrame env call s t = .returned (returnOriginal env call s
      (t ++ [.toolkit .ImGui_ImplDX12_NewFrame, .toolkit .ImGui_ImplWin32_NewFrame,
             .toolkit .ImGui_NewFrame, .toolkit .menu_Init,
             .device .GetCurrentBackBufferIndex]
        ++ (fenceWait env s).2
        ++ [.DebugLog "[d3d12hook] Skipping ImGui render for this frame\n",
            .toolkit .ImGui_EndFrame])) := by
  unfold renderFrame
  simp only [h]

theorem mem_returnOriginal (env : Env) (call : PresentCall) (s : State) (t : List Event)
    (e : Event) (h : e ∈ t) : e ∈ (returnOriginal env call s t).trace := by
  cases call <;> simp [returnOriginal, h]

theorem submitAndSignal_mem (env : Env) (s : State) (t : List Event) (hs : Steady s) :
    ∃ q f, ∀ e, (e ∈ t ∨ e = .original (.ExecuteCommandLists q 1 s.gCommandList) ∨
        e = .render (.Signal f ((s.gOverlayFenceValue + 1) % 2 ^ 64))) →
      e ∈ (submitAndSignal env s t).2 := by
  obtain ⟨q, hq⟩ := Option.isSome_iff_exists.1 hs.1
  obtain ⟨f, hf⟩ := Option.isSome_iff_exists.1 hs.2.2.2.1
  refine ⟨q, f, fun e he => ?_⟩
  unfold submitAndSignal
  simp only [hq, hf]
  split_ifs <;> (try split) <;>
    simp only [List.mem_append, List.mem_singleton] <;> tauto

/-- A pass through the render block that is allowed to render and whose resets succeed
resets the slot's allocator, records the overlay, submits the command list and signals the
fence with the successor of the last signaled value. -/
theorem renderFrame_renders (env : Env) (call : PresentCall) (s : State) (t : List Event)
    (hs : Steady s) (hcan : (fenceWait env s).1 = true) (hreset : env.allocatorReset = true)
    (hlist : env.commandListReset = true)
    (hcl : s.gCommandList.isSome = true ∨ env.CreateCommandList.isSome = true) :
    ∃ q l f,
      Event.render (.allocatorReset (slotAllocator env s))
        ∈ ((renderFrame env call s t).result env call).trace ∧
      Event.toolkit .ImGui_Render ∈ ((renderFrame env call s t).result env call).trace ∧
      Event.original (.ExecuteCommandLists q 1 l)
        ∈ ((renderFrame env call s t).result env call).trace ∧
      Event.render (.Signal f ((s.gOverlayFenceValue + 1) % 2 ^ 64))
        ∈ ((renderFrame env call s t).result env call).trace := by
  unfold renderFrame
  simp only [hcan, hreset, hlist, Bool.not_true, Bool.false_eq_true, if_false]
  cases hl : s.gCommandList with
  | none =>
    simp only [hl, Option.isSome_none, Bool.false_eq_true, false_or] at hcl
    obtain ⟨list, hc⟩ := Option.isSome_iff_exists.1 hcl
    simp only [hc, Flow.result]
    obtain ⟨q, f, hm⟩ := submitAndSignal_mem env { s with gCommandList := some list } _ hs
    exact ⟨q, _, f, mem_returnOriginal _ _ _ _ _ (hm _ (Or.inl (by simp [slotAllocator]))),
      mem_returnOriginal _ _ _ _ _ (hm _ (Or.inl (by simp [recordCommands]))),
      mem_returnOriginal _ _ _ _ _ (hm _ (Or.inr (Or.inl rfl))),
      mem_returnOriginal _ _ _ _ _ (hm _ (Or.inr (Or.inr rfl)))⟩
  | some list =>
    simp only [Flow.result]
    obtain ⟨q, f, hm⟩ := submitAndSignal_mem env s _ hs
    exact ⟨q, _, f, mem_returnOriginal _ _ _ _ _ (hm _ (Or.inl (by simp [slotAllocator]))),
      mem_returnOriginal _ _ _ _ _ (hm _ (Or.inl (by simp [recordCommands]))),
      mem_returnOriginal _ _ _ _ _ (hm _ (Or.inr (Or.inl rfl))),
      mem_returnOriginal _ _ _ _ _ (hm _ (Or.inr (Or.inr rfl)))⟩

end d3d12hook

namespace d3d12hook

theorem session_fields {a b : State} (h : session a = session b) :
    a.gCommandList = b.gCommandList ∧ a.gOverlayFenceValue = b.gOverlayFenceValue ∧
      a.gFrameContexts = b.gFrameContexts := by
  simp only [session, Prod.mk.injEq] at h
  exact ⟨h.2.2.2.2.1, h.2.2.2.2.2.2.2.1, h.2.2.2.2.2.2.2.2.2.1⟩

/-- A presentation call from a steady session whose wait policy says "do not render": the
prologue, the start of the UI frame, the wait, the end of the UI frame, and the original. -/
theorem hookPresent_skip (env : Env) (s : State) (call : PresentCall) (hs : Steady s)
    (hw : (fenceWait env s).1 = false) :
    ∃ s0 t0, session s0 = session s ∧ onlyLogs t0 ∧
      hookPresent env s call = returnOriginal env call s0
        (t0 ++ [.toolkit .ImGui_ImplDX12_NewFrame, .toolkit .ImGui_ImplWin32_NewFrame,
               .toolkit .ImGui_NewFrame, .toolkit .menu_Init,
               .device .GetCurrentBackBufferIndex]
          ++ (fenceWait env s).2
          ++ [.DebugLog "[d3d12hook] Skipping ImGui render for this frame\n",
              .toolkit .ImGui_EndFrame]) := by
  obtain ⟨s0, t0, heq, hsess, hlogs⟩ := hookPresent_prologue env s call
  have hsess2 : session { s0 with gAfterFirstPresent := true } = session s := hsess
  refine ⟨{ s0 with gAfterFirstPresent := true }, t0, hsess2, hlogs, ?_⟩
  rw [heq, presentBody_steady env call s0 t0 (Steady_of_session hsess hs),
    renderFrame_skip env call _ t0 (by rw [fenceWait_congr env hsess2]; exact hw),
    fenceWait_congr env hsess2]
  rfl

/-- A presentation call from a steady session that is allowed to render and whose resets
succeed renders a frame. -/
theorem hookPresent_renders (env : Env) (s : State) (call : PresentCall) (hs : Steady s)
    (hcan : (fenceWait env s).1 = true) (hreset : env.allocatorReset = true)
    (hlist : env.commandListReset = true)
    (hcl : s.gCommandList.isSome = true ∨ env.CreateCommandList.isSome = true) :
    ∃ q l f,
      Event.render (.allocatorReset (slotAllocator env s)) ∈ (hookPresent env s call).trace ∧
      Event.toolkit .ImGui_Render ∈ (hookPresent env s call).trace ∧
      Event.original (.ExecuteCommandLists q 1 l) ∈ (hookPresent env s call).trace ∧
      Event.render (.Signal f ((s.gOverlayFenceValue + 1) % 2 ^ 64))
        ∈ (hookPresent env s call).trace := by
  obtain ⟨s0, t0, heq, hsess, hlogs⟩ := hookPresent_prologue env s call
  have hsess2 : session { s0 with gAfterFirstPresent := true } = session s := hsess
  obtain ⟨hl, hv, hctx⟩ := session_fields hsess2
  have ha : slotAllocator env { s0 with gAfterFirstPresent := true } = slotAllocator env s := by
    unfold slotAllocator
    rw [hctx]
  rw [heq, presentBody_steady env call s0 t0 (Steady_of_session hsess hs), ← ha, ← hv]
  exact renderFrame_renders env call _ t0 (Steady_of_session hsess2 hs)
    (by rw [fenceWait_congr env hsess2]; exact hcan) hreset hlist (by rw [hl]; exact hcl)

end d3d12hook

namespace d3d12hook

/-- C17: in steady state, when the fence is behind the last signaled value and the bounded
wait is not armed (`SetEventOnCompletion` fails) or does not succeed (`WaitForSingleObject`
answers anything but `WAIT_OBJECT_0`), either presentation hook leaves the whole session
unchanged (so `gOverlayFenceValue`, `gInitialized` true and `gShutdown` false), makes only
the calls of the wait policy on the fence (no allocator or command-list reset, no
recording, no signal), submits nothing, creates no command list, opens and ends the UI
frame without rendering it, and forwards once to the original presentation call, returning
its value; and a later presentation call from the state it left, in which the fence has
completed and the resets succeed, resets the slot's allocator, renders, submits and signals
the successor of the last signaled value. -/
theorem hookPresent_wait_failure_skips_frame (env env2 : Env) (s : State)
    (call call2 : PresentCall) (hs : Steady s)
    (hlt : env.GetCompletedValue < s.gOverlayFenceValue)
    (hfail : env.SetEventOnCompletion = false ∨ env.WaitForSingleObject ≠ .WAIT_OBJECT_0)
    (hdone : s.gOverlayFenceValue ≤ env2.GetCompletedValue)
    (hreset : env2.allocatorReset = true) (hlist : env2.commandListReset = true)
    (hcl : s.gCommandList.isSome = true ∨ env2.CreateCommandList.isSome = true) :
    (session (hookPresent env s call).state = session s ∧
      (∀ c ∈ renderCalls (hookPresent env s call).trace, isWaitCall c = true) ∧
      submissions (hookPresent env s call).trace = [] ∧
      deviceCalls (hookPresent env s call).trace = [.GetCurrentBackBufferIndex] ∧
      toolkitCalls (hookPresent env s call).trace
        = [.ImGui_ImplDX12_NewFrame, .ImGui_ImplWin32_NewFrame, .ImGui_NewFrame, .menu_Init,
           .ImGui_EndFrame] ∧
      (hookPresent env s call).trace.filter isPresentCall = [call.event] ∧
      (hookPresent env s call).ret = call.result env) ∧
    ∃ q l f,
      Event.render (.allocatorReset (slotAllocator env2 s))
        ∈ (hookPresent env2 (hookPresent env s call).state call2).trace ∧
      Event.toolkit .ImGui_Render
        ∈ (hookPresent env2 (hookPresent env s call).state call2).trace ∧
      Event.original (.ExecuteCommandLists q 1 l)
        ∈ (hookPresent env2 (hookPresent env s call).state call2).trace ∧
      Event.render (.Signal f ((s.gOverlayFenceValue + 1) % 2 ^ 64))
        ∈ (hookPresent env2 (hookPresent env s call).state call2).trace := by
  have hw : (fenceWait env s).1 = false :=
    (fenceWait_false_iff env s hs.2.2.2.1 hs.2.2.2.2).2 ⟨hlt, hfail⟩
  obtain ⟨s0, t0, hsess, hlogs, heq⟩ := hookPresent_skip env s call hs hw
  obtain ⟨hr, ht, hd, hsub, -⟩ := onlyLogs_observed t0 hlogs
  obtain ⟨wt, wd, wsub, -⟩ := fenceWait_observed env s
  have hfwd : (hookPresent env s call).trace.filter isPresentCall = [call.event] ∧
      (hookPresent env s call).ret = call.result env := by
    cases call with
    | Present sc si fl => exact (forwarded_hookPresentD3D12 env s sc si fl).spec.2
    | Present1 sc si fl pp => exact (forwarded_hookPresent1D3D12 env s sc si fl pp).spec.2
  have hstate : (hookPresent env s call).state = s0 := by
    rw [heq]
    exact (returnOriginal_observed env call s0 _).1
  refine ⟨⟨by rw [hstate]; exact hsess, ?_, ?_, ?_, ?_, hfwd.1, hfwd.2⟩, ?_⟩
  · intro c hc
    rw [heq] at hc
    simp only [returnOriginal_observed, renderCalls_append, hr, List.nil_append,
      renderCalls_toolkit, renderCalls_device, renderCalls_DebugLog, renderCalls_nil,
      List.append_nil] at hc
    exact fenceWait_calls env s c hc
  · rw [heq]
    simp [returnOriginal_observed, hsub, wsub]
  · rw [heq]
    simp [returnOriginal_observed, hd, wd]
  · rw [heq]
    simp [returnOriginal_observed, ht, wt]
  · rw [hstate]
    obtain ⟨hl, hv, hctx⟩ := session_fields hsess
    have hs0 := Steady_of_session hsess hs
    have hcan : (fenceWait env2 s0).1 = true := by
      cases h : (fenceWait env2 s0).1 with
      | true => rfl
      | false =>
        have := ((fenceWait_false_iff env2 s0 hs0.2.2.2.1 hs0.2.2.2.2).1 h).1
        omega
    have ha : slotAllocator env2 s0 = slotAllocator env2 s := by
      unfold slotAllocator
      rw [hctx]
    rw [← ha, ← hv]
    exact hookPresent_renders env2 s0 call2 hs0 hcan hreset hlist (by rw [hl]; exact hcl)

/-- Witness of `hookPresent_wait_failure_skips_frame`: in the steady example session the
wait times out during a call of `hookPresentD3D12`, which leaves the last signaled value at
1; a following call of `hookPresent1D3D12` with the fence completed signals 2. -/
theorem hookPresent_wait_failure_skips_frame_witness :
    (hookPresent { envOk with WaitForSingleObject := .WAIT_TIMEOUT } steady
      (.Present 1 0 0)).state.gOverlayFenceValue = 1 ∧
    Event.render (.Signal 600 2)
      ∈ (hookPresent { envOk with GetCompletedValue := 1 }
          (hookPresent { envOk with WaitForSingleObject := .WAIT_TIMEOUT } steady
            (.Present 1 0 0)).state (.Present1 1 0 0 0)).trace :=
  ⟨(congrArg (fun x => x.2.2.2.2.2.2.2.1)
      (hookPresent_wait_failure_skips_frame { envOk with WaitForSingleObject := .WAIT_TIMEOUT }
        { envOk with GetCompletedValue := 1 } steady (.Present 1 0 0) (.Present1 1 0 0 0)
        (by unfold Steady; decide) (by decide) (Or.inr (by decide)) (by decide) rfl rfl
        (Or.inl (by decide))).1.1).trans (by decide),
   by decide⟩

end d3d12hook

namespace d3d12hook

/-! ## The last signaled value -/

/-- C19: `gOverlayFenceValue` is incremented although the fence signal failed, and an early
return changes it.  In the steady example session (last signaled value 1) a presentation
call renders and submits, `Signal` fails and the device is not lost: the call passed the
incremented value 2 to `Signal` and leaves `gOverlayFenceValue` at 2, in `hookPresentD3D12`
and in `hookPresent1D3D12`.  And after a resize, which keeps the value 1, a presentation
call whose first-frame initialisation fails returns early with `gOverlayFenceValue` reset
to 0. -/
theorem failed_Signal_still_increments_gOverlayFenceValue :
    steady.gOverlayFenceValue = 1 ∧
    (hookPresentD3D12 { envOk with Signal := false } steady 1 0 0).state.gOverlayFenceValue
      = 2 ∧
    (renderCalls (hookPresentD3D12 { envOk with Signal := false } steady 1 0 0).trace).getLast?
      = some (.Signal 600 2) ∧
    (hookPresentD3D12 { envOk with Signal := false } steady 1 0 0).state.gShutdown = false ∧
    (hookPresent1D3D12 { envOk with Signal := false } steady 1 0 0 0).state.gOverlayFenceValue
      = 2 ∧
    (hookResizeBuffersD3D12 envOk steady 1 2 0 0 0 0).state.gOverlayFenceValue = 1 ∧
    (hookPresentD3D12 { envOk with CreateDescriptorHeapRTV := none }
      (hookResizeBuffersD3D12 envOk steady 1 2 0 0 0 0).state 1 0 0).state.gOverlayFenceValue
      = 0 := by
  decide

end d3d12hook

namespace d3d12hook

/-! ## `hookResizeBuffersD3D12` -/

@[simp] theorem releases_append (a b : List Event) :
    releases (a ++ b) = releases a ++ releases b := by
  simp [releases]

@[simp] theorem originalCalls_append (a b : List Event) :
    originalCalls (a ++ b) = originalCalls a ++ originalCalls b := by
  simp [originalCalls]

@[simp] theorem closedHandles_append (a b : List Event) :
    closedHandles (a ++ b) = closedHandles a ++ closedHandles b := by
  simp [closedHandles]

@[simp] theorem releases_DebugLog (m : String) (t : List Event) :
    releases (Event.DebugLog m :: t) = releases t := rfl

@[simp] theorem releases_original (c : OriginalCall) (t : List Event) :
    releases (Event.original c :: t) = releases t := rfl

@[simp] theorem releases_toolkit (c : ToolkitCall) (t : List Event) :
    releases (Event.toolkit c :: t) = releases t := rfl

@[simp] theorem releases_device (c : DeviceCall) (t : List Event) :
    releases (Event.device c :: t) = releases t := rfl

@[simp] theorem releases_render (c : RenderCall) (t : List Event) :
    releases (Event.render c :: t) = releases t := rfl

@[simp] theorem releases_Release (h : Handle) (t : List Event) :
    releases (Event.Release h :: t) = h :: releases t := rfl

@[simp] theorem releases_AddRef (h : Handle) (t : List Event) :
    releases (Event.AddRef h :: t) = releases t := rfl

@[simp] theorem releases_CloseHandle (h : Handle) (t : List Event) :
    releases (Event.CloseHandle h :: t) = releases t := rfl

@[simp] theorem releases_deleteFrameContexts  (t : List Event) :
    releases (Event.deleteFrameContexts :: t) = releases t := rfl

@[simp] theorem releases_newFrameContexts (n : Nat) (t : List Event) :
    releases (Event.newFrameContexts n :: t) = releases t := rfl

@[simp] theorem releases_hooks_Remove  (t : List Event) :
    releases (Event.hooks_Remove :: t) = releases t := rfl

@[simp] theorem releases_nil : releases [] = [] := rfl

@[simp] theorem originalCalls_DebugLog (m : String) (t : List Event) :
    originalCalls (Event.DebugLog m :: t) = originalCalls t := rfl

@[simp] theorem originalCalls_original (c : OriginalCall) (t : List Event) :
    originalCalls (Event.original c :: t) = c :: originalCalls t := rfl

@[simp] theorem originalCalls_toolkit (c : ToolkitCall) (t : List Event) :
    originalCalls (Event.toolkit c :: t) = originalCalls t := rfl

@[simp] theorem originalCalls_device (c : DeviceCall) (t : List Event) :
    originalCalls (Event.device c :: t) = originalCalls t := rfl

@[simp] theorem originalCalls_render (c : RenderCall) (t : List Event) :
    originalCalls (Event.render c :: t) = originalCalls t := rfl

@[simp] theorem originalCalls_Release (h : Handle) (t : List Event) :
    originalCalls (Event.Release h :: t) = originalCalls t := rfl

@[simp] theorem originalCalls_AddRef (h : Handle) (t : List Event) :
    originalCalls (Event.AddRef h :: t) = originalCalls t := rfl

@[simp] theorem originalCalls_CloseHandle (h : Handle) (t : List Event) :
    originalCalls (Event.CloseHandle h :: t) = originalCalls t := rfl

@[simp] theorem originalCalls_deleteFrameContexts  (t : List Event) :
    originalCalls (Event.deleteFrameContexts :: t) = originalCalls t := rfl

@[simp] theorem originalCalls_newFrameContexts (n : Nat) (t : List Event) :
    originalCalls (Event.newFrameContexts n :: t) = originalCalls t := rfl

@[simp] theorem originalCalls_hooks_Remove  (t : List Event) :
    originalCalls (Event.hooks_Remove :: t) = originalCalls t := rfl

@[simp] theorem originalCalls_nil : originalCalls [] = [] := rfl

@[simp] theorem closedHandles_DebugLog (m : String) (t : List Event) :
    closedHandles (Event.DebugLog m :: t) = closedHandles t := rfl

@[simp] theorem closedHandles_original (c : OriginalCall) (t : List Event) :
    closedHandles (Event.original c :: t) = closedHandles t := rfl

@[simp] theorem closedHandles_toolkit (c : ToolkitCall) (t : List Event) :
    closedHandles (Event.toolkit c :: t) = closedHandles t := rfl

@[simp] theorem closedHandles_device (c : DeviceCall) (t : List Event) :
    closedHandles (Event.device c :: t) = closedHandles t := rfl

@[simp] theorem closedHandles_render (c : RenderCall) (t : List Event) :
    closedHandles (Event.render c :: t) = closedHandles t := rfl

@[simp] theorem closedHandles_Release (h : Handle) (t : List Event) :
    closedHandles (Event.Release h :: t) = closedHandles t := rfl

@[simp] theorem closedHandles_AddRef (h : Handle) (t : List Event) :
    closedHandles (Event.AddRef h :: t) = closedHandles t := rfl

@[simp] theorem closedHandles_CloseHandle (h : Handle) (t : List Event) :
    closedHandles (Event.CloseHandle h :: t) = h :: closedHandles t := rfl

@[simp] theorem closedHandles_deleteFrameContexts  (t : List Event) :
    closedHandles (Event.deleteFrameContexts :: t) = closedHandles t := rfl

@[simp] theorem closedHandles_newFrameContexts (n : Nat) (t : List Event) :
    closedHandles (Event.newFrameContexts n :: t) = closedHandles t := rfl

@[simp] theorem closedHandles_hooks_Remove  (t : List Event) :
    closedHandles (Event.hooks_Remove :: t) = closedHandles t := rfl

@[simp] theorem closedHandles_nil : closedHandles [] = [] := rfl

theorem releaseIfSet_observed (p : Option Handle) :
    releases (releaseIfSet p) = p.toList ∧ originalCalls (releaseIfSet p) = [] ∧
      closedHandles (releaseIfSet p) = [] ∧ toolkitCalls (releaseIfSet p) = [] := by
  cases p <;> exact ⟨rfl, rfl, rfl, rfl⟩

theorem releaseSlots_observed (l : List FrameContext) :
    releases (l.flatMap releaseSlotTargetFirst)
        = l.flatMap (fun c => c.renderTarget.toList ++ c.allocator.toList) ∧
      originalCalls (l.flatMap releaseSlotTargetFirst) = [] ∧
      closedHandles (l.flatMap releaseSlotTargetFirst) = [] ∧
      toolkitCalls (l.flatMap releaseSlotTargetFirst) = [] := by
  induction l with
  | nil => exact ⟨rfl, rfl, rfl, rfl⟩
  | cons c rest ih =>
    obtain ⟨a, b, d, e⟩ := ih
    simp only [List.flatMap_cons, releases_append, originalCalls_append, closedHandles_append,
      toolkitCalls_append, releaseSlotTargetFirst, releaseIfSet_observed, a, b, d, e,
      List.append_nil, and_self]

/-- C20: `hookResizeBuffersD3D12`.  Called while the session is initialised it shuts down
the two toolkit backends, destroys the toolkit context and removes the input hook, releases
the command list, the two descriptor heaps and, for each of the `gBufferCount` slots, the
render target and the allocator (those that are set), frees the slot array, and leaves the
variables as they were except that the command list, the heaps and the slot array are null,
`gBufferCount` is 0 and `gInitialized` is false: the fence, its event, `gOverlayFenceValue`,
the device and the queue are unchanged and nothing is closed.  Called while not initialised
it changes no variable, releases nothing and calls nothing of the toolkit.  In both cases
its one call of an original function is the original resize with the caller's arguments,
made last, and it returns the value of that call. -/
theorem hookResizeBuffersD3D12_tears_down_and_forwards (env : Env) (s : State)
    (pSwapChain BufferCount Width Height NewFormat SwapChainFlags : Nat) :
    (s.gInitialized = true →
      (hookResizeBuffersD3D12 env s pSwapChain BufferCount Width Height NewFormat
          SwapChainFlags).state
        = { s with gCommandList := none, gHeapRTV := none, gHeapSRV := none,
                   gFrameContexts := none, gBufferCount := 0, gInitialized := false } ∧
      toolkitCalls (hookResizeBuffersD3D12 env s pSwapChain BufferCount Width Height NewFormat
          SwapChainFlags).trace
        = [.ImGui_ImplDX12_Shutdown, .ImGui_ImplWin32_Shutdown, .ImGui_DestroyContext,
           .inputhook_Remove env.mainWindow] ∧
      releases (hookResizeBuffersD3D12 env s pSwapChain BufferCount Width Height NewFormat
          SwapChainFlags).trace
        = s.gCommandList.toList ++ s.gHeapRTV.toList ++ s.gHeapSRV.toList
          ++ (visitedSlots s).flatMap (fun c => c.renderTarget.toList ++ c.allocator.toList) ∧
      Event.deleteFrameContexts ∈ (hookResizeBuffersD3D12 env s pSwapChain BufferCount Width
          Height NewFormat SwapChainFlags).trace) ∧
    (s.gInitialized = false →
      (hookResizeBuffersD3D12 env s pSwapChain BufferCount Width Height NewFormat
          SwapChainFlags).state = s ∧
      toolkitCalls (hookResizeBuffersD3D12 env s pSwapChain BufferCount Width Height NewFormat
          SwapChainFlags).trace = [] ∧
      releases (hookResizeBuffersD3D12 env s pSwapChain BufferCount Width Height NewFormat
          SwapChainFlags).trace = [] ∧
      Event.deleteFrameContexts ∉ (hookResizeBuffersD3D12 env s pSwapChain BufferCount Width
          Height NewFormat SwapChainFlags).trace) ∧
    closedHandles (hookResizeBuffersD3D12 env s pSwapChain BufferCount Width Height NewFormat
        SwapChainFlags).trace = [] ∧
    originalCalls (hookResizeBuffersD3D12 env s pSwapChain BufferCount Width Height NewFormat
        SwapChainFlags).trace
      = [.ResizeBuffers pSwapChain BufferCount Width Height NewFormat SwapChainFlags] ∧
    (hookResizeBuffersD3D12 env s pSwapChain BufferCount Width Height NewFormat
        SwapChainFlags).trace.getLast?
      = some (.original
          (.ResizeBuffers pSwapChain BufferCount Width Height NewFormat SwapChainFlags)) ∧
    (hookResizeBuffersD3D12 env s pSwapChain BufferCount Width Height NewFormat
        SwapChainFlags).ret
      = env.oResizeBuffersD3D12 pSwapChain BufferCount Width Height NewFormat
          SwapChainFlags := by
  obtain ⟨a, b, c, d⟩ := releaseSlots_observed (visitedSlots s)
  have hlast : ∃ pre, (hookResizeBuffersD3D12 env s pSwapChain BufferCount Width Height
      NewFormat SwapChainFlags).trace = pre ++ [.original
        (.ResizeBuffers pSwapChain BufferCount Width Height NewFormat SwapChainFlags)] := by
    unfold hookResizeBuffersD3D12
    split_ifs <;> exact ⟨_, rfl⟩
  have hget : (hookResizeBuffersD3D12 env s pSwapChain BufferCount Width Height NewFormat
      SwapChainFlags).trace.getLast? = some (.original
        (.ResizeBuffers pSwapChain BufferCount Width Height NewFormat SwapChainFlags)) := by
    obtain ⟨pre, hp⟩ := hlast
    rw [hp]
    simp
  cases h : s.gInitialized
  · refine ⟨fun hc => (by cases hc), fun _ => ⟨?_, ?_, ?_, ?_⟩, ?_, ?_, hget, ?_⟩ <;>
      simp [hookResizeBuffersD3D12, h]
  · refine ⟨fun _ => ⟨?_, ?_, ?_, ?_⟩, fun hc => (by cases hc), ?_, ?_, hget, ?_⟩ <;>
      simp [hookResizeBuffersD3D12, h, releaseIfSet_observed, a, b, c, d]

end d3d12hook

namespace d3d12hook

/-- Witness of `hookResizeBuffersD3D12_tears_down_and_forwards`: a resize of the steady
example session releases the command list, the two heaps and, slot by slot, the render
target and the allocator. -/
theorem hookResizeBuffersD3D12_tears_down_and_forwards_witness :
    steady.gInitialized = true ∧
    releases (hookResizeBuffersD3D12 envOk steady 1 2 0 0 0 0).trace
      = [800, 201, 202, 300, 400, 301, 401] :=
  ⟨by decide,
   ((hookResizeBuffersD3D12_tears_down_and_forwards envOk steady 1 2 0 0 0 0).1
      (by decide)).2.2.1.trans (by decide)⟩

end d3d12hook

namespace PluginAPI

/-- The replay does reject traces that break the discipline: a callback invoked, or the
original called, while a mutex is held, and a second lock of a held mutex. -/
theorem heldAfter_rejects (m : Mutex) (cb : CallbackId) (fn : Nat) (args : Args) (site : Site) :
    heldAfter [] [.lock m, .invoke site cb args, .unlock m] = none ∧
    heldAfter [] [.lock m, .original fn args, .unlock m] = none ∧
    heldAfter [] [.lock m, .lock m, .unlock m, .unlock m] = none := by
  simp [heldAfter]

end PluginAPI

namespace Settings

/-! ## The menu hot-key round trip -/

theorem hexChar_spec : ∀ d, d < 16 →
    isspace (hexChar d) = false ∧ hexChar d ≠ '-' ∧ hexChar d ≠ '+' ∧ hexChar d ≠ 'x' ∧
      hexChar d ≠ 'X' ∧ digitIn 16 (hexChar d) = some d := by
  decide

theorem hexDigits_ne_nil (n : Nat) : hexDigits n ≠ [] := by
  rw [hexDigits]
  split_ifs <;> simp

theorem hexDigits_mem (n : Nat) : ∀ c ∈ hexDigits n, ∃ d, d < 16 ∧ c = hexChar d := by
  induction n using Nat.strong_induction_on with
  | _ n ih =>
    intro c hc
    rw [hexDigits] at hc
    split_ifs at hc with h
    · exact ⟨n, h, by simpa using hc⟩
    · rcases List.mem_append.1 hc with hc | hc
      · exact ih (n / 16) (by omega) c hc
      · exact ⟨n % 16, Nat.mod_lt _ (by norm_num), by simpa using hc⟩

theorem foldl_hexDigits (n : Nat) :
    (hexDigits n).foldl (fun acc c => acc * 16 + (digitIn 16 c).getD 0) 0 = n := by
  induction n using Nat.strong_induction_on with
  | _ n ih =>
    rw [hexDigits]
    split_ifs with h
    · simp [(hexChar_spec n h).2.2.2.2.2]
    · rw [List.foldl_append, ih (n / 16) (by omega)]
      simp [(hexChar_spec (n % 16) (Nat.mod_lt _ (by norm_num))).2.2.2.2.2]
      omega

/-- `std::stoi` reads back what `std::hex` wrote. -/
theorem stoi_hexDigits (n : Nat) (hn : n < 2 ^ 31) : stoi (hexDigits n) 16 = some (n : Int) := by
  have hmem := hexDigits_mem n
  have hfold := foldl_hexDigits n
  have hne := hexDigits_ne_nil n
  generalize hexDigits n = L at hmem hfold hne
  cases L with
  | nil => exact absurd rfl hne
  | cons c0 rest =>
    obtain ⟨d0, hd0, rfl⟩ := hmem c0 (List.mem_cons_self _ _)
    obtain ⟨h1, h2, h3, -, -, -⟩ := hexChar_spec d0 hd0
    have hx : ¬ (rest.head? = some 'x' ∨ rest.head? = some 'X') := by
      cases rest with
      | nil => simp
      | cons c1 r2 =>
        obtain ⟨d1, hd1, rfl⟩ := hmem c1 (by simp)
        obtain ⟨-, -, -, h4, h5, -⟩ := hexChar_spec d1 hd1
        simp [h4, h5]
    have hall : ∀ c ∈ hexChar d0 :: rest, (digitIn 16 c).isSome = true := by
      intro c hc
      obtain ⟨d, hd, rfl⟩ := hmem c hc
      rw [(hexChar_spec d hd).2.2.2.2.2]
      rfl
    have htake : List.takeWhile (fun c => (digitIn 16 c).isSome) (hexChar d0 :: rest)
        = hexChar d0 :: rest := List.takeWhile_eq_self_iff.2 hall
    have hr : -2 ^ 31 ≤ (n : Int) ∧ (n : Int) < 2 ^ 31 := by
      constructor
      · have : (0 : Int) ≤ (n : Int) := Int.natCast_nonneg n
        omega
      · exact_mod_cast hn
    simp only [stoi, List.dropWhile_cons, h1, Bool.false_eq_true, if_false, List.head?_cons,
      Option.some.injEq, h2, h3, or_self, decide_False, List.tail_cons, hx, and_false,
      false_and, true_and]
    rw [htake, hfold, if_neg (List.cons_ne_nil _ _), if_pos hr]

theorem ParseVirtualKey_generic (n : Nat) (hn : n < 2 ^ 31) :
    ParseVirtualKey (String.mk ("VK_0x".data ++ hexDigits n)) = (n : Int) := by
  have hv : "VK_0x".data ++ hexDigits n = 'V' :: 'K' :: '_' :: '0' :: 'x' :: hexDigits n := rfl
  have hp : "VK_".data.isPrefixOf ('V' :: 'K' :: '_' :: '0' :: 'x' :: hexDigits n) = true := by
    rfl
  have hi : ('V' :: 'K' :: '_' :: '0' :: 'x' :: hexDigits n).indexOf 'x' = 4 := by
    simp [List.indexOf_cons]
  simp only [ParseVirtualKey, hv, hp, hi, true_or, if_true, List.length_cons, List.drop_succ_cons,
    List.drop_zero]
  rw [if_pos (by omega), stoi_hexDigits n hn]

/-- C30: the menu hot-key text written by `Settings::Save` is read back unchanged by
`Settings::Load`: for every key code `k` with `0 ≤ k < 2^31`,
`ParseVirtualKey(VirtualKeyToString(k)) = k`, for the sixteen named keys and for the
generic `VK_0x<hex>` form. -/
theorem ParseVirtualKey_VirtualKeyToString (k : Int) (h0 : 0 ≤ k) (h1 : k < 2 ^ 31) :
    ParseVirtualKey (VirtualKeyToString k) = k := by
  unfold VirtualKeyToString
  by_cases a0 : k = VK_F1
  · rw [if_pos a0, a0]
    decide
  rw [if_neg a0]
  by_cases a1 : k = VK_F2
  · rw [if_pos a1, a1]
    decide
  rw [if_neg a1]
  by_cases a2 : k = VK_F3
  · rw [if_pos a2, a2]
    decide
  rw [if_neg a2]
  by_cases a3 : k = VK_F4
  · rw [if_pos a3, a3]
    decide
  rw [if_neg a3]
  by_cases a4 : k = VK_F5
  · rw [if_pos a4, a4]
    decide
  rw [if_neg a4]
  by_cases a5 : k = VK_F6
  · rw [if_pos a5, a5]
    decide
  rw [if_neg a5]
  by_cases a6 : k = VK_F7
  · rw [if_pos a6, a6]
    decide
  rw [if_neg a6]
  by_cases a7 : k = VK_F8
  · rw [if_pos a7, a7]
    decide
  rw [if_neg a7]
  by_cases a8 : k = VK_F9
  · rw [if_pos a8, a8]
    decide
  rw [if_neg a8]
  by_cases a9 : k = VK_F10
  · rw [if_pos a9, a9]
    decide
  rw [if_neg a9]
  by_cases a10 : k = VK_F11
  · rw [if_pos a10, a10]
    decide
  rw [if_neg a10]
  by_cases a11 : k = VK_F12
  · rw [if_pos a11, a11]
    decide
  rw [if_neg a11]
  by_cases a12 : k = VK_INSERT
  · rw [if_pos a12, a12]
    decide
  rw [if_neg a12]
  by_cases a13 : k = VK_DELETE
  · rw [if_pos a13, a13]
    decide
  rw [if_neg a13]
  by_cases a14 : k = VK_HOME
  · rw [if_pos a14, a14]
    decide
  rw [if_neg a14]
  by_cases a15 : k = VK_END
  · rw [if_pos a15, a15]
    decide
  rw [if_neg a15]
  obtain ⟨n, rfl⟩ := Int.eq_ofNat_of_zero_le h0
  have hn : n < 2 ^ 31 := by exact_mod_cast h1
  have hmod : ((n : Int) % 2 ^ 32).toNat = n := by
    omega
  rw [hmod]
  exact ParseVirtualKey_generic n hn

/-- Witness of `ParseVirtualKey_VirtualKeyToString`: the key code 27 (`VK_ESCAPE`), written
as `VK_0x1b`, and the named key `VK_INSERT` are read back. -/
theorem ParseVirtualKey_VirtualKeyToString_witness :
    ParseVirtualKey (VirtualKeyToString 27) = 27 ∧
    ParseVirtualKey (VirtualKeyToString VK_INSERT) = VK_INSERT :=
  ⟨ParseVirtualKey_VirtualKeyToString 27 (by decide) (by decide),
   ParseVirtualKey_VirtualKeyToString VK_INSERT (by decide) (by decide)⟩

end Settings

namespace PluginAPI

/-! ## `SimpleHookManager`: the index map and the entry vector -/

theorem mapFind_eq_none_iff {K V : Type} [DecidableEq K] (m : List (K × V)) (k : K) :
    mapFind m k = none ↔ k ∉ m.map Prod.fst := by
  induction m with
  | nil => simp [mapFind]
  | cons e rest ih =>
    obtain ⟨k1, v1⟩ := e
    by_cases h : k1 = k
    · simp [mapFind, h]
    · simp [mapFind, h, ih, Ne.symm h]

theorem mapFind_of_mem {K V : Type} [DecidableEq K] (m : List (K × V)) (k : K) (v : V)
    (hnd : (m.map Prod.fst).Nodup) (h : (k, v) ∈ m) : mapFind m k = some v := by
  induction m with
  | nil => cases h
  | cons e rest ih =>
    obtain ⟨k1, v1⟩ := e
    simp only [List.map_cons, List.nodup_cons] at hnd
    rcases List.mem_cons.1 h with h | h
    · injection h with hk hv
      simp [mapFind, hk, hv]
    · have hne : k1 ≠ k := fun e => hnd.1 (e ▸ List.mem_map_of_mem Prod.fst h)
      simp [mapFind, hne, ih hnd.2 h]

theorem mapSubscript_of_none {K V : Type} [DecidableEq K] (m : List (K × V)) (k : K) (d : V)
    (f : V → V) (h : mapFind m k = none) : mapSubscript m k d f = m ++ [(k, f d)] := by
  induction m with
  | nil => rfl
  | cons e rest ih =>
    obtain ⟨k1, v1⟩ := e
    by_cases hk : k1 = k
    · simp [mapFind, hk] at h
    · simp only [mapFind, hk, if_false] at h
      simp [mapSubscript, hk, ih h]

theorem length_mapErase {K V : Type} [DecidableEq K] (m : List (K × V)) (k : K) (v : V)
    (hnd : (m.map Prod.fst).Nodup) (h : mapFind m k = some v) :
    (mapErase m k).length + 1 = m.length := by
  induction m with
  | nil => simp [mapFind] at h
  | cons e rest ih =>
    obtain ⟨k1, v1⟩ := e
    simp only [List.map_cons, List.nodup_cons] at hnd
    by_cases hk : k1 = k
    · subst hk
      simp only [mapErase, List.filter_cons, ne_eq, not_true_eq_false, decide_False,
        Bool.false_eq_true, if_false, List.length_cons, add_left_inj]
      congr 1
      rw [List.filter_eq_self]
      intro a ha
      have : a.1 ≠ k1 := fun e => hnd.1 (e ▸ List.mem_map_of_mem Prod.fst ha)
      simpa using this
    · simp only [mapFind, hk, if_false] at h
      have := ih hnd.2 h
      simp [mapErase, List.filter_cons, hk] at this ⊢
      omega

theorem mem_mapErase {K V : Type} [DecidableEq K] (m : List (K × V)) (k : K) (p : K × V) :
    p ∈ mapErase m k ↔ p ∈ m ∧ p.1 ≠ k := by
  simp [mapErase]

end PluginAPI

namespace PluginAPI

/-- The two ways `SimpleHookManager::RegisterHook` ends: it fails and leaves the three
registries as they were, or it succeeds for a key that was absent and appends. -/
theorem SimpleRegisterHook_cases (env : NativeEnv) (st : SimpleHookState)
    (c f : Option String) (cb : Option CallbackId) :
    ((SimpleHookManager.RegisterHook env st c f cb).2 = false ∧
      (SimpleHookManager.RegisterHook env st c f cb).1.g_Hooks = st.g_Hooks ∧
      (SimpleHookManager.RegisterHook env st c f cb).1.g_HookMap = st.g_HookMap ∧
      (SimpleHookManager.RegisterHook env st c f cb).1.g_HookCallbacks = st.g_HookCallbacks) ∨
    ((SimpleHookManager.RegisterHook env st c f cb).2 = true ∧
      ∃ cn fn k orig T, c = some cn ∧ f = some fn ∧ cb = some k ∧
        mapFind st.g_HookMap (hookKey cn fn) = none ∧
        (SimpleHookManager.RegisterHook env st c f cb).1.g_Hooks
          = st.g_Hooks ++ [⟨cn, fn, some k, orig, T⟩] ∧
        (SimpleHookManager.RegisterHook env st c f cb).1.g_HookMap
          = mapSubscript st.g_HookMap (hookKey cn fn) 0 (fun _ => st.g_Hooks.length) ∧
        (SimpleHookManager.RegisterHook env st c f cb).1.g_HookCallbacks
          = mapSubscript st.g_HookCallbacks T none (fun _ => some k)) := by
  unfold SimpleHookManager.RegisterHook
  split
  · rename_i cn fn k
    simp only
    by_cases h1 : (mapFind st.g_HookMap (hookKey cn fn)).isSome = true
    · rw [if_pos h1]
      exact Or.inl ⟨rfl, rfl, rfl, rfl⟩
    · have hnone : mapFind st.g_HookMap (hookKey cn fn) = none := by
        simpa using h1
      rw [if_neg h1]
      (repeat' split) <;>
        first
        | exact Or.inl ⟨rfl, rfl, rfl, rfl⟩
        | exact Or.inr ⟨rfl, cn, fn, k, _, _, rfl, rfl, rfl, hnone, rfl, rfl, rfl⟩
  · exact Or.inl ⟨rfl, rfl, rfl, rfl⟩

/-- The two ways `SimpleHookManager::UnregisterHook` ends. -/
theorem SimpleUnregisterHook_cases (st : SimpleHookState) (c f : Option String) :
    ((SimpleHookManager.UnregisterHook st c f).2 = false ∧
      (SimpleHookManager.UnregisterHook st c f).1 = st) ∨
    ((SimpleHookManager.UnregisterHook st c f).2 = true ∧
      ∃ cn fn index entry, c = some cn ∧ f = some fn ∧
        mapFind st.g_HookMap (hookKey cn fn) = some index ∧
        st.g_Hooks.get? index = some entry ∧
        (SimpleHookManager.UnregisterHook st c f).1.g_Hooks = st.g_Hooks.eraseIdx index ∧
        (SimpleHookManager.UnregisterHook st c f).1.g_HookMap
          = (mapErase st.g_HookMap (hookKey cn fn)).map
              (fun pair => if pair.2 > index then (pair.1, pair.2 - 1) else pair) ∧
        (SimpleHookManager.UnregisterHook st c f).1.g_HookCallbacks
          = mapErase st.g_HookCallbacks entry.TargetAddress) := by
  unfold SimpleHookManager.UnregisterHook
  split
  · rename_i cn fn
    simp only
    split
    · exact Or.inl ⟨rfl, rfl⟩
    · split
      · exact Or.inl ⟨rfl, rfl⟩
      · rename_i _ index hfind _ entry hget
        exact Or.inr ⟨rfl, cn, fn, index, entry, rfl, rfl, hfind, hget, rfl, rfl, rfl⟩
  · exact Or.inl ⟨rfl, rfl⟩

end PluginAPI

namespace PluginAPI

theorem Consistent_initial : Consistent SimpleHookState.initial := by
  simp [Consistent, SimpleHookState.initial]

theorem Consistent_index_lt (st : SimpleHookState) (h : Consistent st) (p : String × Nat)
    (hp : p ∈ st.g_HookMap) : p.2 < st.g_Hooks.length := by
  obtain ⟨e, he, -⟩ := h.2.2.2 p hp
  rw [List.get?_eq_getElem?] at he
  exact (List.getElem?_eq_some.1 he).1

theorem Consistent_register (st st2 : SimpleHookState) (h : Consistent st) (e : HookEntry)
    (hnone : mapFind st.g_HookMap (hookKey e.ClassName e.FunctionName) = none)
    (hhooks : st2.g_Hooks = st.g_Hooks ++ [e])
    (hmap : st2.g_HookMap
      = mapSubscript st.g_HookMap (hookKey e.ClassName e.FunctionName) 0
          (fun _ => st.g_Hooks.length)) :
    Consistent st2 := by
  rw [mapSubscript_of_none _ _ _ _ hnone] at hmap
  have hlt := Consistent_index_lt st h
  obtain ⟨hk, hv, hlen, hget⟩ := h
  refine ⟨?_, ?_, ?_, ?_⟩
  · rw [hmap, List.map_append, List.nodup_append]
    refine ⟨hk, by simp, ?_⟩
    intro a ha hb
    rw [List.map_singleton, List.mem_singleton] at hb
    simp only at hb
    subst hb
    exact (mapFind_eq_none_iff _ _).1 hnone ha
  · rw [hmap, List.map_append, List.nodup_append]
    refine ⟨hv, by simp, ?_⟩
    intro a ha hb
    rw [List.map_singleton, List.mem_singleton] at hb
    simp only at hb
    obtain ⟨p, hp, rfl⟩ := List.mem_map.1 ha
    have := hlt p hp
    omega
  · rw [hmap, hhooks, List.length_append, List.length_append, hlen]
    rfl
  · intro p hp
    rw [hmap] at hp
    rw [hhooks, List.get?_eq_getElem?]
    rcases List.mem_append.1 hp with hp | hp
    · obtain ⟨e2, he2, hkey⟩ := hget p hp
      rw [List.get?_eq_getElem?] at he2
      exact ⟨e2, by rw [List.getElem?_append_left (hlt p hp)]; exact he2, hkey⟩
    · rw [List.mem_singleton] at hp
      subst hp
      exact ⟨e, by simp, rfl⟩

theorem Consistent_unregister (st st2 : SimpleHookState) (h : Consistent st) (key : String)
    (index : Nat) (hfind : mapFind st.g_HookMap key = some index)
    (hhooks : st2.g_Hooks = st.g_Hooks.eraseIdx index)
    (hmap : st2.g_HookMap = (mapErase st.g_HookMap key).map
      (fun pair => if pair.2 > index then (pair.1, pair.2 - 1) else pair)) :
    Consistent st2 := by
  have hlt := Consistent_index_lt st h
  obtain ⟨hk, hv, hlen, hget⟩ := h
  have hmemk : (key, index) ∈ st.g_HookMap := mem_of_mapFind _ _ _ hfind
  have hidx : index < st.g_Hooks.length := hlt _ hmemk
  have hne : ∀ p ∈ mapErase st.g_HookMap key, p.2 ≠ index := by
    intro p hp hpi
    obtain ⟨hpm, hpk⟩ := (mem_mapErase _ _ _).1 hp
    have := List.inj_on_of_nodup_map hv hpm hmemk hpi
    exact hpk (congrArg Prod.fst this)
  have hfst : (fun p : String × Nat => (if p.2 > index then (p.1, p.2 - 1) else p).1)
      = Prod.fst := by
    funext p
    split_ifs <;> rfl
  refine ⟨?_, ?_, ?_, ?_⟩
  · rw [hmap, List.map_map]
    show (List.map (fun p : String × Nat => (if p.2 > index then (p.1, p.2 - 1) else p).1)
      (mapErase st.g_HookMap key)).Nodup
    rw [hfst]
    exact (List.Nodup.sublist (List.Sublist.map _ (List.filter_sublist _)) hk)
  · rw [hmap, List.map_map]
    apply List.Nodup.map_on
    · intro x hx y hy hxy
      have hx2 := hne x hx
      have hy2 := hne y hy
      have hxm := ((mem_mapErase _ _ _).1 hx).1
      have hym := ((mem_mapErase _ _ _).1 hy).1
      have hval : x.2 = y.2 := by
        simp only [Function.comp] at hxy
        split_ifs at hxy <;> omega
      exact List.inj_on_of_nodup_map hv hxm hym hval
    · exact (List.Nodup.filter _ (List.Nodup.of_map _ hv))
  · rw [hmap, hhooks, List.length_map, List.length_eraseIdx, if_pos hidx]
    have := length_mapErase _ _ _ hk hfind
    omega
  · intro p hp
    rw [hmap] at hp
    obtain ⟨q, hq, rfl⟩ := List.mem_map.1 hp
    obtain ⟨hqm, hqk⟩ := (mem_mapErase _ _ _).1 hq
    obtain ⟨e, he, hkey⟩ := hget q hqm
    have hq2 := hne q hq
    rw [List.get?_eq_getElem?] at he
    rw [hhooks, List.get?_eq_getElem?, List.getElem?_eraseIdx]
    split_ifs with h1 h2 h3
    · omega
    · refine ⟨e, ?_, hkey⟩
      rw [show q.2 - 1 + 1 = q.2 by omega]
      exact he
    · exact ⟨e, he, hkey⟩
    · omega

end PluginAPI

namespace PluginAPI

theorem Consistent_managerCall (env : NativeEnv) (st : SimpleHookState) (c : ManagerCall)
    (h : Consistent st) : Consistent (managerCall env st c).1 := by
  cases c with
  | RegisterHook cn fn cb =>
    rcases SimpleRegisterHook_cases env st cn fn cb with ⟨-, h1, h2, -⟩ | ⟨-, x⟩
    · unfold Consistent at h ⊢
      simp only [managerCall]
      rw [h1, h2]
      exact h
    · obtain ⟨c1, f1, k, orig, T, -, -, -, hnone, hh, hm, -⟩ := x
      exact Consistent_register st _ h ⟨c1, f1, some k, orig, T⟩ hnone hh hm
  | UnregisterHook cn fn =>
    rcases SimpleUnregisterHook_cases st cn fn with ⟨-, h1⟩ | ⟨-, x⟩
    · simp only [managerCall]
      rw [h1]
      exact h
    · obtain ⟨c1, f1, index, entry, -, -, hfind, -, hh, hm, -⟩ := x
      exact Consistent_unregister st _ h _ index hfind hh hm

theorem Consistent_runManager (st : SimpleHookState) (calls : List (NativeEnv × ManagerCall))
    (h : Consistent st) : Consistent (runManager st calls) := by
  induction calls generalizing st with
  | nil => exact h
  | cons x rest ih =>
    obtain ⟨env, c⟩ := x
    exact ih _ (Consistent_managerCall env st c h)

theorem Consistent_values (st : SimpleHookState) (h : Consistent st) (i : Nat) :
    i < st.g_Hooks.length ↔ i ∈ st.g_HookMap.map Prod.snd := by
  constructor
  · intro hi
    have hsub : st.g_HookMap.map Prod.snd ⊆ List.range st.g_Hooks.length := by
      intro v hv
      obtain ⟨p, hp, rfl⟩ := List.mem_map.1 hv
      exact List.mem_range.2 (Consistent_index_lt st h p hp)
    have hperm := (List.subperm_of_subset h.2.1 hsub).perm_of_length_le (by
      rw [List.length_range, List.length_map, h.2.2.1])
    exact hperm.symm.subset (List.mem_range.2 hi)
  · intro hv
    obtain ⟨p, hp, rfl⟩ := List.mem_map.1 hv
    exact Consistent_index_lt st h p hp

/-- C28: for every sequence of `SimpleHookManager::RegisterHook` and `UnregisterHook` calls
from start-up, whatever the native world answers: `g_HookMap` has exactly `g_Hooks.size()`
entries; its values are pairwise distinct and are exactly the indices below
`g_Hooks.size()`; an entry `key -> i` points at the element of `g_Hooks` whose
`ClassName + "::" + FunctionName` is `key`, so the index found by `UnregisterHook` is always
in range and its "Invalid hook index in registry" branch is never taken; and a call that
returns false leaves `g_Hooks`, `g_HookMap` and `g_HookCallbacks` as they were. -/
theorem SimpleHookManager_registry_consistent (calls : List (NativeEnv × ManagerCall)) :
    (runManager SimpleHookState.initial calls).g_HookMap.length
      = (runManager SimpleHookState.initial calls).g_Hooks.length ∧
    ((runManager SimpleHookState.initial calls).g_HookMap.map Prod.snd).Nodup ∧
    (∀ i, i < (runManager SimpleHookState.initial calls).g_Hooks.length ↔
      i ∈ (runManager SimpleHookState.initial calls).g_HookMap.map Prod.snd) ∧
    (∀ key i, mapFind (runManager SimpleHookState.initial calls).g_HookMap key = some i →
      i < (runManager SimpleHookState.initial calls).g_Hooks.length ∧
      ∃ e, (runManager SimpleHookState.initial calls).g_Hooks.get? i = some e ∧
        hookKey e.ClassName e.FunctionName = key) ∧
    (∀ env call, (managerCall env (runManager SimpleHookState.initial calls) call).2 = false →
      (managerCall env (runManager SimpleHookState.initial calls) call).1.g_Hooks
        = (runManager SimpleHookState.initial calls).g_Hooks ∧
      (managerCall env (runManager SimpleHookState.initial calls) call).1.g_HookMap
        = (runManager SimpleHookState.initial calls).g_HookMap ∧
      (managerCall env (runManager SimpleHookState.initial calls) call).1.g_HookCallbacks
        = (runManager SimpleHookState.initial calls).g_HookCallbacks) := by
  have h := Consistent_runManager SimpleHookState.initial calls Consistent_initial
  generalize runManager SimpleHookState.initial calls = st at h
  refine ⟨h.2.2.1, h.2.1, Consistent_values st h, fun key i hf => ?_, fun env call hfalse => ?_⟩
  · have hm := mem_of_mapFind _ _ _ hf
    exact ⟨Consistent_index_lt st h _ hm, h.2.2.2 _ hm⟩
  · cases call with
    | RegisterHook cn fn cb =>
      rcases SimpleRegisterHook_cases env st cn fn cb with ⟨-, h1, h2, h3⟩ | ⟨ht, -⟩
      · exact ⟨h1, h2, h3⟩
      · simp only [managerCall] at hfalse
        rw [ht] at hfalse
        cases hfalse
    | UnregisterHook cn fn =>
      rcases SimpleUnregisterHook_cases st cn fn with ⟨-, h1⟩ | ⟨ht, -⟩
      · simp only [managerCall]
        rw [h1]
        exact ⟨rfl, rfl, rfl⟩
      · simp only [managerCall] at hfalse
        rw [ht] at hfalse
        cases hfalse

/-- Witness of `SimpleHookManager_registry_consistent`: after registering `Foo::Bar` and
`Foo::Baz` and unregistering `Foo::Bar`, the key of `Foo::Baz` points at index 0, which is
in range: the entry vector is not empty. -/
theorem SimpleHookManager_registry_consistent_witness :
    0 < (runManager SimpleHookState.initial
      [(nativeOk, .RegisterHook (some "Foo") (some "Bar") (some 7)),
       (nativeOk, .RegisterHook (some "Foo") (some "Baz") (some 8)),
       (nativeOk, .UnregisterHook (some "Foo") (some "Bar"))]).g_Hooks.length :=
  ((SimpleHookManager_registry_consistent
      [(nativeOk, .RegisterHook (some "Foo") (some "Bar") (some 7)),
       (nativeOk, .RegisterHook (some "Foo") (some "Baz") (some 8)),
       (nativeOk, .UnregisterHook (some "Foo") (some "Bar"))]).2.2.2.1
    (hookKey "Foo" "Baz") 0 (by decide)).1

end PluginAPI

namespace PluginAPI

/-! ## `SimpleHookManager`: which calls reach the callback -/

/-- C27: after a successful `RegisterHook("Foo", "Bar", cb7)` the callback is stored under
the native target address (20480), but `MinHookWrapper(Obj, Stack, Result)` looks it up
under `Obj`, the first argument of the intercepted call.  So an intercepted call invokes
`cb7` only when its first argument happens to equal the target address, and for every
other first argument invokes nothing.  After a successful `UnregisterHook("Foo", "Bar")`
no call invokes it. -/
theorem MinHookWrapper_looks_up_first_argument :
    (SimpleHookManager.RegisterHook nativeOk SimpleHookState.initial (some "Foo") (some "Bar")
      (some 7)).2 = true ∧
    fooBarHooked.g_Hooks.map (fun e => e.TargetAddress) = [20480] ∧
    fooBarHooked.g_HookCallbacks = [(20480, some 7)] ∧
    (∀ Obj Stack Result : Nat,
      MinHookWrapper fooBarHooked Obj Stack Result
        = if Obj = 20480 then [.lock, .callback 7, .unlock] else [.lock, .unlock]) ∧
    MinHookWrapper fooBarHooked 1000 2000 3000 = [.lock, .unlock] ∧
    (SimpleHookManager.UnregisterHook fooBarHooked (some "Foo") (some "Bar")).2 = true ∧
    (∀ Obj Stack Result : Nat,
      MinHookWrapper (SimpleHookManager.UnregisterHook fooBarHooked (some "Foo")
        (some "Bar")).1 Obj Stack Result = [.lock, .unlock]) := by
  have h1 : fooBarHooked.g_HookCallbacks = [(20480, some 7)] := by decide
  have h2 : (SimpleHookManager.UnregisterHook fooBarHooked (some "Foo")
      (some "Bar")).1.g_HookCallbacks = [] := by decide
  refine ⟨by decide, by decide, h1, fun Obj Stack Result => ?_, by decide, by decide,
    fun Obj Stack Result => ?_⟩
  · unfold MinHookWrapper
    rw [h1]
    by_cases h : Obj = 20480
    · subst h
      rfl
    · have h3 : ¬ (20480 = Obj) := fun e => h e.symm
      simp [mapFind, h, h3]
  · unfold MinHookWrapper
    rw [h2]
    rfl

end PluginAPI

namespace d3d12hook

/-! ## Process detachment -/

/-- C26: on process detachment the trampolines are removed after the objects are released,
not before.  In every call of `d3d12hook::release()` the call of `hooks::Remove()` is the
last event: every `Release`, the `CloseHandle` of the fence event and the `delete[]` of the
slot array come before it (`gShutdown` is set on entry).  In `DllMain`, `MH_DisableHook` and
`MH_RemoveHook` come later still; the trace of a `DLL_PROCESS_DETACH` with the steady
example session shows the order. -/
theorem release_frees_before_removing_trampolines :
    (∀ (env : Env) (s : State),
      (release env s).1.gShutdown = true ∧
      ∃ pre, (release env s).2 = pre ++ [Event.hooks_Remove] ∧
        releases pre = releases (release env s).2 ∧
        closedHandles pre = closedHandles (release env s).2 ∧
        pre.count Event.deleteFrameContexts
          = (release env s).2.count Event.deleteFrameContexts) ∧
    (DllMain_DLL_PROCESS_DETACH envOk true steady).2
      = [.DebugLog "[DllMain] DLL_PROCESS_DETACH. Releasing hooks and uninitializing MinHook.\n",
         .release (.DebugLog "[d3d12hook] Releasing resources and hooks.\n"),
         .release (.toolkit (.inputhook_Remove (some 900))),
         .release (.toolkit .ImGui_ImplDX12_Shutdown),
         .release (.toolkit .ImGui_ImplWin32_Shutdown),
         .release (.toolkit .ImGui_DestroyContext),
         .release (.Release 800), .release (.Release 201), .release (.Release 202),
         .release (.Release 300), .release (.Release 400), .release (.Release 301),
         .release (.Release 401), .release .deleteFrameContexts, .release (.Release 600),
         .release (.CloseHandle 700), .release (.Release 500), .release (.Release 100),
         .release .hooks_Remove,
         .mousehooks_Remove, .MH_DisableHook_MH_ALL_HOOKS, .MH_RemoveHook_MH_ALL_HOOKS,
         DetachEvent.MH_Uninitialize, .GUILogger_Shutdown] := by
  refine ⟨fun env s => ⟨rfl, ?_⟩, by decide⟩
  have hx : ∃ pre, (release env s).2 = pre ++ [Event.hooks_Remove] := ⟨_, rfl⟩
  obtain ⟨pre, hp⟩ := hx
  refine ⟨pre, hp, ?_, ?_, ?_⟩
  · rw [hp]
    simp
  · rw [hp]
    simp
  · rw [hp]
    simp

end d3d12hook

namespace d3d12hook

/-! ## The fast path before a queue is captured -/

theorem presentBody_fast (env : Env) (call : PresentCall) (s : State) (t : List Event)
    (h : s.gCommandQueue = none) :
    ∃ s1 t1, presentBody env call s t = returnOriginal env call s1 (t ++ t1) ∧
      (session s1).2 = (session s).2 ∧
      (t1 = [.DebugLog "[d3d12hook] CommandQueue not yet captured, skipping frame\n"] ∨
        t1 = [.DebugLog "[d3d12hook] CommandQueue not yet captured, skipping frame\n",
              .device .GetDevice]) := by
  unfold presentBody
  simp only
  split
  · split
    · exact ⟨{ s with gAfterFirstPresent := true, gDevice := env.swapChainGetDevice },
        [.DebugLog "[d3d12hook] CommandQueue not yet captured, skipping frame\n",
         .device .GetDevice], by rw [List.append_assoc]; rfl, rfl, Or.inr rfl⟩
    · exact ⟨{ s with gAfterFirstPresent := true },
        [.DebugLog "[d3d12hook] CommandQueue not yet captured, skipping frame\n"],
        rfl, rfl, Or.inl rfl⟩
  · rename_i q hq
    rw [h] at hq
    cases hq

/-- A presentation call made while no queue is captured: nothing of the session changes
but, possibly, the captured device; the only calls are log lines, at most one `GetDevice`
on the swap chain, and the original presentation call. -/
theorem hookPresent_fast (env : Env) (s : State) (call : PresentCall)
    (h : s.gCommandQueue = none) :
    (session (hookPresent env s call).state).2 = (session s).2 ∧
    toolkitCalls (hookPresent env s call).trace = [] ∧
    renderCalls (hookPresent env s call).trace = [] ∧
    submissions (hookPresent env s call).trace = [] ∧
    (deviceCalls (hookPresent env s call).trace = [] ∨
      deviceCalls (hookPresent env s call).trace = [.GetDevice]) := by
  obtain ⟨s0, t0, heq, hsess, hlogs⟩ := hookPresent_prologue env s call
  have hq : s0.gCommandQueue = none := by
    simp only [session, Prod.mk.injEq] at hsess
    rw [hsess.2.1]
    exact h
  obtain ⟨s1, t1, hb, hs1, ht1⟩ := presentBody_fast env call s0 t0 hq
  obtain ⟨hr, ht, hd, hsub, -⟩ := onlyLogs_observed t0 hlogs
  rw [heq, hb]
  simp only [returnOriginal_observed, renderCalls_append, toolkitCalls_append,
    deviceCalls_append, submissions_append, hr, ht, hd, hsub, List.nil_append]
  refine ⟨by rw [hs1, hsess], ?_⟩
  rcases ht1 with rfl | rfl <;> simp

theorem runCalls_fast (s : State) (calls : List (Env × PresentCall))
    (h : s.gCommandQueue = none) :
    (session (runCalls s (calls.map (fun x => (x.1, HookCall.present x.2))))).2
      = (session s).2 := by
  induction calls generalizing s with
  | nil => rfl
  | cons x rest ih =>
    obtain ⟨env, call⟩ := x
    simp only [List.map_cons, runCalls, hookCall]
    have h1 := (hookPresent_fast env s call h).1
    have hq : (hookPresent env s call).state.gCommandQueue = none := by
      have := congrArg Prod.fst h1
      simp only [session] at this
      rw [this]
      exact h
    rw [ih _ hq, h1]

/-- C25: for every `n`, `n` consecutive calls of `hookPresentD3D12` / `hookPresent1D3D12`
made while no command queue has been captured each take the fast path.  After any number
of such calls the session is as before except, possibly, for the captured device
(`gInitialized` unchanged, no heap, slot, command list or fence, `gOverlayFenceValue`
unchanged, still no queue); and the next call makes no toolkit call, no call on fence,
allocator, command list or queue, no submission, no device call other than at most one
`GetDevice` on the swap chain, and calls the original presentation function once with the
caller's arguments, returning its value. -/
theorem hookPresent_fast_path (s : State) (calls : List (Env × PresentCall)) (env : Env)
    (call : PresentCall) (h : s.gCommandQueue = none) :
    (session (runCalls s (calls.map (fun x => (x.1, HookCall.present x.2))))).2
      = (session s).2 ∧
    toolkitCalls (hookPresent env
      (runCalls s (calls.map (fun x => (x.1, HookCall.present x.2)))) call).trace = [] ∧
    renderCalls (hookPresent env
      (runCalls s (calls.map (fun x => (x.1, HookCall.present x.2)))) call).trace = [] ∧
    submissions (hookPresent env
      (runCalls s (calls.map (fun x => (x.1, HookCall.present x.2)))) call).trace = [] ∧
    (deviceCalls (hookPresent env
        (runCalls s (calls.map (fun x => (x.1, HookCall.present x.2)))) call).trace = [] ∨
      deviceCalls (hookPresent env
        (runCalls s (calls.map (fun x => (x.1, HookCall.present x.2)))) call).trace
        = [.GetDevice]) ∧
    (hookPresent env
      (runCalls s (calls.map (fun x => (x.1, HookCall.present x.2)))) call).trace.filter
        isPresentCall = [call.event] ∧
    (hookPresent env
      (runCalls s (calls.map (fun x => (x.1, HookCall.present x.2)))) call).ret
      = call.result env := by
  have hrun := runCalls_fast s calls h
  have hq : (runCalls s (calls.map (fun x => (x.1, HookCall.present x.2)))).gCommandQueue
      = none := by
    have := congrArg Prod.fst hrun
    simp only [session] at this
    rw [this]
    exact h
  generalize runCalls s (calls.map (fun x => (x.1, HookCall.present x.2))) = s1 at hrun hq ⊢
  obtain ⟨-, a, b, c, d⟩ := hookPresent_fast env s1 call hq
  have hfwd : (hookPresent env s1 call).trace.filter isPresentCall = [call.event] ∧
      (hookPresent env s1 call).ret = call.result env := by
    cases call with
    | Present sc si fl => exact (forwarded_hookPresentD3D12 env s1 sc si fl).spec.2
    | Present1 sc si fl pp => exact (forwarded_hookPresent1D3D12 env s1 sc si fl pp).spec.2
  exact ⟨hrun, a, b, c, d, hfwd.1, hfwd.2⟩

/-- Witness of `hookPresent_fast_path`: three presentation calls at start-up, then a fourth:
still not initialised and nothing rendered. -/
theorem hookPresent_fast_path_witness :
    (runCalls State.initial
      ([(envOk, PresentCall.Present 1 0 0), (envOk, PresentCall.Present1 1 0 0 0),
        (envOk, PresentCall.Present 1 0 0)].map
          (fun x => (x.1, HookCall.present x.2)))).gInitialized = false ∧
    renderCalls (hookPresent envOk (runCalls State.initial
      ([(envOk, PresentCall.Present 1 0 0), (envOk, PresentCall.Present1 1 0 0 0),
        (envOk, PresentCall.Present 1 0 0)].map (fun x => (x.1, HookCall.present x.2))))
      (.Present 1 0 0)).trace = [] :=
  ⟨by decide,
   (hookPresent_fast_path State.initial
      [(envOk, PresentCall.Present 1 0 0), (envOk, PresentCall.Present1 1 0 0 0),
       (envOk, PresentCall.Present 1 0 0)] envOk (.Present 1 0 0) rfl).2.2.1⟩

end d3d12hook

namespace d3d12hook

/-! ## Queue capture -/

/-- C24, counterexample: the first direct queue of the captured device is not the one
captured when it is not passed in the first submission after a presentation call.  With
device 100 captured, the first submission after the presentation call passes a non-direct
queue (400): nothing is captured and `gAfterFirstPresent` is cleared.  The next submission
passes queue 500, direct and of device 100: it is not examined and nothing is captured.
After another presentation call a submission passes queue 600, direct and of device 100:
600 is captured. -/
theorem hookExecuteCommandLists_skips_first_matching_queue :
    deviceCaptured.gDevice = some 100 ∧ deviceCaptured.gCommandQueue = none ∧
    (hookExecuteCommandListsD3D12 { envOk with queueIsDirect := false } deviceCaptured
      400 1 none).1.gCommandQueue = none ∧
    envOk.queueIsDirect = true ∧ envOk.queueGetDevice = some (some 100) ∧
    (hookExecuteCommandListsD3D12 envOk
      (hookExecuteCommandListsD3D12 { envOk with queueIsDirect := false } deviceCaptured
        400 1 none).1 500 1 none).1.gCommandQueue = none ∧
    (hookExecuteCommandListsD3D12 envOk
      (hookPresentD3D12 envOk
        (hookExecuteCommandListsD3D12 envOk
          (hookExecuteCommandListsD3D12 { envOk with queueIsDirect := false } deviceCaptured
            400 1 none).1 500 1 none).1 1 0 0).state 600 1 none).1.gCommandQueue
      = some 600 := by
  decide

/-- C24, amended: `hookExecuteCommandListsD3D12` captures the queue passed to it exactly
when no queue is captured yet, the call is the first submission after a presentation call
(`gAfterFirstPresent`), `GetDevice` on the queue succeeds and yields the captured device,
and the queue's type is the direct type; in every other case the captured queue is left as
it is, so a captured queue is never replaced.  Every call clears `gAfterFirstPresent` and
calls the original submission function exactly once, as its last action, with the
caller's arguments. -/
theorem hookExecuteCommandLists_captures (env : Env) (s : State) (_this n : Nat)
    (lists : Option Handle) :
    (hookExecuteCommandListsD3D12 env s _this n lists).1.gCommandQueue
      = (if s.gCommandQueue = none ∧ s.gAfterFirstPresent = true
            ∧ env.queueGetDevice = some s.gDevice ∧ env.queueIsDirect = true
         then some _this else s.gCommandQueue) ∧
    (hookExecuteCommandListsD3D12 env s _this n lists).1.gAfterFirstPresent = false ∧
    originalCalls (hookExecuteCommandListsD3D12 env s _this n lists).2
      = [.ExecuteCommandLists _this n lists] ∧
    (hookExecuteCommandListsD3D12 env s _this n lists).2.getLast?
      = some (.original (.ExecuteCommandLists _this n lists)) := by
  refine ⟨?_, rfl, ?_, by simp [hookExecuteCommandListsD3D12]⟩
  · rcases hq : s.gCommandQueue with _ | q <;> rcases ha : s.gAfterFirstPresent with _ | _ <;>
      rcases hgd : env.queueGetDevice with _ | _ | qd <;> rcases hd : s.gDevice with _ | d <;>
      rcases hdir : env.queueIsDirect with _ | _ <;>
      simp [hookExecuteCommandListsD3D12, hq, ha, hgd, hd, hdir] <;>
      split_ifs <;> simp_all
  · rcases hq : s.gCommandQueue with _ | q <;> rcases ha : s.gAfterFirstPresent with _ | _ <;>
      rcases hgd : env.queueGetDevice with _ | _ | qd <;> rcases hd : s.gDevice with _ | d <;>
      rcases hdir : env.queueIsDirect with _ | _ <;>
      simp [hookExecuteCommandListsD3D12, hq, ha, hgd, hd, hdir, releaseIfSet] <;>
      split_ifs <;> simp [originalCalls]

end d3d12hook

namespace d3d12hook

/-! ## After `release()` -/

/-- C23: after `release()` the session acquires objects again.  `release()` on the steady
session leaves every object null with `gShutdown` true and `gInitialized` false.  The next
presentation call takes the path without a queue and stores the device of the swap chain in
`gDevice`; the next queue submission captures queue 500 (with `AddRef`); the presentation
call after that runs first-frame initialisation again: it creates both descriptor heaps,
the frame slots with their allocators and render targets, the fence and its event, sets up
the UI toolkit and the input hook, and sets `gInitialized`.  `gShutdown` stays true and no
overlay command is recorded or submitted. -/
theorem release_is_not_terminal :
    session released
      = (none, none, none, none, none, none, none, 0, 0, none, false, true) ∧
    (hookPresentD3D12 envOk released 1 0 0).state.gDevice = some 100 ∧
    (hookExecuteCommandListsD3D12 envOk
      (hookPresentD3D12 envOk released 1 0 0).state 500 1 none).1.gCommandQueue = some 500 ∧
    Event.AddRef 500 ∈ (hookExecuteCommandListsD3D12 envOk
      (hookPresentD3D12 envOk released 1 0 0).state 500 1 none).2 ∧
    session (hookPresentD3D12 envOk
      (hookExecuteCommandListsD3D12 envOk
        (hookPresentD3D12 envOk released 1 0 0).state 500 1 none).1 1 0 0).state
      = (some 100, some 500, some 201, some 202, none, some 600, some 700, 0, 2,
         some [⟨some 400, some 300, 4096⟩, ⟨some 401, some 301, 4128⟩], true, true) ∧
    toolkitCalls (hookPresentD3D12 envOk
      (hookExecuteCommandListsD3D12 envOk
        (hookPresentD3D12 envOk released 1 0 0).state 500 1 none).1 1 0 0).trace
      = [.ImGui_CreateContext, .ImGui_StyleColorsDark, .ImGui_ImplWin32_Init 900,
         .ImGui_ImplDX12_Init (some 100) 2 28 (some 202), .inputhook_Init 900] ∧
    renderCalls (hookPresentD3D12 envOk
      (hookExecuteCommandListsD3D12 envOk
        (hookPresentD3D12 envOk released 1 0 0).state 500 1 none).1 1 0 0).trace = [] := by
  refine ⟨rfl, by decide, by decide, by decide, rfl, by decide, by decide⟩

end d3d12hook

namespace d3d12hook

/-! ## Device loss -/

end d3d12hook

namespace d3d12hook

end d3d12hook

namespace d3d12hook

/-! ## The frame slots after first-frame initialisation -/

theorem updateSlot_length (f : FrameContext → FrameContext) (i : Nat) (l : List FrameContext) :
    (updateSlot f i l).length = l.length := by
  induction l generalizing i with
  | nil => cases i <;> rfl
  | cons c rest ih =>
    cases i with
    | zero => rfl
    | succ i => simp only [updateSlot, List.length_cons, ih]

theorem updateSlot_get? (f : FrameContext → FrameContext) (i j : Nat) (l : List FrameContext) :
    (updateSlot f i l).get? j = (l.get? j).map (fun c => if i = j then f c else c) := by
  induction l generalizing i j with
  | nil => cases i <;> rfl
  | cons c rest ih =>
    cases i with
    | zero =>
      cases j with
      | zero => simp [updateSlot]
      | succ j => simp [updateSlot]
    | succ i =>
      cases j with
      | zero => simp [updateSlot]
      | succ j =>
        have := ih i j
        simpa [updateSlot] using this

theorem createAllocators_spec (env : Env) (l : List Nat) (ctxs : List FrameContext)
    (h : (createAllocators env l ctxs).2.2 = true) :
    (∀ i ∈ l, (env.CreateCommandAllocator i).isSome = true) ∧
    (createAllocators env l ctxs).1.length = ctxs.length ∧
    (∀ j, (createAllocators env l ctxs).1.get? j
      = (ctxs.get? j).map (fun c =>
          if j ∈ l then { c with allocator := env.CreateCommandAllocator j } else c)) ∧
    (∀ i ∈ l, Event.device (.CreateCommandAllocator i) ∈ (createAllocators env l ctxs).2.1) := by
  induction l generalizing ctxs with
  | nil =>
    refine ⟨by simp, rfl, fun j => ?_, by simp⟩
    simp [createAllocators]
  | cons i rest ih =>
    unfold createAllocators at h ⊢
    cases ha : env.CreateCommandAllocator i with
    | none =>
      rw [ha] at h
      simp at h
    | some a =>
      rw [ha] at h
      simp only at h ⊢
      obtain ⟨h1, h2, h3, h4⟩ := ih _ h
      refine ⟨?_, ?_, ?_, ?_⟩
      · intro k hk
        rcases List.mem_cons.1 hk with rfl | hk
        · rw [ha]; rfl
        · exact h1 k hk
      · rw [h2, updateSlot_length]
      · intro j
        rw [h3, updateSlot_get?, Option.map_map]
        congr 1
        funext c
        by_cases hij : i = j
        · subst hij
          simp [ha]
        · have hji : ¬ j = i := fun e => hij e.symm
          simp [hij, hji]
      · intro k hk
        rcases List.mem_cons.1 hk with rfl | hk
        · exact List.mem_cons_self _ _
        · exact List.mem_cons_of_mem _ (h4 k hk)

theorem createRenderTargetViews_spec (env : Env) (m k h : Nat) (ctxs : List FrameContext)
    (hh : h < 2 ^ 64) :
    (createRenderTargetViews env h (List.range' k m) ctxs).1.length = ctxs.length ∧
    (∀ j, (createRenderTargetViews env h (List.range' k m) ctxs).1.get? j
      = (ctxs.get? j).map (fun c =>
          if k ≤ j ∧ j < k + m then
            { c with renderTarget := env.GetBuffer j,
                     rtvHandle := (h + (j - k) * (env.rtvSize % 2 ^ 32)) % 2 ^ 64 }
          else c)) ∧
    (∀ i, k ≤ i → i < k + m →
      Event.device (.GetBuffer i) ∈ (createRenderTargetViews env h (List.range' k m) ctxs).2) := by
  induction m generalizing k h ctxs with
  | zero =>
    refine ⟨rfl, fun j => ?_, fun i h1 h2 => by omega⟩
    have hn : ¬ (k ≤ j ∧ j < k) := by omega
    simp [createRenderTargetViews, hn]
  | succ m ih =>
    rw [List.range'_succ]
    unfold createRenderTargetViews
    simp only
    obtain ⟨h2, h3, h4⟩ := ih (k + 1) ((h + env.rtvSize % 2 ^ 32) % 2 ^ 64)
      (updateSlot (fun c => { c with renderTarget := env.GetBuffer k, rtvHandle := h }) k ctxs)
      (Nat.mod_lt _ (by norm_num))
    refine ⟨?_, ?_, ?_⟩
    · rw [h2, updateSlot_length]
    · intro j
      rw [h3, updateSlot_get?, Option.map_map]
      congr 1
      funext c
      by_cases hkj : k = j
      · subst hkj
        have hn : ¬ (k + 1 ≤ k ∧ k < k + 1 + m) := by omega
        have hp : k ≤ k ∧ k < k + (m + 1) := by omega
        simp only [Function.comp, if_true, hn, if_false, hp, and_self, Nat.sub_self,
          Nat.zero_mul, Nat.add_zero, Nat.mod_eq_of_lt hh]
      · by_cases hr : k + 1 ≤ j ∧ j < k + 1 + m
        · have hp : k ≤ j ∧ j < k + (m + 1) := by omega
          obtain ⟨d, rfl⟩ : ∃ d, j = k + 1 + d := ⟨j - (k + 1), by omega⟩
          have e1 : k + 1 + d - (k + 1) = d := by omega
          have e2 : k + 1 + d - k = d + 1 := by omega
          have e3 : ((h + env.rtvSize % 2 ^ 32) % 2 ^ 64 + d * (env.rtvSize % 2 ^ 32)) % 2 ^ 64
              = (h + (d + 1) * (env.rtvSize % 2 ^ 32)) % 2 ^ 64 := by
            rw [Nat.mod_add_mod, Nat.succ_mul]
            congr 1
            omega
          simp only [Function.comp, hkj, if_false, hr, and_self, if_true, hp, e1, e2, e3]
        · have hp : ¬ (k ≤ j ∧ j < k + (m + 1)) := by omega
          simp only [Function.comp, hkj, if_false, hr, hp]
    · intro i h1 h5
      by_cases hki : i = k
      · subst hki
        simp
      · exact List.mem_append_right _ (h4 i (by omega) (by omega))

/-- The two loops of first-frame initialisation over a zeroed array of `n` slots. -/
theorem freshSlots (env : Env) (n : Nat)
    (h : (createAllocators env (List.range n) (List.replicate n ⟨none, none, 0⟩)).2.2 = true) :
    (createRenderTargetViews env (env.rtvHeapStart % 2 ^ 64) (List.range n)
      (createAllocators env (List.range n) (List.replicate n ⟨none, none, 0⟩)).1).1
      = (List.range n).map (freshSlot env) := by
  obtain ⟨-, h2, h3, -⟩ := createAllocators_spec env _ _ h
  obtain ⟨k2, k3, -⟩ := createRenderTargetViews_spec env n 0 (env.rtvHeapStart % 2 ^ 64)
    (createAllocators env (List.range n) (List.replicate n ⟨none, none, 0⟩)).1
    (Nat.mod_lt _ (by norm_num))
  simp only [← List.range_eq_range'] at k3
  apply List.ext_get?
  intro j
  rw [k3, h3]
  by_cases hj : j < n
  · simp [hj, freshSlot, List.getElem?_replicate]
  · have hr : (List.range n)[j]? = none := List.getElem?_eq_none (by simpa using hj)
    simp [hj, hr, List.getElem?_replicate]

theorem initFenceEvent_continued (env : Env) (call : PresentCall) (s : State) (t : List Event)
    (r : State × List Event) (h : (initFenceEvent env call s t).continued = some r) :
    r.1.gFenceEvent.isSome = true ∧ r.1.gInitialized = true ∧
    r.1.gOverlayFence = s.gOverlayFence ∧ r.1.gDevice = s.gDevice ∧
    r.1.gCommandQueue = s.gCommandQueue ∧ r.1.gHeapRTV = s.gHeapRTV ∧
    r.1.gHeapSRV = s.gHeapSRV ∧ r.1.gBufferCount = s.gBufferCount ∧
    r.1.gFrameContexts = s.gFrameContexts ∧ r.1.gShutdown = s.gShutdown ∧
    (∀ e ∈ t, e ∈ r.2) := by
  unfold initFenceEvent at h
  split at h
  · rename_i ev hev
    simp only [Flow.continued, Option.some.injEq] at h
    subst h
    exact ⟨by simp [hev], rfl, rfl, rfl, rfl, rfl, rfl, rfl, rfl, rfl, fun e he => he⟩
  · split at h
    · simp [cleanupAndReturn, Flow.continued] at h
    · simp only [Flow.continued, Option.some.injEq] at h
      subst h
      exact ⟨rfl, rfl, rfl, rfl, rfl, rfl, rfl, rfl, rfl, rfl,
        fun e he => List.mem_append_left _ he⟩

theorem initFence_continued (env : Env) (call : PresentCall) (s : State) (t : List Event)
    (r : State × List Event) (h : (initFence env call s t).continued = some r) :
    r.1.gOverlayFence.isSome = true ∧ r.1.gFenceEvent.isSome = true ∧
    r.1.gInitialized = true ∧ r.1.gDevice = s.gDevice ∧
    r.1.gCommandQueue = s.gCommandQueue ∧ r.1.gHeapRTV = s.gHeapRTV ∧
    r.1.gHeapSRV = s.gHeapSRV ∧ r.1.gBufferCount = s.gBufferCount ∧
    r.1.gFrameContexts = s.gFrameContexts ∧ r.1.gShutdown = s.gShutdown ∧
    (∀ e ∈ t, e ∈ r.2) := by
  unfold initFence at h
  split at h
  · rename_i f hf
    obtain ⟨h1, h2, h3, h4⟩ := initFenceEvent_continued env call s t r h
    exact ⟨by rw [h3, hf]; rfl, h1, h2, h4⟩
  · split at h
    · simp [cleanupAndReturn, Flow.continued] at h
    · obtain ⟨h1, h2, h3, h4, h5, h6, h7, h8, h9, h10, h11⟩ :=
        initFenceEvent_continued env call _ _ r h
      exact ⟨by rw [h3]; rfl, h1, h2, h4, h5, h6, h7, h8, h9, h10,
        fun e he => h11 e (List.mem_append_left _ he)⟩

/-- What first-frame initialisation leaves behind when it succeeds. -/
theorem firstFrameInit_continued (env : Env) (call : PresentCall) (s : State) (t : List Event)
    (r : State × List Event) (h : (firstFrameInit env call s t).continued = some r) :
    r.1.gBufferCount = env.BufferCount ∧
    r.1.gFrameContexts = some ((List.range env.BufferCount).map (freshSlot env)) ∧
    (∀ i, i < env.BufferCount → (env.CreateCommandAllocator i).isSome = true) ∧
    r.1.gInitialized = true ∧
    r.1.gDevice = env.swapChainGetDevice ∧ r.1.gDevice.isSome = true ∧
    r.1.gHeapRTV = env.CreateDescriptorHeapRTV ∧ r.1.gHeapRTV.isSome = true ∧
    r.1.gHeapSRV = env.CreateDescriptorHeapSRV ∧ r.1.gHeapSRV.isSome = true ∧
    r.1.gOverlayFence.isSome = true ∧ r.1.gFenceEvent.isSome = true ∧
    r.1.gCommandQueue = s.gCommandQueue ∧ r.1.gShutdown = s.gShutdown ∧
    Event.newFrameContexts env.BufferCount ∈ r.2 ∧
    (∀ i, i < env.BufferCount →
      Event.device (.CreateCommandAllocator i) ∈ r.2 ∧ Event.device (.GetBuffer i) ∈ r.2) := by
  unfold firstFrameInit at h
  simp only at h
  split at h
  · simp [Flow.continued] at h
  · rename_i d hd
    split at h
    · simp [cleanupAndReturn, Flow.continued] at h
    · rename_i rtv hrtv
      split at h
      · simp [cleanupAndReturn, Flow.continued] at h
      · rename_i srv hsrv
        split at h
        · simp [cleanupAndReturn, Flow.continued] at h
        · rename_i ha
          obtain ⟨a1, -, -, a4⟩ := createAllocators_spec env _ _ ha
          obtain ⟨-, -, v4⟩ := createRenderTargetViews_spec env env.BufferCount 0
            (env.rtvHeapStart % 2 ^ 64)
            (createAllocators env (List.range env.BufferCount)
              (List.replicate env.BufferCount ⟨none, none, 0⟩)).1 (Nat.mod_lt _ (by norm_num))
          simp only [← List.range_eq_range'] at v4
          obtain ⟨h1, h2, h3, h4, h5, h6, h7, h8, h9, h10, h11⟩ :=
            initFence_continued env call _ _ r h
          simp only at h4 h5 h6 h7 h8 h9 h10
          refine ⟨h8, ?_, fun i hi => a1 i (List.mem_range.2 hi), h3, ?_, ?_, ?_, ?_, ?_, ?_,
            h1, h2, ?_, ?_, ?_, ?_⟩
          · rw [h9, freshSlots env _ ha]
          · rw [h4]
          · rw [h4, hd]; rfl
          · rw [h6, hrtv]
          · rw [h6]; rfl
          · rw [h7, hsrv]
          · rw [h7]; rfl
          · rw [h5]; cases call <;> rfl
          · rw [h10]; cases call <;> rfl
          · exact h11 _ (by simp)
          · intro i hi
            exact ⟨h11 _ (by simp [a4 i (List.mem_range.2 hi)]),
              h11 _ (by
                have v5 := v4 i (Nat.zero_le _) (by omega)
                simp only [List.mem_append]
                tauto)⟩

end d3d12hook

namespace d3d12hook

/-- C21: when first-frame initialisation succeeds (the block hands control on to the
render path) in a call in which the swap chain reports `N = env.BufferCount` buffers,
`gBufferCount` is `N` and `gFrameContexts` is a newly allocated array (`new
FrameContext[N]`) of exactly `N` slots in which slot `i` holds the command allocator that
`CreateCommandAllocator` created for `i` in this call (not null), the back buffer that
`GetBuffer(i)` returned in this call, and the `i`-th descriptor of the render-target heap
(heap start plus `i` times the increment, in the 64-bit arithmetic of `SIZE_T`);
`gInitialized` is true.  The slots are determined by the
answers of this call alone, whatever the variables held before (after a resize they hold
no slot array at all): nothing of an earlier generation is reused. -/
theorem firstFrameInit_allocates_slots (env : Env) (call : PresentCall) (s : State)
    (t : List Event) (r : State × List Event)
    (h : (firstFrameInit env call s t).continued = some r) :
    r.1.gBufferCount = env.BufferCount ∧ r.1.gInitialized = true ∧
    Event.newFrameContexts env.BufferCount ∈ r.2 ∧
    ∃ ctxs, r.1.gFrameContexts = some ctxs ∧ ctxs.length = env.BufferCount ∧
      ∀ i, i < env.BufferCount →
        ∃ a, env.CreateCommandAllocator i = some a ∧
          ctxs.get? i = some ⟨some a, env.GetBuffer i,
            (env.rtvHeapStart % 2 ^ 64 + i * (env.rtvSize % 2 ^ 32)) % 2 ^ 64⟩ ∧
          Event.device (.CreateCommandAllocator i) ∈ r.2 ∧
          Event.device (.GetBuffer i) ∈ r.2 := by
  obtain ⟨h1, h2, h3, h4, -, -, -, -, -, -, -, -, -, -, h5, h6⟩ :=
    firstFrameInit_continued env call s t r h
  refine ⟨h1, h4, h5, _, h2, by simp, fun i hi => ?_⟩
  obtain ⟨a, ha⟩ := Option.isSome_iff_exists.1 (h3 i hi)
  refine ⟨a, ha, ?_, (h6 i hi).1, (h6 i hi).2⟩
  simp [hi, freshSlot, ha]

/-- Witness of `firstFrameInit_allocates_slots`: the steady example session (two slots) is
resized, which leaves no slot array; first-frame initialisation in the next presentation
call, on a swap chain that now reports three buffers, succeeds and allocates three
slots.  With a render-target heap that starts 16 bytes below `2 ^ 64` the descriptor of the
second slot wraps to 16. -/
theorem firstFrameInit_allocates_slots_witness :
    (steady.gFrameContexts.map List.length = some 2 ∧ resized.gFrameContexts = none) ∧
    ((firstFrameInit { envOk with BufferCount := 3 } (.Present 1 0 0) resized []).continued.getD
      (resized, [])).1.gBufferCount = 3 ∧
    ((firstFrameInit { envOk with BufferCount := 3 } (.Present 1 0 0) resized []).continued.getD
      (resized, [])).1.gFrameContexts
      = some [⟨some 400, some 300, 4096⟩, ⟨some 401, some 301, 4128⟩,
              ⟨some 402, some 302, 4160⟩] ∧
    ((firstFrameInit { envOk with rtvHeapStart := 2 ^ 64 - 16 } (.Present 1 0 0) resized
        []).continued.getD (resized, [])).1.gFrameContexts
      = some [⟨some 400, some 300, 2 ^ 64 - 16⟩, ⟨some 401, some 301, 16⟩] :=
  ⟨by decide,
   (firstFrameInit_allocates_slots { envOk with BufferCount := 3 } (.Present 1 0 0) resized []
      _ rfl).1,
   by decide, by decide⟩

end d3d12hook

namespace d3d12hook

/-! ## The objects of an initialised session -/

end d3d12hook

namespace d3d12hook

end d3d12hook

namespace d3d12hook

/-- Witness of `hookExecuteCommandLists_captures`: with device 100 stored by the first
presentation call, the first submission after it passes queue 500, direct and of device
100: queue 500 is captured. -/
theorem hookExecuteCommandLists_captures_witness :
    (hookExecuteCommandListsD3D12 envOk deviceCaptured 500 1 none).1.gCommandQueue = some 500 ∧
    originalCalls (hookExecuteCommandListsD3D12 envOk deviceCaptured 500 1 none).2
      = [.ExecuteCommandLists 500 1 none] :=
  ⟨(hookExecuteCommandLists_captures envOk deviceCaptured 500 1 none).1,
   (hookExecuteCommandLists_captures envOk deviceCaptured 500 1 none).2.2.1⟩

end d3d12hook

namespace PluginAPI

/-! ## Dispatch while callbacks change the registry -/

/-- C2, counterexample: callbacks that return normally but change the registry while the
call is dispatched.  The registry holds the before-chain `[7, 17]` and the after-chain `[8]`
for `Foo::Bar` and no global observer; before-callback 7 unregisters `Foo::Bar`, registers
before-callback 70 for it and registers the global-after observer 90.  Every callback
returns, yet the call also invokes the global-after observer 90, which was not registered
when the call started, and two calls invoke the before-callbacks 7 and 17 once each, not
twice (the second call invokes 70). -/
theorem HookedProcessEvent_reentrant_callback_changes_sequence :
    twoBeforeRegistry.GetGlobalPreCallbacks = [] ∧
    twoBeforeRegistry.GetPreCallbacksByClass "Foo" "Bar" = [some 7, some 17] ∧
    twoBeforeRegistry.GetPostCallbacksByClass "Foo" "Bar" = [some 8] ∧
    twoBeforeRegistry.GetGlobalPostCallbacks = [] ∧
    (HookedProcessEvent sdkAll reentrant (some 99) twoBeforeRegistry fooBar).2.2 = .returned ∧
    invocations (HookedProcessEvent sdkAll reentrant (some 99) twoBeforeRegistry fooBar).2.1
      = [.invoke .pre 7 fooBar, .invoke .pre 17 fooBar, .original 99 fooBar,
         .invoke .post 8 fooBar, .invoke .globalPost 90 fooBar] ∧
    invocations (dispatchTimes sdkAll reentrant (some 99) fooBar 2 twoBeforeRegistry).2
      = [.invoke .pre 7 fooBar, .invoke .pre 17 fooBar, .original 99 fooBar,
         .invoke .post 8 fooBar, .invoke .globalPost 90 fooBar,
         .invoke .pre 70 fooBar, .original 99 fooBar, .invoke .globalPost 90 fooBar] := by
  decide

end PluginAPI

namespace d3d12hook

/-! ## What the wait policy observes -/

end d3d12hook

namespace d3d12hook

/-! ## An exception passing through `menu::Init()` -/

theorem presentBodyExit_returns (env : Env) (call : PresentCall) (s : State) (t : List Event) :
    presentBodyExit env .returns call s t = .returned (presentBody env call s t) := by
  unfold presentBodyExit presentBody renderFrameExit
  simp only
  split
  · split <;> rfl
  · split
    · rfl
    · split
      · split <;> rfl
      · rfl

/-- C3: the presentation hooks do not call the original presentation function when an
exception passes through `menu::Init()`.  When `menu::Init()` returns, the hooks leave
through a `return` of the original call, as `hookPresentD3D12` and `hookPresent1D3D12`
describe.  When plugin code called by `menu::Init()` throws, in a call from the steady
example session, either hook is left by the exception after the three `NewFrame` calls and
`menu::Init()`: no original presentation function has been called and nothing is
returned. -/
theorem hookPresent_exception_skips_original :
    (∀ (env : Env) (s : State) (pSwapChain SyncInterval Flags pParams : Nat),
      hookPresentD3D12Exit env .returns s pSwapChain SyncInterval Flags
        = .returned (hookPresentD3D12 env s pSwapChain SyncInterval Flags) ∧
      hookPresent1D3D12Exit env .returns s pSwapChain SyncInterval Flags pParams
        = .returned (hookPresent1D3D12 env s pSwapChain SyncInterval Flags pParams)) ∧
    (∃ s t, hookPresentD3D12Exit envOk .throws steady 1 0 0 = .unwound s t ∧
      originalCalls t = [] ∧
      toolkitCalls t = [.ImGui_ImplDX12_NewFrame, .ImGui_ImplWin32_NewFrame, .ImGui_NewFrame,
                        .menu_Init]) ∧
    (∃ s t, hookPresent1D3D12Exit envOk .throws steady 1 0 0 0 = .unwound s t ∧
      originalCalls t = [] ∧
      toolkitCalls t = [.ImGui_ImplDX12_NewFrame, .ImGui_ImplWin32_NewFrame, .ImGui_NewFrame,
                        .menu_Init]) := by
  refine ⟨fun env s sc si fl pp => ⟨?_, ?_⟩, ⟨_, _, rfl, by decide, by decide⟩,
    ⟨_, _, rfl, by decide, by decide⟩⟩
  · unfold hookPresentD3D12Exit hookPresentD3D12
    exact presentBodyExit_returns env _ _ _
  · unfold hookPresent1D3D12Exit hookPresent1D3D12
    exact presentBodyExit_returns env _ _ _

end d3d12hook
